import Mathlib

/-!
# x402-stacks-facilitator: normalisation and verification of Stacks payments

A shallow embedding of the Go sources

* `internal/payment/domain/valueobject` (`Amount`, `StacksAddress`, `TransactionID`, `TokenType`),
* `internal/payment/domain/service/verification_service.go` (`VerificationService.Verify`),
* `internal/stacks/client.go` (`parseTransactionResponse`, `parseSIP010Transfer`),
* `internal/payment/infrastructure/blockchain/stacks_client_adapter.go`
  (`WaitForConfirmation`, `GetTransactionWithRetry`),
* `internal/payment/application/command` (`VerifyPaymentHandler.Handle`,
  `SettlePaymentHandler.Handle`, `determinePaymentStatus`),

followed by the properties proved about them.

Modelling conventions.

* Every Go string that reaches this code is decoded from JSON, hence valid UTF-8; it is a Lean
  `String`, and the Go builtin `len` is the UTF-8 byte count `String.utf8ByteSize`.
* `uint64` values are natural numbers; where the Go code can wrap, the reduction modulo `2 ^ 64`
  is written out.
* A Go result `(T, error)` whose value is the zero value on failure is an `Except GoError T`;
  `strconv.ParseUint`, whose value on failure is observed by its caller, returns the pair.
* A nilable pointer is an `Option`.
* The chain and the context of a poller are an environment that gives the outcome of each
  fetch and of each `select`; a poller returns its result together with the number of fetches
  and waits it made.
* A collaborator behind a Go interface is the function from the arguments of its method to the
  pair the method returns; a use case returns its result together with the list of the calls
  it made to its collaborator.
-/

namespace X402

/-! ## Library functions of the Go standard library used by the sources -/

namespace strings

/-- Go `strings.HasPrefix(s, p)`. On valid UTF-8 a byte prefix is a character prefix. -/
def HasPrefix (s p : String) : Bool :=
  p.data.isPrefixOf s.data

/-- Go `strings.TrimPrefix(s, p)`: `s` without the leading `p` when it has one, else `s`. -/
def TrimPrefix (s p : String) : String :=
  if HasPrefix s p then String.mk (s.data.drop p.data.length) else s

end strings

/-- Go `error` values built by the sources: `errors.New`, `fmt.Errorf` with one wrapped error,
and the `*strconv.NumError` of `strconv.ParseUint`. -/
inductive GoError where
  /-- Go `errors.New(msg)`. -/
  | new (msg : String)
  /-- Go `fmt.Errorf(msg + ": %w", err)`. -/
  | wrap (msg : String) (err : GoError)
  /-- Go `&strconv.NumError{Func, Num, Err}` with `Err` one of `ErrSyntax`, `ErrRange`. -/
  | numError (func num : String) (isRange : Bool)
deriving DecidableEq, Repr

namespace strconv

/-- Go `strconv.lower`: `c | ('x' - 'X')` on a byte. -/
def lower (c : Nat) : Nat :=
  c ||| 32

/-- Go `maxUint64`. -/
def maxUint64 : Nat :=
  2 ^ 64 - 1

/-- Go `syntaxError(fn, str)`. -/
def syntaxError (fn str : String) : GoError :=
  GoError.numError fn str false

/-- Go `rangeError(fn, str)`. -/
def rangeError (fn str : String) : GoError :=
  GoError.numError fn str true

/-- The digit loop of Go `strconv.ParseUint` for base 10 and bit size 64, with accumulator `n`.
The Go loop runs over bytes; a character outside ASCII contributes bytes above `0x7f`, the first
of which ends the loop with a syntax error, as the character itself does here. -/
def parseUintLoop (s0 : String) (cutoff maxVal : Nat) : List Char → Nat → Nat × Option GoError
  | [], n => (n, none)
  | ch :: rest, n =>
    let c := ch.toNat
    let digit : Option Nat :=
      if 48 ≤ c ∧ c ≤ 57 then some (c - 48)
      else if 97 ≤ lower c ∧ lower c ≤ 122 then some (lower c - 97 + 10)
      else none
    match digit with
    | none => (0, some (syntaxError "ParseUint" s0))
    | some d =>
      if d ≥ 10 then (0, some (syntaxError "ParseUint" s0))
      else if n ≥ cutoff then (maxVal, some (rangeError "ParseUint" s0))
      else
        let n10 := (n * 10) % 2 ^ 64
        let n1 := (n10 + d) % 2 ^ 64
        if n1 < n10 ∨ n1 > maxVal then (maxVal, some (rangeError "ParseUint" s0))
        else parseUintLoop s0 cutoff maxVal rest n1

/-- Go `strconv.ParseUint(s, 10, 64)`, the only instantiation the sources use: the value and the
error, where the value is `0` on a syntax error and `maxUint64` on a range error. -/
def ParseUint (s : String) : Nat × Option GoError :=
  if s = "" then (0, some (syntaxError "ParseUint" s))
  else parseUintLoop s (maxUint64 / 10 + 1) maxUint64 s.data 0

end strconv

namespace hex

/-- Go `reverseHexTable` of `encoding/hex`: the value of a hexadecimal digit, if it is one. -/
def fromHexChar (c : Char) : Option Nat :=
  let b := c.toNat
  if 48 ≤ b ∧ b ≤ 57 then some (b - 48)
  else if 97 ≤ b ∧ b ≤ 102 then some (b - 97 + 10)
  else if 65 ≤ b ∧ b ≤ 70 then some (b - 65 + 10)
  else none

/-- Go `hex.Decode` on the characters of the source, two at a time; the trailing odd character
is checked before the length error is reported. -/
def Decode : List Char → Except GoError (List Nat)
  | [] => .ok []
  | [p] =>
    match fromHexChar p with
    | none => .error (GoError.new "encoding/hex: invalid byte")
    | some _ => .error (GoError.new "encoding/hex: odd length hex string")
  | p :: q :: rest =>
    match fromHexChar p, fromHexChar q with
    | some a, some b =>
      match Decode rest with
      | .ok bytes => .ok ((a * 16 + b) :: bytes)
      | .error err => .error err
    | _, _ => .error (GoError.new "encoding/hex: invalid byte")

/-- Go `hex.DecodeString`. -/
def DecodeString (s : String) : Except GoError (List Nat) :=
  Decode s.data

end hex

/-- Go builtin `len` on a string: the number of bytes. -/
def len (s : String) : Nat :=
  s.utf8ByteSize

/-! ## Value objects -/

/-- Go `valueobject.Amount`: a `uint64` in base units. -/
structure Amount where
  value : Nat
deriving DecidableEq, Repr

/-- Go `NewAmount`. -/
def NewAmount (value : Nat) : Amount :=
  { value := value }

/-- Go `Amount.IsGreaterThanOrEqual`: `a.value >= other.value`. -/
def Amount.IsGreaterThanOrEqual (a other : Amount) : Bool :=
  decide (a.value ≥ other.value)

/-- Go `Amount.String`: `fmt.Sprintf("%d", a.value)`, the decimal form. -/
def Amount.String (a : Amount) : String :=
  Nat.repr a.value

/-- Go `valueobject.StacksAddress`. -/
structure StacksAddress where
  value : String
deriving DecidableEq, Repr

/-- Go `StacksAddress.String`. -/
def StacksAddress.String (a : StacksAddress) : String :=
  a.value

/-- Go `StacksAddress.Equals`: `a.value == other.value`. -/
def StacksAddress.Equals (a other : StacksAddress) : Bool :=
  decide (a.value = other.value)

/-- Go `StacksAddress.IsZero`: `a.value == ""`. -/
def StacksAddress.IsZero (a : StacksAddress) : Bool :=
  decide (a.value = "")

/-- Go `NewStacksAddress`: non-empty, a known prefix, and between 30 and 50 bytes. -/
def NewStacksAddress (addr : String) : Except GoError StacksAddress :=
  if addr = "" then
    .error (GoError.new "address cannot be empty")
  else if !strings.HasPrefix addr "ST" && !strings.HasPrefix addr "SP" &&
      !strings.HasPrefix addr "SM" && !strings.HasPrefix addr "SN" then
    .error (GoError.new "invalid Stacks address prefix: must start with ST, SP, SM, or SN")
  else if len addr < 30 ∨ len addr > 50 then
    .error (GoError.new "invalid Stacks address length")
  else
    .ok { value := addr }

/-- Go `valueobject.TransactionID`. -/
structure TransactionID where
  value : String
deriving DecidableEq, Repr

/-- Go `NewTransactionID`: the `0x` prefix is added when missing, then the length and the
hexadecimal digits are checked. `normalized[2:]` drops the two characters of the prefix. -/
def NewTransactionID (id : String) : Except GoError TransactionID :=
  if id = "" then
    .error (GoError.new "transaction ID cannot be empty")
  else
    let normalized := if !strings.HasPrefix id "0x" then "0x" ++ id else id
    if len normalized ≠ 66 then
      .error (GoError.new "invalid transaction ID length: expected 66 characters")
    else
      let hexPart := String.mk (normalized.data.drop 2)
      match hex.DecodeString hexPart with
      | .error _ => .error (GoError.new "invalid hex characters in transaction ID")
      | .ok _ => .ok { value := normalized }

/-- Go `valueobject.TokenType`, a named string type. -/
structure TokenType where
  value : String
deriving DecidableEq, Repr

/-- Go constant `TokenSTX`. -/
def TokenSTX : TokenType := { value := "STX" }

/-- Go constant `TokenSBTC`. -/
def TokenSBTC : TokenType := { value := "SBTC" }

/-- Go constant `TokenUSDCX`. -/
def TokenUSDCX : TokenType := { value := "USDCX" }

/-! ## The verification engine (`verification_service.go`) -/

/-- Go `service.BlockchainTransaction`. -/
structure BlockchainTransaction where
  TxID : X402.TransactionID
  TokenType : X402.TokenType
  Sender : X402.StacksAddress
  Recipient : X402.StacksAddress
  Amount : X402.Amount
  Fee : X402.Amount
  Nonce : Nat
  BlockHeight : Nat
  Memo : String
  Status : String
  IsConfirmed : Bool
deriving DecidableEq, Repr

/-- Go `service.VerificationCriteria`; the two pointer fields are options. -/
structure VerificationCriteria where
  ExpectedRecipient : StacksAddress
  MinAmount : Amount
  ExpectedSender : Option StacksAddress
  ExpectedMemo : Option String
  AcceptUnconfirmed : Bool
deriving DecidableEq, Repr

/-- Go `service.VerificationResult`. -/
structure VerificationResult where
  Valid : Bool
  Errors : List String
deriving DecidableEq, Repr

/-- Go `isFailedStatus`: the loop over the three failed statuses, returning at the first hit. -/
def isFailedStatus (status : String) : Bool :=
  let failedStatuses := ["failed", "abort_by_response", "abort_by_post_condition"]
  failedStatuses.any (fun s => decide (status = s))

/-- Go `VerificationService.Verify`: six checks in sequence, each appending to `errors`. -/
def Verify (tx : BlockchainTransaction) (criteria : VerificationCriteria) : VerificationResult :=
  let errors : List String := []
  -- Check if transaction failed
  let errors :=
    if isFailedStatus tx.Status then
      errors ++ ["transaction failed with status: " ++ tx.Status]
    else errors
  -- Check confirmation requirement
  let errors :=
    if !criteria.AcceptUnconfirmed && !tx.IsConfirmed then
      errors ++ ["transaction not confirmed"]
    else errors
  -- Check recipient
  let errors :=
    if !tx.Recipient.Equals criteria.ExpectedRecipient then
      errors ++ ["recipient mismatch: expected " ++ criteria.ExpectedRecipient.String
        ++ ", got " ++ tx.Recipient.String]
    else errors
  -- Check amount
  let errors :=
    if !tx.Amount.IsGreaterThanOrEqual criteria.MinAmount then
      errors ++ ["insufficient amount: expected at least " ++ criteria.MinAmount.String
        ++ ", got " ++ tx.Amount.String]
    else errors
  -- Check optional sender
  let errors :=
    match criteria.ExpectedSender with
    | some expectedSender =>
      if !tx.Sender.Equals expectedSender then
        errors ++ ["sender mismatch: expected " ++ expectedSender.String
          ++ ", got " ++ tx.Sender.String]
      else errors
    | none => errors
  -- Check optional memo
  let errors :=
    match criteria.ExpectedMemo with
    | some expectedMemo =>
      if tx.Memo ≠ expectedMemo then
        errors ++ ["memo mismatch: expected " ++ expectedMemo ++ ", got " ++ tx.Memo]
      else errors
    | none => errors
  { Valid := decide (errors.length = 0), Errors := errors }

/-- The transaction built by `createTestTransaction` in `verification_service_test.go`. -/
def createTestTransaction : BlockchainTransaction :=
  { TxID := { value := "0x1234567890abcdef1234567890abcdef1234567890abcdef1234567890abcdef" }
    TokenType := TokenSTX
    Sender := { value := "ST2J6ZY48GV1EZ5V2V5RB9MP66SW86PYKKNRV9EJ7" }
    Recipient := { value := "ST1PQHQKV0RJXZFY1DGX8MNSNYVE3VGZJSRTPGZGM" }
    Amount := NewAmount 1000000
    Fee := NewAmount 180
    Nonce := 5
    BlockHeight := 12345
    Memo := "test payment"
    Status := "success"
    IsConfirmed := true }

/-- The criteria of `TestVerificationService_ValidTransaction`: the recipient of the test
transaction, a minimum of 500000, no expected sender or memo, confirmation required. -/
def validCriteria : VerificationCriteria :=
  { ExpectedRecipient := { value := "ST1PQHQKV0RJXZFY1DGX8MNSNYVE3VGZJSRTPGZGM" }
    MinAmount := NewAmount 500000
    ExpectedSender := none
    ExpectedMemo := none
    AcceptUnconfirmed := false }

/-- The criteria of `TestVerificationService_CollectsMultipleErrors`: another recipient and a
minimum of 5000000. -/
def multipleErrorsCriteria : VerificationCriteria :=
  { ExpectedRecipient := { value := "ST3J6ZY48GV1EZ5V2V5RB9MP66SW86PYKKNRV9EJ8" }
    MinAmount := NewAmount 5000000
    ExpectedSender := none
    ExpectedMemo := none
    AcceptUnconfirmed := false }

/-- The test transaction with status `failed`, as in
`TestVerificationService_CollectsMultipleErrors` (it keeps `IsConfirmed = true`). -/
def failedConfirmedTransaction : BlockchainTransaction :=
  { createTestTransaction with Status := "failed" }

/-- The test transaction with status `failed` and `IsConfirmed = false`, the form in which the
normaliser delivers a failed transaction. -/
def failedUnconfirmedTransaction : BlockchainTransaction :=
  { createTestTransaction with Status := "failed", IsConfirmed := false }

/-- The unconfirmed test transaction of `TestVerificationService_RejectsUnconfirmedWhenRequired`. -/
def unconfirmedTransaction : BlockchainTransaction :=
  { createTestTransaction with IsConfirmed := false, BlockHeight := 0 }

/-- The criteria of `TestVerificationService_RejectsWrongRecipient`: another recipient, the
minimum of 500000 that the test transaction meets. -/
def wrongRecipientCriteria : VerificationCriteria :=
  { ExpectedRecipient := { value := "ST3J6ZY48GV1EZ5V2V5RB9MP66SW86PYKKNRV9EJ8" }
    MinAmount := NewAmount 500000
    ExpectedSender := none
    ExpectedMemo := none
    AcceptUnconfirmed := false }

/-! ## The normaliser (`internal/stacks/client.go`) -/

/-- Go `stacks.TokenTransferData`. -/
structure TokenTransferData where
  RecipientAddress : String
  Amount : String
  Memo : String
deriving DecidableEq, Repr

/-- Go `stacks.ContractFunctionArgRaw`. -/
structure ContractFunctionArgRaw where
  Hex : String
  Repr : String
  Type_ : String
  Name : String
deriving DecidableEq

/-- Go `stacks.ContractCallData`. -/
structure ContractCallData where
  ContractID : String
  FunctionName : String
  FunctionArgs : List ContractFunctionArgRaw
deriving DecidableEq

/-- Go `stacks.TransactionResponse`; the two pointer fields are options. -/
structure TransactionResponse where
  TxID : String
  TxStatus : String
  TxType : String
  BlockHeight : Nat
  Fee : String
  Nonce : Nat
  SenderAddress : String
  TokenTransfer : Option TokenTransferData
  ContractCall : Option ContractCallData
deriving DecidableEq

/-- Go `IsTransactionConfirmed`: `status == "success" && blockHeight > 0`. -/
def IsTransactionConfirmed (status : String) (blockHeight : Nat) : Bool :=
  decide (status = "success") && decide (blockHeight > 0)

/-- The `for _, arg := range call.FunctionArgs` loop of Go `parseSIP010Transfer`, with the
variables `recipient`, `amount`, `memo` as accumulators and the early returns as errors. -/
def parseSIP010Args : List ContractFunctionArgRaw → StacksAddress → Amount → String →
    Except GoError (StacksAddress × Amount × String)
  | [], recipient, amount, memo => .ok (recipient, amount, memo)
  | arg :: rest, recipient, amount, memo =>
    if arg.Name = "amount" then
      match strconv.ParseUint (strings.TrimPrefix arg.Repr "u") with
      | (_, some err) => .error (GoError.wrap "invalid amount" err)
      | (amountVal, none) => parseSIP010Args rest recipient (NewAmount amountVal) memo
    else if arg.Name = "recipient" ∨ arg.Name = "to" then
      match NewStacksAddress (strings.TrimPrefix arg.Repr "'") with
      | .error err => .error (GoError.wrap "invalid recipient" err)
      | .ok parsed => parseSIP010Args rest parsed amount memo
    else if arg.Name = "memo" then
      parseSIP010Args rest recipient amount arg.Repr
    else
      parseSIP010Args rest recipient amount memo

/-- Go `parseSIP010Transfer`. -/
def parseSIP010Transfer (call : ContractCallData) :
    Except GoError (StacksAddress × Amount × String) :=
  if call.FunctionName ≠ "transfer" then
    .error (GoError.new "not a transfer function")
  else
    match parseSIP010Args call.FunctionArgs { value := "" } { value := 0 } "" with
    | .error err => .error err
    | .ok (recipient, amount, memo) =>
      if recipient.IsZero then
        .error (GoError.new "recipient not found in contract call")
      else
        .ok (recipient, amount, memo)

/-- The branch on the transaction type in Go `parseTransactionResponse`, giving `recipient`,
`amount` and `memo`. -/
def parseTransfer (resp : TransactionResponse) :
    Except GoError (StacksAddress × Amount × String) :=
  match decide (resp.TxType = "token_transfer"), resp.TokenTransfer with
  | true, some tokenTransfer =>
    match NewStacksAddress tokenTransfer.RecipientAddress with
    | .error err => .error (GoError.wrap "invalid recipient address" err)
    | .ok recipient =>
      match strconv.ParseUint tokenTransfer.Amount with
      | (_, some err) => .error (GoError.wrap "invalid amount" err)
      | (amountVal, none) => .ok (recipient, NewAmount amountVal, tokenTransfer.Memo)
  | _, _ =>
    match decide (resp.TxType = "contract_call"), resp.ContractCall with
    | true, some contractCall => parseSIP010Transfer contractCall
    | _, _ => .error (GoError.new "unsupported transaction type")

/-- Go `Client.parseTransactionResponse`; the receiver is not used by the body. -/
def parseTransactionResponse (resp : TransactionResponse) (tokenType : TokenType) :
    Except GoError BlockchainTransaction :=
  match NewTransactionID resp.TxID with
  | .error err => .error (GoError.wrap "invalid tx ID" err)
  | .ok txID =>
    match NewStacksAddress resp.SenderAddress with
    | .error err => .error (GoError.wrap "invalid sender address" err)
    | .ok sender =>
      match parseTransfer resp with
      | .error err => .error err
      | .ok (recipient, amount, memo) =>
        let fee := (strconv.ParseUint resp.Fee).1
        .ok { TxID := txID
              TokenType := tokenType
              Sender := sender
              Recipient := recipient
              Amount := amount
              Fee := NewAmount fee
              Nonce := resp.Nonce
              BlockHeight := resp.BlockHeight
              Memo := memo
              Status := resp.TxStatus
              IsConfirmed := IsTransactionConfirmed resp.TxStatus resp.BlockHeight }

/-- The payload served by the test server of `TestClient_GetTransaction_STXTransfer`. -/
def stxTransferResponse : TransactionResponse :=
  { TxID := "0x1234567890abcdef1234567890abcdef1234567890abcdef1234567890abcdef"
    TxStatus := "success"
    TxType := "token_transfer"
    BlockHeight := 12345
    Fee := "180"
    Nonce := 5
    SenderAddress := "ST2J6ZY48GV1EZ5V2V5RB9MP66SW86PYKKNRV9EJ7"
    TokenTransfer := some
      { RecipientAddress := "ST1PQHQKV0RJXZFY1DGX8MNSNYVE3VGZJSRTPGZGM"
        Amount := "1000000"
        Memo := "test payment" }
    ContractCall := none }

/-- A SIP-010 payload: a `transfer` contract call moving 1000000 base units to the recipient
of the test transaction, with the arguments in the order of the SIP-010 signature. -/
def sip010TransferResponse : TransactionResponse :=
  { TxID := "0x1234567890abcdef1234567890abcdef1234567890abcdef1234567890abcdef"
    TxStatus := "success"
    TxType := "contract_call"
    BlockHeight := 12345
    Fee := "180"
    Nonce := 5
    SenderAddress := "ST2J6ZY48GV1EZ5V2V5RB9MP66SW86PYKKNRV9EJ7"
    TokenTransfer := none
    ContractCall := some
      { ContractID := "SM3VDXK3WZZSA84XXFKAFAF15NNZX32CTSG82JFQ4.sbtc-token"
        FunctionName := "transfer"
        FunctionArgs :=
          [ { Hex := "", Repr := "u1000000", Type_ := "uint", Name := "amount" },
            { Hex := "", Repr := "'ST2J6ZY48GV1EZ5V2V5RB9MP66SW86PYKKNRV9EJ7",
              Type_ := "principal", Name := "sender" },
            { Hex := "", Repr := "'ST1PQHQKV0RJXZFY1DGX8MNSNYVE3VGZJSRTPGZGM",
              Type_ := "principal", Name := "recipient" },
            { Hex := "", Repr := "test payment", Type_ := "(optional (buff 34))",
              Name := "memo" } ] } }

/-- Go `IsTransactionFailed` of `client.go`: the loop over the three failed statuses. -/
def IsTransactionFailed (status : String) : Bool :=
  let failedStatuses := ["failed", "abort_by_response", "abort_by_post_condition"]
  failedStatuses.any (fun s => decide (status = s))

/-! ## The poller (`infrastructure/blockchain/stacks_client_adapter.go`) -/

/-- The environment of one run of a poller: what the chain and the context do.
`fetch n` is the outcome of call number `n` (counting from 0) of
`client.GetTransactionWithTokenType`; `done n` tells whether `<-ctx.Done()` is the case taken by
`select` number `n` (counting from 0), the other case being `<-time.After(retryDelay)`;
`ctxErr` is the value of `ctx.Err()` once the context is done. -/
structure PollEnv where
  fetch : Nat → Except GoError BlockchainTransaction
  done : Nat → Bool
  ctxErr : GoError

/-- The calls made so far by a run of a poller: fetches performed and `select` waits entered. -/
structure PollCount where
  fetches : Nat
  waits : Nat
deriving DecidableEq, Repr

/-- The body of Go `WaitForConfirmation` with `remaining` iterations of the `for` loop left:
each iteration fetches, returns a terminal transaction at once, and otherwise waits in the
`select`; after the loop comes the final fetch, whose outcome is returned as it is. -/
def waitForConfirmationLoop (env : PollEnv) :
    Nat → PollCount → Except GoError BlockchainTransaction × PollCount
  | 0, n => (env.fetch n.fetches, { n with fetches := n.fetches + 1 })
  | remaining + 1, n =>
    match env.fetch n.fetches with
    | .ok tx =>
      if tx.IsConfirmed || IsTransactionFailed tx.Status then
        (.ok tx, { n with fetches := n.fetches + 1 })
      else if env.done n.waits then
        (.error env.ctxErr, { fetches := n.fetches + 1, waits := n.waits + 1 })
      else
        waitForConfirmationLoop env remaining { fetches := n.fetches + 1, waits := n.waits + 1 }
    | .error _ =>
      if env.done n.waits then
        (.error env.ctxErr, { fetches := n.fetches + 1, waits := n.waits + 1 })
      else
        waitForConfirmationLoop env remaining { fetches := n.fetches + 1, waits := n.waits + 1 }

/-- Go `StacksClientAdapter.WaitForConfirmation`: `for i := 0; i < maxRetries; i++` runs
`maxRetries` times, and not at all for a `maxRetries` below 1. The result comes with the count
of the calls made. -/
def WaitForConfirmation (env : PollEnv) (maxRetries : Int) :
    Except GoError BlockchainTransaction × PollCount :=
  waitForConfirmationLoop env maxRetries.toNat { fetches := 0, waits := 0 }

/-- The pending transaction of `TestClient_GetTransaction_PendingTransaction`: status `pending`
at block height 0. -/
def pendingTransaction : BlockchainTransaction :=
  { createTestTransaction with Status := "pending", BlockHeight := 0, IsConfirmed := false }

/-- An environment without cancellation whose first fetch fails, whose second fetch is pending
and whose later fetches return the confirmed test transaction. -/
def confirmsAtThirdFetch : PollEnv :=
  { fetch := fun n =>
      if n = 0 then .error (GoError.new "transaction not found")
      else if n = 1 then .ok pendingTransaction
      else .ok createTestTransaction
    done := fun _ => false
    ctxErr := GoError.new "context canceled" }

/-- An environment without cancellation in which every fetch returns the pending transaction,
with the number of the fetch as nonce. -/
def alwaysPending : PollEnv :=
  { fetch := fun n => .ok { pendingTransaction with Nonce := n }
    done := fun _ => false
    ctxErr := GoError.new "context canceled" }

/-! ## Sample payloads -/

/-- A SIP-010 `transfer` call without a recipient: an amount and a memo that both parse. -/
def noRecipientResponse : TransactionResponse :=
  { sip010TransferResponse with
    ContractCall := some
      { ContractID := "SM3VDXK3WZZSA84XXFKAFAF15NNZX32CTSG82JFQ4.sbtc-token"
        FunctionName := "transfer"
        FunctionArgs :=
          [ { Hex := "", Repr := "u1000000", Type_ := "uint", Name := "amount" },
            { Hex := "", Repr := "test payment", Type_ := "(optional (buff 34))",
              Name := "memo" } ] } }

/-- A `transfer` call without a recipient whose amount argument does not parse. -/
def badAmountNoRecipientResponse : TransactionResponse :=
  { sip010TransferResponse with
    ContractCall := some
      { ContractID := "SM3VDXK3WZZSA84XXFKAFAF15NNZX32CTSG82JFQ4.sbtc-token"
        FunctionName := "transfer"
        FunctionArgs :=
          [ { Hex := "", Repr := "uabc", Type_ := "uint", Name := "amount" } ] } }

/-- A `transfer` call that carries a recipient and no argument named `amount`. -/
def noAmountResponse : TransactionResponse :=
  { sip010TransferResponse with
    ContractCall := some
      { ContractID := "SM3VDXK3WZZSA84XXFKAFAF15NNZX32CTSG82JFQ4.sbtc-token"
        FunctionName := "transfer"
        FunctionArgs :=
          [ { Hex := "", Repr := "'ST1PQHQKV0RJXZFY1DGX8MNSNYVE3VGZJSRTPGZGM",
              Type_ := "principal", Name := "recipient" } ] } }

/-- The payload of `TestClient_GetTransaction_STXTransfer` with a fee one above the largest
`uint64`. -/
def overflowFeeResponse : TransactionResponse :=
  { stxTransferResponse with Fee := "18446744073709551616" }

/-- A `transfer` call with the arguments of the SIP-010 payload in another order, the recipient
named `to`, and an argument with another name. -/
def sip010ReorderedCall : ContractCallData :=
  { ContractID := "SM3VDXK3WZZSA84XXFKAFAF15NNZX32CTSG82JFQ4.sbtc-token"
    FunctionName := "transfer"
    FunctionArgs :=
      [ { Hex := "", Repr := "test payment", Type_ := "(optional (buff 34))", Name := "memo" },
        { Hex := "", Repr := "'ST1PQHQKV0RJXZFY1DGX8MNSNYVE3VGZJSRTPGZGM",
          Type_ := "principal", Name := "to" },
        { Hex := "", Repr := "u7", Type_ := "uint", Name := "fee-hint" },
        { Hex := "", Repr := "u1000000", Type_ := "uint", Name := "amount" } ] }

/-- The SIP-010 payload carrying the reordered call. -/
def sip010ReorderedResponse : TransactionResponse :=
  { sip010TransferResponse with ContractCall := some sip010ReorderedCall }

/-- The reordered SIP-010 payload with a transaction id of four hexadecimal digits, too short
for `NewTransactionID`. -/
def sip010ShortIDResponse : TransactionResponse :=
  { sip010ReorderedResponse with TxID := "0x1234" }

/-- The payload of `TestClient_GetTransaction_STXTransfer` with another amount string. -/
def stxTransferWithAmount (amount : String) : TransactionResponse :=
  { stxTransferResponse with
    TokenTransfer := some
      { RecipientAddress := "ST1PQHQKV0RJXZFY1DGX8MNSNYVE3VGZJSRTPGZGM"
        Amount := amount
        Memo := "test payment" } }

/-- The SIP-010 payload with another repr of its amount argument. -/
def sip010TransferWithAmount (repr : String) : TransactionResponse :=
  { sip010TransferResponse with
    ContractCall := some
      { ContractID := "SM3VDXK3WZZSA84XXFKAFAF15NNZX32CTSG82JFQ4.sbtc-token"
        FunctionName := "transfer"
        FunctionArgs :=
          [ { Hex := "", Repr := repr, Type_ := "uint", Name := "amount" },
            { Hex := "", Repr := "'ST1PQHQKV0RJXZFY1DGX8MNSNYVE3VGZJSRTPGZGM",
              Type_ := "principal", Name := "recipient" } ] } }

/-! ## The fetch-with-retry poller (`stacks_client_adapter.go`) -/

/-- Go `service.BlockchainTransaction{}`, the zero value returned next to an error. -/
def zeroTransaction : BlockchainTransaction :=
  { TxID := { value := "" }
    TokenType := { value := "" }
    Sender := { value := "" }
    Recipient := { value := "" }
    Amount := { value := 0 }
    Fee := { value := 0 }
    Nonce := 0
    BlockHeight := 0
    Memo := ""
    Status := ""
    IsConfirmed := false }

/-- The body of Go `GetTransactionWithRetry` with `remaining` iterations of the `for` loop left
and the variable `lastErr`: each iteration fetches, returns at once on success, and otherwise
records the error and waits in the `select`; after the loop `lastErr` is returned next to the
zero transaction. The Go function returns a pair, whose error can be `nil`. -/
def getTransactionWithRetryLoop (env : PollEnv) :
    Nat → Option GoError → PollCount → (BlockchainTransaction × Option GoError) × PollCount
  | 0, lastErr, n => ((zeroTransaction, lastErr), n)
  | remaining + 1, _, n =>
    match env.fetch n.fetches with
    | .ok tx => ((tx, none), { n with fetches := n.fetches + 1 })
    | .error err =>
      if env.done n.waits then
        ((zeroTransaction, some env.ctxErr), { fetches := n.fetches + 1, waits := n.waits + 1 })
      else
        getTransactionWithRetryLoop env remaining (some err)
          { fetches := n.fetches + 1, waits := n.waits + 1 }

/-- Go `StacksClientAdapter.GetTransactionWithRetry`, with the count of the calls made. -/
def GetTransactionWithRetry (env : PollEnv) (maxRetries : Int) :
    (BlockchainTransaction × Option GoError) × PollCount :=
  getTransactionWithRetryLoop env maxRetries.toNat none { fetches := 0, waits := 0 }

/-- An environment whose first two fetches fail and whose later fetches return the pending
transaction, with the context done at the second wait only. -/
def cancelledAtSecondWait : PollEnv :=
  { fetch := fun n =>
      if n < 2 then .error (GoError.new "transaction not found") else .ok pendingTransaction
    done := fun n => decide (n = 1)
    ctxErr := GoError.new "context canceled" }

/-- An environment without cancellation whose first two fetches fail and whose later fetches
return the pending transaction. -/
def pendingAtThirdFetch : PollEnv :=
  { fetch := fun n =>
      if n < 2 then .error (GoError.new "transaction not found") else .ok pendingTransaction
    done := fun _ => false
    ctxErr := GoError.new "context canceled" }

/-- An environment without cancellation in which fetch number `n` fails with an error that
carries `n`. -/
def alwaysFailing : PollEnv :=
  { fetch := fun n => .error (GoError.new ("transaction not found, attempt " ++ Nat.repr n))
    done := fun _ => false
    ctxErr := GoError.new "context canceled" }

/-! ## Networks, token types and the use cases (`application/command`) -/

namespace strings

/-- Go `unicode.ToLower` as far as its callers observe it: the ASCII capitals, and the two
other characters whose lower case is an ASCII letter (U+0130 and the Kelvin sign U+212A); the
lower case of any other character is outside ASCII, which is all that a comparison with an
ASCII word sees of it. -/
def toLowerChar (c : Char) : Char :=
  if 65 ≤ c.toNat ∧ c.toNat ≤ 90 then Char.ofNat (c.toNat + 32)
  else if c.toNat = 304 then 'i'
  else if c.toNat = 8490 then 'k'
  else c

/-- Go `unicode.ToUpper` as far as its callers observe it: the ASCII small letters, and the two
other characters whose upper case is an ASCII letter (U+0131 and the long s U+017F). -/
def toUpperChar (c : Char) : Char :=
  if 97 ≤ c.toNat ∧ c.toNat ≤ 122 then Char.ofNat (c.toNat - 32)
  else if c.toNat = 305 then 'I'
  else if c.toNat = 383 then 'S'
  else c

/-- Go `strings.ToLower`. -/
def ToLower (s : String) : String :=
  String.mk (s.data.map toLowerChar)

/-- Go `strings.ToUpper`. -/
def ToUpper (s : String) : String :=
  String.mk (s.data.map toUpperChar)

end strings

/-- Go `NewTokenType`: the upper-cased string must be one of the three token names. -/
def NewTokenType (s : String) : Except GoError TokenType :=
  if s = "" then
    .error (GoError.new "token type cannot be empty")
  else
    let normalized := strings.ToUpper s
    if normalized = "STX" then .ok TokenSTX
    else if normalized = "SBTC" then .ok TokenSBTC
    else if normalized = "USDCX" then .ok TokenUSDCX
    else .error (GoError.new ("unsupported token type: " ++ s))

/-- Go `TokenType.String`. -/
def TokenType.String (t : TokenType) : String :=
  t.value

/-- Go `valueobject.Network`, a named string type. -/
structure Network where
  value : String
deriving DecidableEq, Repr

/-- Go constant `NetworkMainnet`. -/
def NetworkMainnet : Network := { value := "mainnet" }

/-- Go constant `NetworkTestnet`. -/
def NetworkTestnet : Network := { value := "testnet" }

/-- Go `NewNetwork`: the lower-cased string must be `mainnet` or `testnet`. -/
def NewNetwork (s : String) : Except GoError Network :=
  if s = "" then
    .error (GoError.new "network cannot be empty")
  else
    let normalized := strings.ToLower s
    if normalized = "mainnet" then .ok NetworkMainnet
    else if normalized = "testnet" then .ok NetworkTestnet
    else .error (GoError.new ("unsupported network: " ++ s))

/-- Go `Network.String`. -/
def Network.String (n : Network) : String :=
  n.value

/-- Go `TransactionID.String`. -/
def TransactionID.String (t : TransactionID) : String :=
  t.value

/-- Go `Amount.Value`. -/
def Amount.Value (a : Amount) : Nat :=
  a.value

/-- Go `determinePaymentStatus`. -/
def determinePaymentStatus (tx : BlockchainTransaction) : String :=
  if tx.IsConfirmed then "confirmed"
  else if tx.Status = "failed" ∨ tx.Status = "abort_by_response" ∨
      tx.Status = "abort_by_post_condition" then "failed"
  else "pending"

/-- Go `command.VerifyPaymentCommand`; the two pointer fields are options. -/
structure VerifyPaymentCommand where
  TxID : String
  TokenType : String
  ExpectedRecipient : String
  MinAmount : Nat
  ExpectedSender : Option String
  ExpectedMemo : Option String
  Network : String
deriving DecidableEq, Repr

/-- Go `command.VerifyPaymentResult`. -/
structure VerifyPaymentResult where
  Valid : Bool
  TxID : String
  SenderAddress : String
  RecipientAddress : String
  Amount : Nat
  Fee : Nat
  Nonce : Nat
  Status : String
  BlockHeight : Nat
  TokenType : String
  Memo : String
  Network : String
  Errors : List String
deriving DecidableEq, Repr

/-- One call of `BlockchainClient.GetTransactionWithRetry` with its arguments. -/
structure GetTransactionWithRetryCall where
  txID : TransactionID
  tokenType : X402.TokenType
  network : X402.Network
  maxRetries : Int
  retryDelay : Nat
deriving DecidableEq, Repr

/-- Go `command.VerifyPaymentHandler`: the `BlockchainClient` collaborator, given by the pair
that its method `GetTransactionWithRetry` returns for its arguments, the retry budget and the
delay in nanoseconds. The verification service has no state. -/
structure VerifyPaymentHandler where
  blockchainClient : GetTransactionWithRetryCall → BlockchainTransaction × Option GoError
  maxRetries : Int
  retryDelay : Nat

/-- Go `NewVerifyPaymentHandler`: 10 retries, 2 seconds apart. -/
def NewVerifyPaymentHandler
    (client : GetTransactionWithRetryCall → BlockchainTransaction × Option GoError) :
    VerifyPaymentHandler :=
  { blockchainClient := client, maxRetries := 10, retryDelay := 2 * 1000000000 }

/-- The token type of a command, as both `Handle` functions compute it: the result of
`NewTokenType`, and `TokenSTX` when that fails (`// Default to STX`). -/
def tokenTypeOrDefault (tokenType : String) : TokenType :=
  match NewTokenType tokenType with
  | .error _ => TokenSTX
  | .ok parsed => parsed

/-- The criteria that Go `VerifyPaymentHandler.Handle` builds from the command and the parsed
expected recipient: confirmation is always required, the expected sender is set when it is
present and `NewStacksAddress` accepts it, the expected memo when it is present. -/
def verifyCriteria (cmd : VerifyPaymentCommand) (expectedRecipient : StacksAddress) :
    VerificationCriteria :=
  let criteria : VerificationCriteria :=
    { ExpectedRecipient := expectedRecipient
      MinAmount := NewAmount cmd.MinAmount
      ExpectedSender := none
      ExpectedMemo := none
      AcceptUnconfirmed := false } -- Always require confirmation
  -- Optional sender
  let criteria :=
    match cmd.ExpectedSender with
    | some expectedSender =>
      match NewStacksAddress expectedSender with
      | .ok sender => { criteria with ExpectedSender := some sender }
      | .error _ => criteria
    | none => criteria
  -- Optional memo
  let criteria :=
    match cmd.ExpectedMemo with
    | some expectedMemo => { criteria with ExpectedMemo := some expectedMemo }
    | none => criteria
  criteria

/-- The result that Go `VerifyPaymentHandler.Handle` returns for the fetched transaction: the
outcome of `Verify`, the flattened transaction and the lifecycle label. -/
def verifyResult (tx : BlockchainTransaction) (network : Network)
    (criteria : VerificationCriteria) : VerifyPaymentResult :=
  -- Verify transaction
  let verificationResult := Verify tx criteria
  -- Determine status
  let status := determinePaymentStatus tx
  { Valid := verificationResult.Valid
    TxID := tx.TxID.String
    SenderAddress := tx.Sender.String
    RecipientAddress := tx.Recipient.String
    Amount := tx.Amount.Value
    Fee := tx.Fee.Value
    Nonce := tx.Nonce
    Status := status
    BlockHeight := tx.BlockHeight
    TokenType := tx.TokenType.String
    Memo := tx.Memo
    Network := network.String
    Errors := verificationResult.Errors }

/-- Go `VerifyPaymentHandler.Handle`: the result, and the calls made to the blockchain client
in their order. -/
def VerifyPaymentHandler.Handle (h : VerifyPaymentHandler) (cmd : VerifyPaymentCommand) :
    Except GoError VerifyPaymentResult × List GetTransactionWithRetryCall :=
  -- Parse and validate inputs
  match NewTransactionID cmd.TxID with
  | .error err => (.error (GoError.wrap "invalid transaction ID" err), [])
  | .ok txID =>
    let tokenType := tokenTypeOrDefault cmd.TokenType
    match NewNetwork cmd.Network with
    | .error err => (.error (GoError.wrap "invalid network" err), [])
    | .ok network =>
      match NewStacksAddress cmd.ExpectedRecipient with
      | .error err => (.error (GoError.wrap "invalid expected recipient" err), [])
      | .ok expectedRecipient =>
        -- Fetch transaction from blockchain
        let call : GetTransactionWithRetryCall :=
          { txID := txID, tokenType := tokenType, network := network,
            maxRetries := h.maxRetries, retryDelay := h.retryDelay }
        match h.blockchainClient call with
        | (_, some err) => (.error (GoError.wrap "failed to fetch transaction" err), [call])
        | (tx, none) =>
          (.ok (verifyResult tx network (verifyCriteria cmd expectedRecipient)), [call])

/-- Go `command.SettlePaymentCommand`. -/
structure SettlePaymentCommand where
  SignedTransaction : String
  TokenType : String
  ExpectedRecipient : String
  MinAmount : Nat
  ExpectedSender : Option String
  Network : String
deriving DecidableEq, Repr

/-- Go `command.SettlePaymentResult`. -/
structure SettlePaymentResult where
  Success : Bool
  TxID : String
  SenderAddress : String
  RecipientAddress : String
  Amount : Nat
  Fee : Nat
  Status : String
  BlockHeight : Nat
  TokenType : String
  Network : String
  Errors : List String
deriving DecidableEq, Repr

/-- One call of a method of `TransactionBroadcaster` with its arguments. -/
inductive BroadcasterCall where
  | BroadcastTransaction (signedTx : String) (network : Network)
  | WaitForConfirmation (txID : TransactionID) (tokenType : TokenType) (network : Network)
      (maxRetries : Int) (retryDelay : Nat)
deriving DecidableEq, Repr

/-- Go `command.SettlePaymentHandler`: the two methods of the `TransactionBroadcaster`
collaborator, each given by the pair it returns for its arguments, the retry budget and the
delay in nanoseconds. -/
structure SettlePaymentHandler where
  BroadcastTransaction : String → Network → TransactionID × Option GoError
  WaitForConfirmation : TransactionID → TokenType → Network → Int → Nat →
    BlockchainTransaction × Option GoError
  maxRetries : Int
  retryDelay : Nat

/-- Go `NewSettlePaymentHandler`: 15 retries, 2 seconds apart. -/
def NewSettlePaymentHandler (broadcast : String → Network → TransactionID × Option GoError)
    (wait : TransactionID → TokenType → Network → Int → Nat →
      BlockchainTransaction × Option GoError) : SettlePaymentHandler :=
  { BroadcastTransaction := broadcast, WaitForConfirmation := wait,
    maxRetries := 15, retryDelay := 2 * 1000000000 }

/-- The criteria that Go `SettlePaymentHandler.Handle` builds from the command and the parsed
expected recipient: confirmation is always required, the expected sender is set when it is
present and `NewStacksAddress` accepts it; there is no expected memo. -/
def settleCriteria (cmd : SettlePaymentCommand) (expectedRecipient : StacksAddress) :
    VerificationCriteria :=
  let criteria : VerificationCriteria :=
    { ExpectedRecipient := expectedRecipient
      MinAmount := NewAmount cmd.MinAmount
      ExpectedSender := none
      ExpectedMemo := none
      AcceptUnconfirmed := false }
  -- Optional sender
  let criteria :=
    match cmd.ExpectedSender with
    | some expectedSender =>
      match NewStacksAddress expectedSender with
      | .ok sender => { criteria with ExpectedSender := some sender }
      | .error _ => criteria
    | none => criteria
  criteria

/-- The result that Go `SettlePaymentHandler.Handle` returns for the confirmed transaction. -/
def settleResult (tx : BlockchainTransaction) (network : Network)
    (criteria : VerificationCriteria) : SettlePaymentResult :=
  -- Verify transaction
  let verificationResult := Verify tx criteria
  -- Determine status
  let status := determinePaymentStatus tx
  { Success := verificationResult.Valid
    TxID := tx.TxID.String
    SenderAddress := tx.Sender.String
    RecipientAddress := tx.Recipient.String
    Amount := tx.Amount.Value
    Fee := tx.Fee.Value
    Status := status
    BlockHeight := tx.BlockHeight
    TokenType := tx.TokenType.String
    Network := network.String
    Errors := verificationResult.Errors }

/-- Go `SettlePaymentHandler.Handle`: the result, and the calls made to the broadcaster in
their order. -/
def SettlePaymentHandler.Handle (h : SettlePaymentHandler) (cmd : SettlePaymentCommand) :
    Except GoError SettlePaymentResult × List BroadcasterCall :=
  -- Parse and validate inputs
  let tokenType := tokenTypeOrDefault cmd.TokenType
  match NewNetwork cmd.Network with
  | .error err => (.error (GoError.wrap "invalid network" err), [])
  | .ok network =>
    match NewStacksAddress cmd.ExpectedRecipient with
    | .error err => (.error (GoError.wrap "invalid expected recipient" err), [])
    | .ok expectedRecipient =>
      -- Broadcast the transaction
      let broadcastCall := BroadcasterCall.BroadcastTransaction cmd.SignedTransaction network
      match h.BroadcastTransaction cmd.SignedTransaction network with
      | (_, some err) =>
        (.error (GoError.wrap "failed to broadcast transaction" err), [broadcastCall])
      | (txID, none) =>
        -- Wait for transaction to be confirmed
        let waitCall :=
          BroadcasterCall.WaitForConfirmation txID tokenType network h.maxRetries h.retryDelay
        match h.WaitForConfirmation txID tokenType network h.maxRetries h.retryDelay with
        | (_, some err) =>
          (.error (GoError.wrap "failed to confirm transaction" err), [broadcastCall, waitCall])
        | (tx, none) =>
          (.ok (settleResult tx network (settleCriteria cmd expectedRecipient)),
            [broadcastCall, waitCall])

/-- The command of `TestVerifyPaymentHandler_Success`. -/
def verifyTestCommand : VerifyPaymentCommand :=
  { TxID := "0x1234567890abcdef1234567890abcdef1234567890abcdef1234567890abcdef"
    TokenType := "STX"
    ExpectedRecipient := "ST1PQHQKV0RJXZFY1DGX8MNSNYVE3VGZJSRTPGZGM"
    MinAmount := 500000
    ExpectedSender := none
    ExpectedMemo := none
    Network := "testnet" }

/-- The command of `TestSettlePaymentHandler_Success`. -/
def settleTestCommand : SettlePaymentCommand :=
  { SignedTransaction := "0x00000001deadbeef"
    TokenType := "STX"
    ExpectedRecipient := "ST1PQHQKV0RJXZFY1DGX8MNSNYVE3VGZJSRTPGZGM"
    MinAmount := 500000
    ExpectedSender := none
    Network := "testnet" }

/-- The mock client of the verify tests: every call returns `tx` and no error. -/
def mockClient (tx : BlockchainTransaction) :
    GetTransactionWithRetryCall → BlockchainTransaction × Option GoError :=
  fun _ => (tx, none)

/-- The mock `BroadcastFn` of the settle tests: the id of the test transaction, no error. -/
def mockBroadcast : String → Network → TransactionID × Option GoError :=
  fun _ _ =>
    ({ value := "0x1234567890abcdef1234567890abcdef1234567890abcdef1234567890abcdef" }, none)

/-- The mock `BroadcastFn` of `TestSettlePaymentHandler_BroadcastError`. -/
def mockBroadcastError : String → Network → TransactionID × Option GoError :=
  fun _ _ => ({ value := "" }, some (GoError.new "broadcast failed"))

/-- The mock `WaitForConfirmFn` of the settle tests: every call returns `tx` and no error. -/
def mockWait (tx : BlockchainTransaction) :
    TransactionID → TokenType → Network → Int → Nat → BlockchainTransaction × Option GoError :=
  fun _ _ _ _ _ => (tx, none)

/-- The payload of `TestClient_GetTransaction_PendingTransaction`: status `pending` at block
height 0. -/
def pendingResponse : TransactionResponse :=
  { stxTransferResponse with
    TxStatus := "pending"
    BlockHeight := 0
    TokenTransfer := some
      { RecipientAddress := "ST1PQHQKV0RJXZFY1DGX8MNSNYVE3VGZJSRTPGZGM"
        Amount := "1000000"
        Memo := "" } }

/-- The payload of `TestClient_GetTransaction_FailedTransaction`: status `abort_by_response` at
block height 12345. -/
def failedResponse : TransactionResponse :=
  { stxTransferResponse with
    TxStatus := "abort_by_response"
    TokenTransfer := some
      { RecipientAddress := "ST1PQHQKV0RJXZFY1DGX8MNSNYVE3VGZJSRTPGZGM"
        Amount := "1000000"
        Memo := "" } }

/-! ## Further value objects (`domain/valueobject`) -/

/-- Go `TransactionID.Equals`: `t.value == other.value`. -/
def TransactionID.Equals (t other : TransactionID) : Bool :=
  decide (t.value = other.value)

/-- Go `TransactionID.IsZero`: `t.value == ""`. -/
def TransactionID.IsZero (t : TransactionID) : Bool :=
  decide (t.value = "")

/-- Go `StacksAddress.IsTestnet`: the address starts with `ST` or `SN`. -/
def StacksAddress.IsTestnet (a : StacksAddress) : Bool :=
  strings.HasPrefix a.value "ST" || strings.HasPrefix a.value "SN"

/-- Go `StacksAddress.IsMainnet`: the address starts with `SP` or `SM`. -/
def StacksAddress.IsMainnet (a : StacksAddress) : Bool :=
  strings.HasPrefix a.value "SP" || strings.HasPrefix a.value "SM"

/-- Go `valueobject.PaymentStatus`, a named string type. -/
structure PaymentStatus where
  value : String
deriving DecidableEq, Repr

/-- Go constant `StatusPending`. -/
def StatusPending : PaymentStatus := { value := "pending" }

/-- Go constant `StatusConfirmed`. -/
def StatusConfirmed : PaymentStatus := { value := "confirmed" }

/-- Go constant `StatusFailed`. -/
def StatusFailed : PaymentStatus := { value := "failed" }

/-- Go `NewPaymentStatus`: the lower-cased string must be one of the three status words. -/
def NewPaymentStatus (s : String) : Except GoError PaymentStatus :=
  if s = "" then
    .error (GoError.new "payment status cannot be empty")
  else
    let normalized := strings.ToLower s
    if normalized = "pending" then .ok StatusPending
    else if normalized = "confirmed" then .ok StatusConfirmed
    else if normalized = "failed" then .ok StatusFailed
    else .error (GoError.new ("invalid payment status: " ++ s))

/-- Go `PaymentStatus.String`. -/
def PaymentStatus.String (s : PaymentStatus) : String :=
  s.value

/-- Go `PaymentStatus.IsConfirmed`: `s == StatusConfirmed`. -/
def PaymentStatus.IsConfirmed (s : PaymentStatus) : Bool :=
  decide (s = StatusConfirmed)

/-- Go `PaymentStatus.IsFailed`: `s == StatusFailed`. -/
def PaymentStatus.IsFailed (s : PaymentStatus) : Bool :=
  decide (s = StatusFailed)

/-- Go `PaymentStatus.IsPending`: `s == StatusPending`. -/
def PaymentStatus.IsPending (s : PaymentStatus) : Bool :=
  decide (s = StatusPending)

/-- The local `normalized` of Go `NewTransactionID`: the identifier, with `0x` in front of it
when it does not start so. -/
def NewTransactionID.normalized (id : String) : String :=
  if !strings.HasPrefix id "0x" then "0x" ++ id else id

/-- An environment without cancellation whose first two fetches fail and whose later fetches
return the confirmed test transaction: every fetch fails or returns a terminal transaction. -/
def confirmedAtThirdFetch : PollEnv :=
  { fetch := fun n =>
      if n < 2 then .error (GoError.new "transaction not found") else .ok createTestTransaction
    done := fun _ => false
    ctxErr := GoError.new "context canceled" }

/-- The payload of the direct transfer with the lifecycle label `confirmed` as its raw status,
at the same block height. -/
def statusConfirmedResponse : TransactionResponse :=
  { stxTransferResponse with TxStatus := "confirmed" }

/-- The payload of the direct transfer with the lifecycle label `failed` as its raw status, at
the same block height. -/
def statusFailedResponse : TransactionResponse :=
  { stxTransferResponse with TxStatus := "failed" }

/-- The transaction identifier of `TestNewTransactionID_ValidID`. -/
def validTxID : String :=
  "0x1234567890abcdef1234567890abcdef1234567890abcdef1234567890abcdef"

/-- The identifier of `TestNewTransactionID_AddsPrefix`, without the prefix. -/
def txIDWithoutPrefix : String :=
  "1234567890abcdef1234567890abcdef1234567890abcdef1234567890abcdef"

/-- The identifier of `TestNewTransactionID_RejectsInvalidHex`. -/
def invalidHex : String :=
  "0xGGGG567890abcdef1234567890abcdef1234567890abcdef1234567890abcdef"

/-- The address of `TestNewStacksAddress_ValidTestnetAddress`. -/
def validTestnetAddr : String :=
  "ST1PQHQKV0RJXZFY1DGX8MNSNYVE3VGZJSRTPGZGM"

/-- The address of `TestNewStacksAddress_ValidMainnetAddress`. -/
def validMainnetAddr : String :=
  "SP2J6ZY48GV1EZ5V2V5RB9MP66SW86PYKKQ9H6DPR"

/-! ## Properties of the verification engine -/

/-- `StacksAddress.Equals` is equality of addresses. -/
theorem StacksAddress.Equals_iff (a b : StacksAddress) : a.Equals b = true ↔ a = b := by
  cases a
  cases b
  simp [StacksAddress.Equals]

/-- `isFailedStatus` holds exactly on the three failed statuses. -/
theorem isFailedStatus_iff (status : String) :
    isFailedStatus status = true ↔
      status = "failed" ∨ status = "abort_by_response" ∨ status = "abort_by_post_condition" := by
  simp [isFailedStatus]

/-- One step of `Verify`: a conditional append adds the optional message at the end. -/
theorem append_ite_singleton (p : Prop) [Decidable p] (e : List String) (m : String) :
    (if p then e ++ [m] else e) = e ++ (if p then some m else none).toList := by
  by_cases h : p <;> simp [h]

/-- `StacksAddress.Equals` fails exactly on different addresses. -/
theorem StacksAddress.Equals_eq_false_iff (a b : StacksAddress) :
    a.Equals b = false ↔ a ≠ b := by
  rw [Ne, ← StacksAddress.Equals_iff a b]
  simp

/-- Dropping the `none`s of a list of options, one element at a time. -/
theorem reduceOption_cons_toList {α : Type} (o : Option α) (l : List (Option α)) :
    List.reduceOption (o :: l) = o.toList ++ List.reduceOption l := by
  cases o <;> simp [List.reduceOption_cons_of_some, List.reduceOption_cons_of_none]

/-- The six checks of `Verify` as optional messages, in the order of the source. -/
theorem Verify_Errors_eq (tx : BlockchainTransaction) (c : VerificationCriteria) :
    (Verify tx c).Errors =
      List.reduceOption
        [ if isFailedStatus tx.Status = true then
            some ("transaction failed with status: " ++ tx.Status) else none,
          if c.AcceptUnconfirmed = false ∧ tx.IsConfirmed = false then
            some "transaction not confirmed" else none,
          if tx.Recipient ≠ c.ExpectedRecipient then
            some ("recipient mismatch: expected " ++ c.ExpectedRecipient.value ++ ", got "
              ++ tx.Recipient.value) else none,
          if tx.Amount.value < c.MinAmount.value then
            some ("insufficient amount: expected at least " ++ Nat.repr c.MinAmount.value
              ++ ", got " ++ Nat.repr tx.Amount.value) else none,
          c.ExpectedSender.bind (fun s =>
            if tx.Sender ≠ s then
              some ("sender mismatch: expected " ++ s.value ++ ", got " ++ tx.Sender.value)
            else none),
          c.ExpectedMemo.bind (fun m =>
            if tx.Memo ≠ m then
              some ("memo mismatch: expected " ++ m ++ ", got " ++ tx.Memo)
            else none) ] := by
  obtain ⟨er, ma, es, em, au⟩ := c
  cases es <;> cases em <;>
    simp only [Verify, Amount.IsGreaterThanOrEqual, Amount.String, StacksAddress.String,
      append_ite_singleton, reduceOption_cons_toList, List.reduceOption_nil, Option.bind] <;>
    simp [StacksAddress.Equals_eq_false_iff]

/-- The first character of `lit ++ x` is the first character of a non-empty `lit`. -/
theorem head_append_lit (lit x : String) (ch : Char) (h : lit.data.head? = some ch) :
    (lit ++ x).data.head? = some ch := by
  rw [String.data_append]
  cases hl : lit.data with
  | nil => simp [hl] at h
  | cons a l =>
    simp only [hl, List.head?_cons, Option.some.injEq] at h
    simp [h]

/-- The status message starts with `t`. -/
theorem head_statusMsg (s : String) :
    ("transaction failed with status: " ++ s).data.head? = some 't' :=
  head_append_lit "transaction failed with status: " s 't' (by decide)

/-- The recipient message starts with `r`. -/
theorem head_recipientMsg (a b : String) :
    ("recipient mismatch: expected " ++ a ++ ", got " ++ b).data.head? = some 'r' :=
  head_append_lit _ b 'r' (head_append_lit _ ", got " 'r'
    (head_append_lit "recipient mismatch: expected " a 'r' (by decide)))

/-- The amount message starts with `i`. -/
theorem head_amountMsg (a b : String) :
    ("insufficient amount: expected at least " ++ a ++ ", got " ++ b).data.head? = some 'i' :=
  head_append_lit _ b 'i' (head_append_lit _ ", got " 'i'
    (head_append_lit "insufficient amount: expected at least " a 'i' (by decide)))

/-- The sender message starts with `s`. -/
theorem head_senderMsg (a b : String) :
    ("sender mismatch: expected " ++ a ++ ", got " ++ b).data.head? = some 's' :=
  head_append_lit _ b 's' (head_append_lit _ ", got " 's'
    (head_append_lit "sender mismatch: expected " a 's' (by decide)))

/-- The memo message starts with `m`. -/
theorem head_memoMsg (a b : String) :
    ("memo mismatch: expected " ++ a ++ ", got " ++ b).data.head? = some 'm' :=
  head_append_lit _ b 'm' (head_append_lit _ ", got " 'm'
    (head_append_lit "memo mismatch: expected " a 'm' (by decide)))

/-- Membership in the violations of `Verify`: one disjunct per check. -/
theorem mem_Verify_Errors (tx : BlockchainTransaction) (c : VerificationCriteria) (e : String) :
    e ∈ (Verify tx c).Errors ↔
      (isFailedStatus tx.Status = true ∧ e = "transaction failed with status: " ++ tx.Status) ∨
      ((c.AcceptUnconfirmed = false ∧ tx.IsConfirmed = false) ∧
        e = "transaction not confirmed") ∨
      (tx.Recipient ≠ c.ExpectedRecipient ∧
        e = "recipient mismatch: expected " ++ c.ExpectedRecipient.value ++ ", got "
          ++ tx.Recipient.value) ∨
      (tx.Amount.value < c.MinAmount.value ∧
        e = "insufficient amount: expected at least " ++ Nat.repr c.MinAmount.value
          ++ ", got " ++ Nat.repr tx.Amount.value) ∨
      (∃ s, c.ExpectedSender = some s ∧ tx.Sender ≠ s ∧
        e = "sender mismatch: expected " ++ s.value ++ ", got " ++ tx.Sender.value) ∨
      (∃ m, c.ExpectedMemo = some m ∧ tx.Memo ≠ m ∧
        e = "memo mismatch: expected " ++ m ++ ", got " ++ tx.Memo) := by
  rw [Verify_Errors_eq, List.reduceOption_mem_iff]
  obtain ⟨er, ma, es, em, au⟩ := c
  simp only [List.mem_cons, List.mem_singleton, List.not_mem_nil, or_false]
  have ite_some : ∀ (p : Prop) [Decidable p] (m : String),
      (some e = if p then some m else none) ↔ (p ∧ e = m) := by
    intro p _ m
    by_cases hp : p <;> simp [hp]
  have bind_some : ∀ {α : Type} (o : Option α) (p : α → Prop) [DecidablePred p]
      (f : α → String),
      (some e = o.bind (fun a => if p a then some (f a) else none)) ↔
        ∃ a, o = some a ∧ p a ∧ e = f a := by
    intro α o p _ f
    cases o with
    | none => simp
    | some a => simp [ite_some]
  rw [ite_some, ite_some, ite_some, ite_some, bind_some, bind_some]

/-- The validity flag of `Verify` is the emptiness of its violations. -/
theorem Verify_Valid_eq (tx : BlockchainTransaction) (c : VerificationCriteria) :
    (Verify tx c).Valid = decide ((Verify tx c).Errors.length = 0) :=
  rfl

/-- The result of `Verify` is valid exactly when no violation was appended. -/
theorem Verify_valid_eq_true_iff (tx : BlockchainTransaction) (c : VerificationCriteria) :
    (Verify tx c).Valid = true ↔ (Verify tx c).Errors = [] := by
  rw [Verify_Valid_eq, decide_eq_true_iff, List.length_eq_zero]

/-- C1: the violations returned by `Verify` are exactly the messages of the checks that fire,
kept in the fixed order status, confirmation, recipient, amount, sender, memo; every check is
evaluated and contributes at most one message. -/
theorem Verify_errors_in_fixed_order (tx : BlockchainTransaction) (c : VerificationCriteria) :
    (Verify tx c).Errors =
      List.reduceOption
        [ if tx.Status = "failed" ∨ tx.Status = "abort_by_response" ∨
              tx.Status = "abort_by_post_condition" then
            some ("transaction failed with status: " ++ tx.Status) else none,
          if c.AcceptUnconfirmed = false ∧ tx.IsConfirmed = false then
            some "transaction not confirmed" else none,
          if tx.Recipient ≠ c.ExpectedRecipient then
            some ("recipient mismatch: expected " ++ c.ExpectedRecipient.value ++ ", got "
              ++ tx.Recipient.value) else none,
          if tx.Amount.value < c.MinAmount.value then
            some ("insufficient amount: expected at least " ++ Nat.repr c.MinAmount.value
              ++ ", got " ++ Nat.repr tx.Amount.value) else none,
          match c.ExpectedSender with
          | some s =>
            if s ≠ tx.Sender then
              some ("sender mismatch: expected " ++ s.value ++ ", got " ++ tx.Sender.value)
            else none
          | none => none,
          match c.ExpectedMemo with
          | some m =>
            if m ≠ tx.Memo then
              some ("memo mismatch: expected " ++ m ++ ", got " ++ tx.Memo)
            else none
          | none => none ] := by
  rw [Verify_Errors_eq]
  have hs : (isFailedStatus tx.Status = true) ↔
      (tx.Status = "failed" ∨ tx.Status = "abort_by_response" ∨
        tx.Status = "abort_by_post_condition") := isFailedStatus_iff tx.Status
  obtain ⟨er, ma, es, em, au⟩ := c
  cases es <;> cases em <;> simp only [hs, Option.bind, ne_comm]

/-- C2: the result of `Verify` is valid if and only if its list of violations is empty. -/
theorem Verify_valid_iff_no_errors (tx : BlockchainTransaction) (c : VerificationCriteria) :
    (Verify tx c).Valid = true ↔ (Verify tx c).Errors = [] := by
  rw [Verify_Valid_eq, decide_eq_true_iff, List.length_eq_zero]

/-- C3: confirmation gate. An unconfirmed transaction verified with `AcceptUnconfirmed = false`
is invalid and carries "transaction not confirmed", whatever its other fields are; with
`AcceptUnconfirmed = true` the same transaction is valid when all other checks pass. -/
theorem Verify_confirmation_gate (tx : BlockchainTransaction) (c : VerificationCriteria)
    (hu : tx.IsConfirmed = false) :
    ((Verify tx { c with AcceptUnconfirmed := false }).Valid = false ∧
      "transaction not confirmed" ∈ (Verify tx { c with AcceptUnconfirmed := false }).Errors) ∧
    (tx.Status ≠ "failed" → tx.Status ≠ "abort_by_response" →
      tx.Status ≠ "abort_by_post_condition" →
      tx.Recipient = c.ExpectedRecipient → c.MinAmount.value ≤ tx.Amount.value →
      (∀ s, c.ExpectedSender = some s → tx.Sender = s) →
      (∀ m, c.ExpectedMemo = some m → tx.Memo = m) →
      (Verify tx { c with AcceptUnconfirmed := true }).Valid = true ∧
        (Verify tx { c with AcceptUnconfirmed := true }).Errors = []) := by
  have hmem : "transaction not confirmed" ∈
      (Verify tx { c with AcceptUnconfirmed := false }).Errors := by
    rw [mem_Verify_Errors]
    exact Or.inr (Or.inl ⟨⟨rfl, hu⟩, rfl⟩)
  refine ⟨⟨?_, hmem⟩, ?_⟩
  · cases hv : (Verify tx { c with AcceptUnconfirmed := false }).Valid with
    | false => rfl
    | true =>
      rw [Verify_valid_eq_true_iff] at hv
      rw [hv] at hmem
      exact absurd hmem (List.not_mem_nil _)
  · intro h1 h2 h3 hr ha hs hm
    have hnil : (Verify tx { c with AcceptUnconfirmed := true }).Errors = [] := by
      rw [List.eq_nil_iff_forall_not_mem]
      intro e he
      rw [mem_Verify_Errors, isFailedStatus_iff] at he
      rcases he with ⟨hf, _⟩ | ⟨⟨hau, _⟩, _⟩ | ⟨hne, _⟩ | ⟨hlt, _⟩ | ⟨s, hes, hne, _⟩ |
        ⟨m, hem, hne, _⟩
      · rcases hf with hf | hf | hf
        · exact h1 hf
        · exact h2 hf
        · exact h3 hf
      · exact Bool.noConfusion hau
      · exact hne hr
      · exact absurd hlt (Nat.not_lt.mpr ha)
      · exact hne (hs s hes)
      · exact hne (hm m hem)
    exact ⟨(Verify_valid_eq_true_iff tx _).mpr hnil, hnil⟩

/-- C3, on the unconfirmed test transaction: rejected when confirmation is required
(`TestVerificationService_RejectsUnconfirmedWhenRequired`) and accepted when it is not
(`TestVerificationService_AcceptsUnconfirmedWhenAllowed`). -/
theorem Verify_confirmation_gate_witness :
    unconfirmedTransaction.IsConfirmed = false ∧
    ((Verify unconfirmedTransaction { validCriteria with AcceptUnconfirmed := false }).Valid
        = false ∧
      "transaction not confirmed" ∈
        (Verify unconfirmedTransaction { validCriteria with AcceptUnconfirmed := false }).Errors) ∧
    ((Verify unconfirmedTransaction { validCriteria with AcceptUnconfirmed := true }).Valid
        = true ∧
      (Verify unconfirmedTransaction { validCriteria with AcceptUnconfirmed := true }).Errors
        = []) :=
  ⟨rfl, (Verify_confirmation_gate unconfirmedTransaction validCriteria rfl).1,
    (Verify_confirmation_gate unconfirmedTransaction validCriteria rfl).2
      (by decide) (by decide) (by decide) (by decide) (by decide)
      (fun s h => by simp [validCriteria] at h) (fun m h => by simp [validCriteria] at h)⟩

/-- The number of messages kept from a list of optional messages. -/
theorem length_reduceOption_cons {α : Type} (o : Option α) (l : List (Option α)) :
    (List.reduceOption (o :: l)).length =
      (if o.isSome = true then 1 else 0) + (List.reduceOption l).length := by
  cases o <;> simp [List.reduceOption_cons_of_some, List.reduceOption_cons_of_none, Nat.add_comm]

/-- Counting `true` in a list of flags, one flag at a time. -/
theorem count_true_cons (b : Bool) (l : List Bool) :
    List.count true (b :: l) = (if b = true then 1 else 0) + List.count true l := by
  cases b <;> simp [Nat.add_comm]

/-- C4: accumulation. The number of violations returned by `Verify` is the number of the six
criteria (status, confirmation, recipient, amount, sender, memo) that the transaction violates,
hence at most 6; when none is violated the result is valid with an empty list. -/
theorem Verify_accumulation (tx : BlockchainTransaction) (c : VerificationCriteria) :
    (Verify tx c).Errors.length =
      List.count true
        [ decide (tx.Status = "failed" ∨ tx.Status = "abort_by_response" ∨
            tx.Status = "abort_by_post_condition"),
          decide (c.AcceptUnconfirmed = false ∧ tx.IsConfirmed = false),
          decide (tx.Recipient ≠ c.ExpectedRecipient),
          decide (tx.Amount.value < c.MinAmount.value),
          decide (c.ExpectedSender ≠ none ∧ c.ExpectedSender ≠ some tx.Sender),
          decide (c.ExpectedMemo ≠ none ∧ c.ExpectedMemo ≠ some tx.Memo) ] ∧
    (Verify tx c).Errors.length ≤ 6 ∧
    ((tx.Status ≠ "failed" ∧ tx.Status ≠ "abort_by_response" ∧
        tx.Status ≠ "abort_by_post_condition") ∧
      ¬ (c.AcceptUnconfirmed = false ∧ tx.IsConfirmed = false) ∧
      tx.Recipient = c.ExpectedRecipient ∧
      c.MinAmount.value ≤ tx.Amount.value ∧
      (c.ExpectedSender = none ∨ c.ExpectedSender = some tx.Sender) ∧
      (c.ExpectedMemo = none ∨ c.ExpectedMemo = some tx.Memo) →
      (Verify tx c).Valid = true ∧ (Verify tx c).Errors = []) := by
  have hlen : (Verify tx c).Errors.length =
      List.count true
        [ decide (tx.Status = "failed" ∨ tx.Status = "abort_by_response" ∨
            tx.Status = "abort_by_post_condition"),
          decide (c.AcceptUnconfirmed = false ∧ tx.IsConfirmed = false),
          decide (tx.Recipient ≠ c.ExpectedRecipient),
          decide (tx.Amount.value < c.MinAmount.value),
          decide (c.ExpectedSender ≠ none ∧ c.ExpectedSender ≠ some tx.Sender),
          decide (c.ExpectedMemo ≠ none ∧ c.ExpectedMemo ≠ some tx.Memo) ] := by
    rw [Verify_Errors_eq]
    simp only [length_reduceOption_cons, count_true_cons, List.reduceOption_nil, List.length_nil,
      List.count_nil]
    have e1 : ((if isFailedStatus tx.Status = true then
          some ("transaction failed with status: " ++ tx.Status) else none).isSome = true) ↔
        (decide (tx.Status = "failed" ∨ tx.Status = "abort_by_response" ∨
          tx.Status = "abort_by_post_condition") = true) := by
      rw [decide_eq_true_iff, ← isFailedStatus_iff]
      by_cases h : isFailedStatus tx.Status = true <;> simp [h]
    have e2 : ((if c.AcceptUnconfirmed = false ∧ tx.IsConfirmed = false then
          some "transaction not confirmed" else none).isSome = true) ↔
        (decide (c.AcceptUnconfirmed = false ∧ tx.IsConfirmed = false) = true) := by
      by_cases h : c.AcceptUnconfirmed = false ∧ tx.IsConfirmed = false
      · simp [h]
      · simp only [if_neg h, decide_eq_true_iff, h]
        simp
    have e3 : ((if tx.Recipient ≠ c.ExpectedRecipient then
          some ("recipient mismatch: expected " ++ c.ExpectedRecipient.value ++ ", got "
            ++ tx.Recipient.value) else none).isSome = true) ↔
        (decide (tx.Recipient ≠ c.ExpectedRecipient) = true) := by
      by_cases h : tx.Recipient = c.ExpectedRecipient <;> simp [h]
    have e4 : ((if tx.Amount.value < c.MinAmount.value then
          some ("insufficient amount: expected at least " ++ Nat.repr c.MinAmount.value
            ++ ", got " ++ Nat.repr tx.Amount.value) else none).isSome = true) ↔
        (decide (tx.Amount.value < c.MinAmount.value) = true) := by
      by_cases h : tx.Amount.value < c.MinAmount.value
      · simp [h]
      · simp only [if_neg h, decide_eq_true_iff, h]
        simp
    have e5 : ((c.ExpectedSender.bind (fun s =>
          if tx.Sender ≠ s then
            some ("sender mismatch: expected " ++ s.value ++ ", got " ++ tx.Sender.value)
          else none)).isSome = true) ↔
        (decide (c.ExpectedSender ≠ none ∧ c.ExpectedSender ≠ some tx.Sender) = true) := by
      cases hes : c.ExpectedSender with
      | none => simp
      | some s =>
        by_cases h : tx.Sender = s
        · simp [h]
        · have h2 : ¬ s = tx.Sender := fun e => h e.symm
          simp [h, h2]
    have e6 : ((c.ExpectedMemo.bind (fun m =>
          if tx.Memo ≠ m then
            some ("memo mismatch: expected " ++ m ++ ", got " ++ tx.Memo)
          else none)).isSome = true) ↔
        (decide (c.ExpectedMemo ≠ none ∧ c.ExpectedMemo ≠ some tx.Memo) = true) := by
      cases hem : c.ExpectedMemo with
      | none => simp
      | some m =>
        by_cases h : tx.Memo = m
        · simp [h]
        · have h2 : ¬ m = tx.Memo := fun e => h e.symm
          simp [h, h2]
    simp only [e1, e2, e3, e4, e5, e6]
  refine ⟨hlen, ?_, ?_⟩
  · rw [hlen]
    exact List.count_le_length _ _
  · rintro ⟨⟨h1, h2, h3⟩, hc, hr, ha, hs, hm⟩
    have hnil : (Verify tx c).Errors = [] := by
      rw [List.eq_nil_iff_forall_not_mem]
      intro e he
      rw [mem_Verify_Errors, isFailedStatus_iff] at he
      rcases he with ⟨hf, _⟩ | ⟨hcc, _⟩ | ⟨hne, _⟩ | ⟨hlt, _⟩ | ⟨s, hes, hne, _⟩ |
        ⟨m, hem, hne, _⟩
      · rcases hf with hf | hf | hf
        · exact h1 hf
        · exact h2 hf
        · exact h3 hf
      · exact hc hcc
      · exact hne hr
      · exact absurd hlt (Nat.not_lt.mpr ha)
      · rw [hes] at hs
        rcases hs with hs | hs
        · exact Option.noConfusion hs
        · exact hne (Option.some.inj hs).symm
      · rw [hem] at hm
        rcases hm with hm | hm
        · exact Option.noConfusion hm
        · exact hne (Option.some.inj hm).symm
    exact ⟨(Verify_valid_eq_true_iff tx c).mpr hnil, hnil⟩

/-- C4, on the example of the claim (`TestVerificationService_ValidTransaction`): recipient as
expected, amount 1000000 against a minimum of 500000, confirmed, status `success`, no expected
sender or memo: no criterion is violated, the result is valid and the list is empty. -/
theorem Verify_accumulation_witness :
    (Verify createTestTransaction validCriteria).Errors.length = 0 ∧
    (Verify createTestTransaction validCriteria).Valid = true ∧
    (Verify createTestTransaction validCriteria).Errors = [] :=
  ⟨(Verify_accumulation createTestTransaction validCriteria).1.trans (by decide),
    (Verify_accumulation createTestTransaction validCriteria).2.2 (by decide)⟩

/-- C5: a confirmed transaction with a non-failed status, a sufficient amount and the expected
sender and memo (when any is expected), whose recipient `R2` is not the expected `R1`, is
invalid with exactly one violation, "recipient mismatch: expected R1, got R2". -/
theorem Verify_recipient_mismatch_only (tx : BlockchainTransaction) (c : VerificationCriteria)
    (hconf : tx.IsConfirmed = true)
    (h1 : tx.Status ≠ "failed") (h2 : tx.Status ≠ "abort_by_response")
    (h3 : tx.Status ≠ "abort_by_post_condition")
    (ha : c.MinAmount.value ≤ tx.Amount.value)
    (hs : ∀ s, c.ExpectedSender = some s → tx.Sender = s)
    (hm : ∀ m, c.ExpectedMemo = some m → tx.Memo = m)
    (hr : tx.Recipient ≠ c.ExpectedRecipient) :
    (Verify tx c).Valid = false ∧
    (Verify tx c).Errors =
      ["recipient mismatch: expected " ++ c.ExpectedRecipient.value ++ ", got "
        ++ tx.Recipient.value] := by
  have hf : ¬ (isFailedStatus tx.Status = true) := by
    rw [isFailedStatus_iff]
    rintro (h | h | h)
    · exact h1 h
    · exact h2 h
    · exact h3 h
  have hc : ¬ (c.AcceptUnconfirmed = false ∧ tx.IsConfirmed = false) := by
    rw [hconf]
    rintro ⟨_, h⟩
    exact Bool.noConfusion h
  have hlt : ¬ (tx.Amount.value < c.MinAmount.value) := Nat.not_lt.mpr ha
  have h5 : (c.ExpectedSender.bind (fun s =>
      if tx.Sender ≠ s then
        some ("sender mismatch: expected " ++ s.value ++ ", got " ++ tx.Sender.value)
      else none)) = none := by
    cases hes : c.ExpectedSender with
    | none => rfl
    | some s => simp [hs s hes]
  have h6 : (c.ExpectedMemo.bind (fun m =>
      if tx.Memo ≠ m then
        some ("memo mismatch: expected " ++ m ++ ", got " ++ tx.Memo)
      else none)) = none := by
    cases hem : c.ExpectedMemo with
    | none => rfl
    | some m => simp [hm m hem]
  have herr : (Verify tx c).Errors =
      ["recipient mismatch: expected " ++ c.ExpectedRecipient.value ++ ", got "
        ++ tx.Recipient.value] := by
    rw [Verify_Errors_eq, h5, h6, if_neg hf, if_neg hc, if_pos hr, if_neg hlt]
    rfl
  refine ⟨?_, herr⟩
  rw [Verify_Valid_eq, herr]
  rfl

/-- C5, on `TestVerificationService_RejectsWrongRecipient`: the one violation names the
expected and the actual recipient. -/
theorem Verify_recipient_mismatch_only_witness :
    (Verify createTestTransaction wrongRecipientCriteria).Valid = false ∧
    (Verify createTestTransaction wrongRecipientCriteria).Errors =
      ["recipient mismatch: expected ST3J6ZY48GV1EZ5V2V5RB9MP66SW86PYKKNRV9EJ8, " ++
        "got ST1PQHQKV0RJXZFY1DGX8MNSNYVE3VGZJSRTPGZGM"] :=
  Verify_recipient_mismatch_only createTestTransaction wrongRecipientCriteria rfl
    (by decide) (by decide) (by decide) (by decide)
    (fun s h => by simp [wrongRecipientCriteria] at h)
    (fun m h => by simp [wrongRecipientCriteria] at h) (by decide)

/-- C6, counterexample: a transaction with status `failed`, a recipient mismatch and an amount
below the minimum, verified with `AcceptUnconfirmed = false` and no expected sender or memo,
gets four violations, not three, when it is not confirmed. -/
theorem Verify_failed_unconfirmed_gives_four :
    failedUnconfirmedTransaction.Status = "failed" ∧
    failedUnconfirmedTransaction.Recipient ≠ multipleErrorsCriteria.ExpectedRecipient ∧
    failedUnconfirmedTransaction.Amount.value < multipleErrorsCriteria.MinAmount.value ∧
    multipleErrorsCriteria.AcceptUnconfirmed = false ∧
    multipleErrorsCriteria.ExpectedSender = none ∧
    multipleErrorsCriteria.ExpectedMemo = none ∧
    (Verify failedUnconfirmedTransaction multipleErrorsCriteria).Errors =
      [ "transaction failed with status: failed",
        "transaction not confirmed",
        "recipient mismatch: expected ST3J6ZY48GV1EZ5V2V5RB9MP66SW86PYKKNRV9EJ8, " ++
          "got ST1PQHQKV0RJXZFY1DGX8MNSNYVE3VGZJSRTPGZGM",
        "insufficient amount: expected at least 5000000, got 1000000" ] ∧
    (Verify failedUnconfirmedTransaction multipleErrorsCriteria).Errors.length ≠ 3 := by
  decide

/-- C6, amended: a confirmed transaction (`IsConfirmed = true`) with status `failed`, a
recipient mismatch and an amount below the minimum, verified with `AcceptUnconfirmed = false`
and no expected sender or memo, gets exactly three violations, in the order status, recipient,
amount. -/
theorem Verify_failed_confirmed_gives_three (tx : BlockchainTransaction)
    (c : VerificationCriteria)
    (hconf : tx.IsConfirmed = true)
    (hst : tx.Status = "failed")
    (hr : tx.Recipient ≠ c.ExpectedRecipient)
    (ha : tx.Amount.value < c.MinAmount.value)
    (_hau : c.AcceptUnconfirmed = false)
    (hs : c.ExpectedSender = none) (hm : c.ExpectedMemo = none) :
    (Verify tx c).Errors.length = 3 ∧
    (Verify tx c).Errors =
      [ "transaction failed with status: failed",
        "recipient mismatch: expected " ++ c.ExpectedRecipient.value ++ ", got "
          ++ tx.Recipient.value,
        "insufficient amount: expected at least " ++ Nat.repr c.MinAmount.value ++ ", got "
          ++ Nat.repr tx.Amount.value ] := by
  have hf : isFailedStatus tx.Status = true := by
    rw [isFailedStatus_iff]
    exact Or.inl hst
  have hc : ¬ (c.AcceptUnconfirmed = false ∧ tx.IsConfirmed = false) := by
    rw [hconf]
    rintro ⟨_, h⟩
    exact Bool.noConfusion h
  have herr : (Verify tx c).Errors =
      [ "transaction failed with status: failed",
        "recipient mismatch: expected " ++ c.ExpectedRecipient.value ++ ", got "
          ++ tx.Recipient.value,
        "insufficient amount: expected at least " ++ Nat.repr c.MinAmount.value ++ ", got "
          ++ Nat.repr tx.Amount.value ] := by
    rw [Verify_Errors_eq, hs, hm, if_pos hf, if_neg hc, if_pos hr, if_pos ha, hst]
    rfl
  exact ⟨by rw [herr]; rfl, herr⟩

/-- C6, amended, on `TestVerificationService_CollectsMultipleErrors`, whose transaction keeps
`IsConfirmed = true`. -/
theorem Verify_failed_confirmed_gives_three_witness :
    (Verify failedConfirmedTransaction multipleErrorsCriteria).Errors.length = 3 ∧
    (Verify failedConfirmedTransaction multipleErrorsCriteria).Errors =
      [ "transaction failed with status: failed",
        "recipient mismatch: expected ST3J6ZY48GV1EZ5V2V5RB9MP66SW86PYKKNRV9EJ8, " ++
          "got ST1PQHQKV0RJXZFY1DGX8MNSNYVE3VGZJSRTPGZGM",
        "insufficient amount: expected at least 5000000, got 1000000" ] :=
  Verify_failed_confirmed_gives_three failedConfirmedTransaction multipleErrorsCriteria rfl rfl
    (by decide) (by decide) rfl rfl rfl

/-- Two strings with different first characters are different. -/
theorem ne_of_head_ne (a b : String) (x y : Char) (ha : a.data.head? = some x)
    (hb : b.data.head? = some y) (hxy : x ≠ y) : a ≠ b := by
  intro h
  rw [h, hb] at ha
  exact hxy (Option.some.inj ha).symm

/-- C7: the amount check is the strict comparison of the two `uint64` values: the violation
"insufficient amount: expected at least M, got A", with `M` and `A` in decimal, is among the
violations iff `A < M`; an amount equal to the minimum passes, and a minimum of 0 is met by
every amount. -/
theorem Verify_amount_check (tx : BlockchainTransaction) (c : VerificationCriteria) :
    (("insufficient amount: expected at least " ++ Nat.repr c.MinAmount.value ++ ", got "
        ++ Nat.repr tx.Amount.value) ∈ (Verify tx c).Errors ↔
      tx.Amount.value < c.MinAmount.value) ∧
    (tx.Amount.value = c.MinAmount.value →
      ("insufficient amount: expected at least " ++ Nat.repr c.MinAmount.value ++ ", got "
        ++ Nat.repr tx.Amount.value) ∉ (Verify tx c).Errors) ∧
    (c.MinAmount.value = 0 →
      ("insufficient amount: expected at least " ++ Nat.repr c.MinAmount.value ++ ", got "
        ++ Nat.repr tx.Amount.value) ∉ (Verify tx c).Errors) := by
  have hiff : (("insufficient amount: expected at least " ++ Nat.repr c.MinAmount.value
        ++ ", got " ++ Nat.repr tx.Amount.value) ∈ (Verify tx c).Errors ↔
      tx.Amount.value < c.MinAmount.value) := by
    rw [mem_Verify_Errors]
    constructor
    · rintro (⟨_, h⟩ | ⟨_, h⟩ | ⟨_, h⟩ | ⟨hlt, _⟩ | ⟨s, _, _, h⟩ | ⟨m, _, _, h⟩)
      · exact absurd h (ne_of_head_ne _ _ 'i' 't' (head_amountMsg _ _) (head_statusMsg _)
          (by decide))
      · exact absurd h (ne_of_head_ne _ _ 'i' 't' (head_amountMsg _ _) (by decide)
          (by decide))
      · exact absurd h (ne_of_head_ne _ _ 'i' 'r' (head_amountMsg _ _)
          (head_recipientMsg _ _) (by decide))
      · exact hlt
      · exact absurd h (ne_of_head_ne _ _ 'i' 's' (head_amountMsg _ _) (head_senderMsg _ _)
          (by decide))
      · exact absurd h (ne_of_head_ne _ _ 'i' 'm' (head_amountMsg _ _) (head_memoMsg _ _)
          (by decide))
    · intro hlt
      exact Or.inr (Or.inr (Or.inr (Or.inl ⟨hlt, rfl⟩)))
  refine ⟨hiff, ?_, ?_⟩
  · intro heq hmem
    have := hiff.mp hmem
    omega
  · intro hzero hmem
    have := hiff.mp hmem
    omega

/-- C7, at the boundary: the test transaction (amount 1000000) passes a minimum of exactly
1000000 and a minimum of 0, and fails a minimum of 1000001 with both values in the message. -/
theorem Verify_amount_check_witness :
    "insufficient amount: expected at least 1000000, got 1000000" ∉
      (Verify createTestTransaction { validCriteria with MinAmount := NewAmount 1000000 }).Errors ∧
    "insufficient amount: expected at least 0, got 1000000" ∉
      (Verify createTestTransaction { validCriteria with MinAmount := NewAmount 0 }).Errors ∧
    "insufficient amount: expected at least 1000001, got 1000000" ∈
      (Verify createTestTransaction { validCriteria with MinAmount := NewAmount 1000001 }).Errors :=
  ⟨(Verify_amount_check createTestTransaction
      { validCriteria with MinAmount := NewAmount 1000000 }).2.1 rfl,
    (Verify_amount_check createTestTransaction
      { validCriteria with MinAmount := NewAmount 0 }).2.2 rfl,
    (Verify_amount_check createTestTransaction
      { validCriteria with MinAmount := NewAmount 1000001 }).1.mpr (by decide)⟩

/-- C8: the sender check runs only when an expected sender is supplied. Without one, changing
the sender of a transaction does not change the result; with an expected sender `s`, the
violation "sender mismatch: expected s, got tx.Sender" is among the violations iff the sender
of the transaction differs from `s`. -/
theorem Verify_sender_check (tx : BlockchainTransaction) (c : VerificationCriteria) :
    (c.ExpectedSender = none →
      ∀ sender : StacksAddress, Verify { tx with Sender := sender } c = Verify tx c) ∧
    (∀ s, c.ExpectedSender = some s →
      (("sender mismatch: expected " ++ s.value ++ ", got " ++ tx.Sender.value) ∈
        (Verify tx c).Errors ↔ tx.Sender ≠ s)) := by
  constructor
  · intro hnone sender
    obtain ⟨er, ma, es, em, au⟩ := c
    simp only at hnone
    subst hnone
    rfl
  · intro s hes
    rw [mem_Verify_Errors]
    constructor
    · rintro (⟨_, h⟩ | ⟨_, h⟩ | ⟨_, h⟩ | ⟨_, h⟩ | ⟨s2, hes2, hne, _⟩ | ⟨m, _, _, h⟩)
      · exact absurd h (ne_of_head_ne _ _ 's' 't' (head_senderMsg _ _) (head_statusMsg _)
          (by decide))
      · exact absurd h (ne_of_head_ne _ _ 's' 't' (head_senderMsg _ _) (by decide)
          (by decide))
      · exact absurd h (ne_of_head_ne _ _ 's' 'r' (head_senderMsg _ _)
          (head_recipientMsg _ _) (by decide))
      · exact absurd h (ne_of_head_ne _ _ 's' 'i' (head_senderMsg _ _) (head_amountMsg _ _)
          (by decide))
      · rw [hes] at hes2
        rw [Option.some.inj hes2]
        exact hne
      · exact absurd h (ne_of_head_ne _ _ 's' 'm' (head_senderMsg _ _) (head_memoMsg _ _)
          (by decide))
    · intro hne
      exact Or.inr (Or.inr (Or.inr (Or.inr (Or.inl ⟨s, hes, hne, rfl⟩))))

/-- C8, on `TestVerificationService_ValidatesOptionalSender`: the test transaction against
another expected sender carries the sender violation; without an expected sender its result
does not depend on the sender. -/
theorem Verify_sender_check_witness :
    "sender mismatch: expected ST9J6ZY48GV1EZ5V2V5RB9MP66SW86PYKKNRV9EJ9, got ST2J6ZY48GV1EZ5V2V5RB9MP66SW86PYKKNRV9EJ7"
      ∈ (Verify createTestTransaction { validCriteria with
          ExpectedSender := some { value := "ST9J6ZY48GV1EZ5V2V5RB9MP66SW86PYKKNRV9EJ9" } }).Errors ∧
    Verify { createTestTransaction with
        Sender := { value := "ST9J6ZY48GV1EZ5V2V5RB9MP66SW86PYKKNRV9EJ9" } } validCriteria =
      Verify createTestTransaction validCriteria :=
  ⟨((Verify_sender_check createTestTransaction { validCriteria with
        ExpectedSender := some { value := "ST9J6ZY48GV1EZ5V2V5RB9MP66SW86PYKKNRV9EJ9" } }).2
      { value := "ST9J6ZY48GV1EZ5V2V5RB9MP66SW86PYKKNRV9EJ9" } rfl).mpr (by decide),
    (Verify_sender_check createTestTransaction validCriteria).1 rfl
      { value := "ST9J6ZY48GV1EZ5V2V5RB9MP66SW86PYKKNRV9EJ9" }⟩

/-- C9: the memo check is exact string equality and runs only when an expected memo is
supplied. With an expected memo `m`, the violation "memo mismatch: expected m, got tx.Memo" is
among the violations iff `tx.Memo` is not the same string as `m`; an expected memo that is
present but empty mismatches every non-empty memo; without an expected memo no violation is a
memo violation and the result does not depend on the memo. -/
theorem Verify_memo_check (tx : BlockchainTransaction) (c : VerificationCriteria) :
    (∀ m, c.ExpectedMemo = some m →
      (("memo mismatch: expected " ++ m ++ ", got " ++ tx.Memo) ∈ (Verify tx c).Errors ↔
        tx.Memo ≠ m)) ∧
    (c.ExpectedMemo = some "" → tx.Memo ≠ "" →
      ("memo mismatch: expected " ++ "" ++ ", got " ++ tx.Memo) ∈ (Verify tx c).Errors ∧
        (Verify tx c).Valid = false) ∧
    (c.ExpectedMemo = none →
      (∀ e ∈ (Verify tx c).Errors, e.data.head? ≠ some 'm') ∧
      (∀ memo : String, Verify { tx with Memo := memo } c = Verify tx c)) := by
  have hiff : ∀ m, c.ExpectedMemo = some m →
      (("memo mismatch: expected " ++ m ++ ", got " ++ tx.Memo) ∈ (Verify tx c).Errors ↔
        tx.Memo ≠ m) := by
    intro m hem
    rw [mem_Verify_Errors]
    constructor
    · rintro (⟨_, h⟩ | ⟨_, h⟩ | ⟨_, h⟩ | ⟨_, h⟩ | ⟨s, _, _, h⟩ | ⟨m2, hem2, hne, _⟩)
      · exact absurd h (ne_of_head_ne _ _ 'm' 't' (head_memoMsg _ _) (head_statusMsg _)
          (by decide))
      · exact absurd h (ne_of_head_ne _ _ 'm' 't' (head_memoMsg _ _) (by decide)
          (by decide))
      · exact absurd h (ne_of_head_ne _ _ 'm' 'r' (head_memoMsg _ _)
          (head_recipientMsg _ _) (by decide))
      · exact absurd h (ne_of_head_ne _ _ 'm' 'i' (head_memoMsg _ _) (head_amountMsg _ _)
          (by decide))
      · exact absurd h (ne_of_head_ne _ _ 'm' 's' (head_memoMsg _ _) (head_senderMsg _ _)
          (by decide))
      · rw [hem] at hem2
        rw [Option.some.inj hem2]
        exact hne
    · intro hne
      exact Or.inr (Or.inr (Or.inr (Or.inr (Or.inr ⟨m, hem, hne, rfl⟩))))
  refine ⟨hiff, ?_, ?_⟩
  · intro hem hne
    have hmem := (hiff "" hem).mpr hne
    refine ⟨hmem, ?_⟩
    cases hv : (Verify tx c).Valid with
    | false => rfl
    | true =>
      rw [Verify_valid_eq_true_iff] at hv
      rw [hv] at hmem
      exact absurd hmem (List.not_mem_nil _)
  · intro hnone
    constructor
    · intro e he
      rw [mem_Verify_Errors] at he
      rcases he with ⟨_, h⟩ | ⟨_, h⟩ | ⟨_, h⟩ | ⟨_, h⟩ | ⟨s, _, _, h⟩ | ⟨m, hem, _, _⟩
      · rw [h, head_statusMsg]
        decide
      · rw [h]
        decide
      · rw [h, head_recipientMsg]
        decide
      · rw [h, head_amountMsg]
        decide
      · rw [h, head_senderMsg]
        decide
      · rw [hnone] at hem
        exact Option.noConfusion hem
    · intro memo
      obtain ⟨er, ma, es, em, au⟩ := c
      simp only at hnone
      subst hnone
      rfl

/-- C9, on the test transaction (memo "test payment"): the same memo passes
(`TestVerificationService_MatchingMemo`); another memo, another letter case, a padded memo and
the empty expected memo each give the memo violation
(`TestVerificationService_ValidatesOptionalMemo`). -/
theorem Verify_memo_check_witness :
    "memo mismatch: expected test payment, got test payment" ∉
      (Verify createTestTransaction
        { validCriteria with ExpectedMemo := some "test payment" }).Errors ∧
    "memo mismatch: expected wrong memo, got test payment" ∈
      (Verify createTestTransaction
        { validCriteria with ExpectedMemo := some "wrong memo" }).Errors ∧
    "memo mismatch: expected Test Payment, got test payment" ∈
      (Verify createTestTransaction
        { validCriteria with ExpectedMemo := some "Test Payment" }).Errors ∧
    "memo mismatch: expected test payment , got test payment" ∈
      (Verify createTestTransaction
        { validCriteria with ExpectedMemo := some "test payment " }).Errors ∧
    ("memo mismatch: expected , got test payment" ∈
      (Verify createTestTransaction { validCriteria with ExpectedMemo := some "" }).Errors ∧
      (Verify createTestTransaction { validCriteria with ExpectedMemo := some "" }).Valid
        = false) :=
  ⟨fun h => absurd (((Verify_memo_check createTestTransaction
      { validCriteria with ExpectedMemo := some "test payment" }).1 "test payment" rfl).mp h)
      (by decide),
    ((Verify_memo_check createTestTransaction
      { validCriteria with ExpectedMemo := some "wrong memo" }).1 "wrong memo" rfl).mpr
      (by decide),
    ((Verify_memo_check createTestTransaction
      { validCriteria with ExpectedMemo := some "Test Payment" }).1 "Test Payment" rfl).mpr
      (by decide),
    ((Verify_memo_check createTestTransaction
      { validCriteria with ExpectedMemo := some "test payment " }).1 "test payment " rfl).mpr
      (by decide),
    (Verify_memo_check createTestTransaction
      { validCriteria with ExpectedMemo := some "" }).2.1 rfl (by decide)⟩

/-! ## Properties of the normaliser -/

/-- `NewStacksAddress` succeeds exactly on the non-empty strings with a known prefix and a
length between 30 and 50, and then wraps the string unchanged. -/
theorem NewStacksAddress_ok_iff (addr : String) (a : StacksAddress) :
    NewStacksAddress addr = .ok a ↔
      a.value = addr ∧ addr ≠ "" ∧
      (strings.HasPrefix addr "ST" = true ∨ strings.HasPrefix addr "SP" = true ∨
        strings.HasPrefix addr "SM" = true ∨ strings.HasPrefix addr "SN" = true) ∧
      30 ≤ len addr ∧ len addr ≤ 50 := by
  obtain ⟨v⟩ := a
  unfold NewStacksAddress
  by_cases h0 : addr = ""
  · simp [h0]
  · rw [if_neg h0]
    by_cases hp : (!strings.HasPrefix addr "ST" && !strings.HasPrefix addr "SP" &&
        !strings.HasPrefix addr "SM" && !strings.HasPrefix addr "SN") = true
    · rw [if_pos hp]
      simp only [Bool.and_eq_true, Bool.not_eq_true'] at hp
      obtain ⟨⟨⟨p1, p2⟩, p3⟩, p4⟩ := hp
      simp [p1, p2, p3, p4]
    · rw [if_neg hp]
      have hp2 : strings.HasPrefix addr "ST" = true ∨ strings.HasPrefix addr "SP" = true ∨
          strings.HasPrefix addr "SM" = true ∨ strings.HasPrefix addr "SN" = true := by
        revert hp
        cases strings.HasPrefix addr "ST" <;> cases strings.HasPrefix addr "SP" <;>
          cases strings.HasPrefix addr "SM" <;> cases strings.HasPrefix addr "SN" <;> simp
      by_cases hl : len addr < 30 ∨ len addr > 50
      · rw [if_pos hl]
        constructor
        · intro h
          cases h
        · rintro ⟨_, _, _, h1, h2⟩
          omega
      · rw [if_neg hl]
        have hl1 : 30 ≤ len addr := by omega
        have hl2 : len addr ≤ 50 := by omega
        constructor
        · intro h
          injection h with h
          injection h with h
          exact ⟨h.symm, h0, hp2, hl1, hl2⟩
        · rintro ⟨hv, _⟩
          simp only at hv
          rw [hv]

/-- An address accepted by `NewStacksAddress` is accepted again from its own string. -/
theorem NewStacksAddress_ok_self (addr : String) (a : StacksAddress)
    (h : NewStacksAddress addr = .ok a) : NewStacksAddress a.value = .ok a := by
  have hv := ((NewStacksAddress_ok_iff addr a).mp h).1
  rw [hv]
  exact h

/-- The argument loop of `parseSIP010Transfer` keeps the recipient either empty or accepted by
`NewStacksAddress`. -/
theorem parseSIP010Args_recipient (args : List ContractFunctionArgRaw) :
    ∀ (recipient : StacksAddress) (amount : Amount) (memo : String)
      (out : StacksAddress × Amount × String),
      (recipient.value = "" ∨ NewStacksAddress recipient.value = .ok recipient) →
      parseSIP010Args args recipient amount memo = .ok out →
      (out.1.value = "" ∨ NewStacksAddress out.1.value = .ok out.1) := by
  induction args with
  | nil =>
    intro recipient amount memo out hinv h
    simp only [parseSIP010Args] at h
    injection h with h
    rw [← h]
    exact hinv
  | cons arg rest ih =>
    intro recipient amount memo out hinv h
    rw [parseSIP010Args] at h
    split at h
    · split at h
      · cases h
      · exact ih _ _ _ _ hinv h
    · split at h
      · split at h
        · cases h
        · rename_i parsed hparsed
          exact ih _ _ _ _ (Or.inr (NewStacksAddress_ok_self _ _ hparsed)) h
      · split at h
        · exact ih _ _ _ _ hinv h
        · exact ih _ _ _ _ hinv h

/-- A recipient returned by `parseSIP010Transfer` is accepted by `NewStacksAddress`. -/
theorem parseSIP010Transfer_recipient (call : ContractCallData)
    (out : StacksAddress × Amount × String) (h : parseSIP010Transfer call = .ok out) :
    NewStacksAddress out.1.value = .ok out.1 := by
  unfold parseSIP010Transfer at h
  split at h
  · cases h
  · split at h
    · cases h
    · rename_i recipient amount memo hargs
      split at h
      · cases h
      · rename_i hz
        injection h with h
        have hinv := parseSIP010Args_recipient _ _ _ _ _ (Or.inl rfl) hargs
        rw [← h]
        rcases hinv with hempty | hok
        · exfalso
          apply hz
          simp only [StacksAddress.IsZero, decide_eq_true_eq]
          exact hempty
        · exact hok

/-- A recipient returned by the branch on the transaction type is accepted by
`NewStacksAddress`. -/
theorem parseTransfer_recipient (resp : TransactionResponse)
    (out : StacksAddress × Amount × String) (h : parseTransfer resp = .ok out) :
    NewStacksAddress out.1.value = .ok out.1 := by
  unfold parseTransfer at h
  split at h
  · split at h
    · cases h
    · rename_i recipient hrec
      split at h
      · cases h
      · injection h with h
        rw [← h]
        exact NewStacksAddress_ok_self _ _ hrec
  · split at h
    · exact parseSIP010Transfer_recipient _ _ h
    · cases h

/-- The sender and recipient of a transaction returned by `parseTransactionResponse` are
accepted by `NewStacksAddress`. -/
theorem parseTransactionResponse_addresses_ok (resp : TransactionResponse)
    (tokenType : TokenType) (tx : BlockchainTransaction)
    (h : parseTransactionResponse resp tokenType = .ok tx) :
    NewStacksAddress tx.Sender.value = .ok tx.Sender ∧
    NewStacksAddress tx.Recipient.value = .ok tx.Recipient := by
  unfold parseTransactionResponse at h
  split at h
  · cases h
  · split at h
    · cases h
    · rename_i sender hsender
      split at h
      · cases h
      · rename_i recipient amount memo htransfer
        injection h with h
        rw [← h]
        exact ⟨NewStacksAddress_ok_self _ _ hsender, parseTransfer_recipient _ _ htransfer⟩

/-- C10: normaliser invariant. Whenever `parseTransactionResponse` returns a transaction, for
any payload and any asserted token type, its sender and recipient are non-zero (non-empty) and
each satisfies the address rule: prefix `ST`, `SP`, `SM` or `SN` and length between 30 and
50. -/
theorem parseTransactionResponse_addresses (resp : TransactionResponse)
    (tokenType : TokenType) (tx : BlockchainTransaction)
    (h : parseTransactionResponse resp tokenType = .ok tx) :
    (tx.Sender.IsZero = false ∧ tx.Sender.value ≠ "" ∧
      (strings.HasPrefix tx.Sender.value "ST" = true ∨
        strings.HasPrefix tx.Sender.value "SP" = true ∨
        strings.HasPrefix tx.Sender.value "SM" = true ∨
        strings.HasPrefix tx.Sender.value "SN" = true) ∧
      30 ≤ len tx.Sender.value ∧ len tx.Sender.value ≤ 50) ∧
    (tx.Recipient.IsZero = false ∧ tx.Recipient.value ≠ "" ∧
      (strings.HasPrefix tx.Recipient.value "ST" = true ∨
        strings.HasPrefix tx.Recipient.value "SP" = true ∨
        strings.HasPrefix tx.Recipient.value "SM" = true ∨
        strings.HasPrefix tx.Recipient.value "SN" = true) ∧
      30 ≤ len tx.Recipient.value ∧ len tx.Recipient.value ≤ 50) := by
  obtain ⟨hs, hr⟩ := parseTransactionResponse_addresses_ok resp tokenType tx h
  obtain ⟨_, hs0, hsp, hs1, hs2⟩ := (NewStacksAddress_ok_iff _ _).mp hs
  obtain ⟨_, hr0, hrp, hr1, hr2⟩ := (NewStacksAddress_ok_iff _ _).mp hr
  refine ⟨⟨?_, hs0, hsp, hs1, hs2⟩, ⟨?_, hr0, hrp, hr1, hr2⟩⟩
  · simp only [StacksAddress.IsZero, decide_eq_false_iff_not]
    exact hs0
  · simp only [StacksAddress.IsZero, decide_eq_false_iff_not]
    exact hr0

/-- C10, on the payload of `TestClient_GetTransaction_STXTransfer` and on a SIP-010 `transfer`
call: both normalise, and sender and recipient are non-zero. -/
theorem parseTransactionResponse_addresses_witness :
    (parseTransactionResponse stxTransferResponse TokenSTX = .ok createTestTransaction ∧
      createTestTransaction.Sender.IsZero = false ∧
      createTestTransaction.Recipient.IsZero = false) ∧
    (parseTransactionResponse sip010TransferResponse TokenSBTC =
        .ok { createTestTransaction with TokenType := TokenSBTC } ∧
      30 ≤ len createTestTransaction.Recipient.value ∧
      len createTestTransaction.Recipient.value ≤ 50) :=
  ⟨⟨rfl,
    (parseTransactionResponse_addresses stxTransferResponse TokenSTX createTestTransaction
      rfl).1.1,
    (parseTransactionResponse_addresses stxTransferResponse TokenSTX createTestTransaction
      rfl).2.1⟩,
   ⟨rfl,
    (parseTransactionResponse_addresses sip010TransferResponse TokenSBTC
      { createTestTransaction with TokenType := TokenSBTC } rfl).2.2.2.2⟩⟩

/-! ## Properties of `strconv.ParseUint` -/

/-- The decimal value accumulated over digits is at least the accumulator it starts from. -/
theorem foldl_decimal_ge (cs : List Char) :
    ∀ a : Nat, a ≤ List.foldl (fun acc c => acc * 10 + (c.toNat - 48)) a cs := by
  induction cs with
  | nil => intro a; exact Nat.le_refl a
  | cons c rest ih =>
    intro a
    have h := ih (a * 10 + (c.toNat - 48))
    simp only [List.foldl_cons]
    omega

/-- The digit loop of `ParseUint` succeeds exactly on decimal digits whose value, accumulated
onto `n`, fits in 64 bits, and then returns that value. -/
theorem strconv.parseUintLoop_eq_ok_iff (s0 : String) (cs : List Char) :
    ∀ n v : Nat, n ≤ strconv.maxUint64 →
      (strconv.parseUintLoop s0 (strconv.maxUint64 / 10 + 1) strconv.maxUint64 cs n = (v, none) ↔
        (∀ c ∈ cs, 48 ≤ c.toNat ∧ c.toNat ≤ 57) ∧
        List.foldl (fun acc c => acc * 10 + (c.toNat - 48)) n cs = v ∧
        v ≤ strconv.maxUint64) := by
  have hmax : strconv.maxUint64 = 18446744073709551615 := by decide
  induction cs with
  | nil =>
    intro n v hn
    simp only [strconv.parseUintLoop, Prod.mk.injEq, and_true, List.not_mem_nil, false_implies,
      implies_true, List.foldl_nil, true_and]
    constructor
    · intro h
      exact ⟨h, h ▸ hn⟩
    · intro h
      exact h.1
  | cons ch rest ih =>
    intro n v hn
    have hge := foldl_decimal_ge rest (n * 10 + (ch.toNat - 48))
    rw [strconv.parseUintLoop]
    simp only [List.mem_cons, forall_eq_or_imp, List.foldl_cons]
    by_cases hd : 48 ≤ ch.toNat ∧ ch.toNat ≤ 57
    · simp only [hd, and_self, if_true, true_and]
      have hd10 : ¬ (ch.toNat - 48 ≥ 10) := by omega
      simp only [hd10, if_false]
      by_cases hc : n ≥ strconv.maxUint64 / 10 + 1
      · simp only [hc, if_true, Prod.mk.injEq, reduceCtorEq, and_false, false_iff]
        rintro ⟨_, hv, hle⟩
        rw [hmax] at hc hle
        omega
      · simp only [hc, if_false]
        rw [hmax] at hc
        have e1 : (n * 10) % 2 ^ 64 = n * 10 := by
          apply Nat.mod_eq_of_lt
          norm_num
          omega
        rw [e1]
        by_cases ho : n * 10 + (ch.toNat - 48) ≤ 18446744073709551615
        · have e2 : (n * 10 + (ch.toNat - 48)) % 2 ^ 64 = n * 10 + (ch.toNat - 48) := by
            apply Nat.mod_eq_of_lt
            norm_num
            omega
          rw [e2]
          have hno : ¬ (n * 10 + (ch.toNat - 48) < n * 10 ∨
              n * 10 + (ch.toNat - 48) > strconv.maxUint64) := by
            rw [hmax]
            omega
          simp only [hno, if_false]
          exact ih _ v (by rw [hmax]; exact ho)
        · have hlt : n * 10 + (ch.toNat - 48) < 2 * 2 ^ 64 := by
            norm_num
            omega
          have e2 : (n * 10 + (ch.toNat - 48)) % 2 ^ 64 =
              n * 10 + (ch.toNat - 48) - 2 ^ 64 := by
            rw [Nat.mod_eq_sub_mod (by norm_num; omega)]
            apply Nat.mod_eq_of_lt
            omega
          rw [e2]
          have hyes : (n * 10 + (ch.toNat - 48) - 2 ^ 64 < n * 10 ∨
              n * 10 + (ch.toNat - 48) - 2 ^ 64 > strconv.maxUint64) := by
            left
            norm_num
            omega
          simp only [hyes, if_true, Prod.mk.injEq, reduceCtorEq, and_false, false_iff]
          rintro ⟨_, hv, hle⟩
          rw [hmax] at hle
          omega
    · simp only [hd, if_false, false_and, iff_false]
      by_cases hl : 97 ≤ strconv.lower ch.toNat ∧ strconv.lower ch.toNat ≤ 122
      · simp only [hl, and_self, if_true]
        have h10 : strconv.lower ch.toNat - 97 + 10 ≥ 10 := by omega
        simp only [h10, if_true, Prod.mk.injEq, reduceCtorEq, and_false, not_false_eq_true]
      · simp only [hl, if_false, Prod.mk.injEq, reduceCtorEq, and_false, not_false_eq_true]

/-- `ParseUint` succeeds exactly on the non-empty strings of decimal digits whose value fits
in 64 bits, and then returns that value. -/
theorem strconv.ParseUint_eq_ok_iff (s : String) (v : Nat) :
    strconv.ParseUint s = (v, none) ↔
      s ≠ "" ∧ (∀ c ∈ s.data, 48 ≤ c.toNat ∧ c.toNat ≤ 57) ∧
      List.foldl (fun acc c => acc * 10 + (c.toNat - 48)) 0 s.data = v ∧
      v ≤ strconv.maxUint64 := by
  unfold strconv.ParseUint
  by_cases h0 : s = ""
  · simp [h0]
  · rw [if_neg h0, strconv.parseUintLoop_eq_ok_iff s s.data 0 v (Nat.zero_le _)]
    simp [h0]

/-- The value of a decimal digit character produced by `Nat.digitChar`. -/
theorem digitChar_toNat : ∀ k : Nat, k < 10 → (Nat.digitChar k).toNat = 48 + k := by
  decide

/-- The digits produced by `Nat.toDigitsCore` in base 10 are decimal digits, and reading them
back gives the number. -/
theorem toDigitsCore_decimal (fuel : Nat) :
    ∀ (n : Nat) (ds : List Char), n < fuel →
      (∀ c ∈ ds, 48 ≤ c.toNat ∧ c.toNat ≤ 57) →
      (∀ c ∈ Nat.toDigitsCore 10 fuel n ds, 48 ≤ c.toNat ∧ c.toNat ≤ 57) ∧
      List.foldl (fun acc c => acc * 10 + (c.toNat - 48)) 0 (Nat.toDigitsCore 10 fuel n ds) =
        List.foldl (fun acc c => acc * 10 + (c.toNat - 48)) n ds ∧
      Nat.toDigitsCore 10 fuel n ds ≠ [] := by
  induction fuel with
  | zero =>
    intro n ds hn
    exact absurd hn (Nat.not_lt_zero n)
  | succ fuel ih =>
    intro n ds hn hds
    have hmod : n % 10 < 10 := Nat.mod_lt n (by decide)
    have hch := digitChar_toNat (n % 10) hmod
    have hds2 : ∀ c ∈ Nat.digitChar (n % 10) :: ds, 48 ≤ c.toNat ∧ c.toNat ≤ 57 := by
      intro c hc
      rcases List.mem_cons.mp hc with h | h
      · rw [h, hch]
        omega
      · exact hds c h
    have hval : (0 * 10 + ((Nat.digitChar (n % 10)).toNat - 48)) = n % 10 := by
      rw [hch]
      omega
    simp only [Nat.toDigitsCore]
    by_cases hq : n / 10 = 0
    · simp only [hq, if_true]
      refine ⟨hds2, ?_, List.cons_ne_nil _ _⟩
      simp only [List.foldl_cons]
      rw [hval]
      have : n % 10 = n := by omega
      rw [this]
    · simp only [hq, if_false]
      have hlt : n / 10 < fuel := by omega
      obtain ⟨h1, h2, h3⟩ := ih (n / 10) (Nat.digitChar (n % 10) :: ds) hlt hds2
      refine ⟨h1, ?_, h3⟩
      rw [h2]
      simp only [List.foldl_cons]
      have : n / 10 * 10 + ((Nat.digitChar (n % 10)).toNat - 48) = n := by
        rw [hch]
        omega
      rw [this]

/-- `ParseUint` reads the decimal form of every `n < 2 ^ 64` back as `n`. -/
theorem strconv.ParseUint_repr (n : Nat) (hn : n < 2 ^ 64) :
    strconv.ParseUint (Nat.repr n) = (n, none) := by
  have hmax : strconv.maxUint64 = 18446744073709551615 := by decide
  obtain ⟨h1, h2, h3⟩ := toDigitsCore_decimal (n + 1) n [] (Nat.lt_succ_self n)
    (fun c hc => absurd hc (List.not_mem_nil c))
  rw [strconv.ParseUint_eq_ok_iff]
  have hdata : (Nat.repr n).data = Nat.toDigitsCore 10 (n + 1) n [] := rfl
  refine ⟨?_, ?_, ?_, ?_⟩
  · intro h
    apply h3
    rw [← hdata, h]
  · rw [hdata]
    exact h1
  · rw [hdata, h2]
    rfl
  · rw [hmax]
    norm_num at hn
    omega

/-! ## Shapes and failures of the normaliser -/

/-- A failure of the branch on the transaction type is a failure of
`parseTransactionResponse`. -/
theorem parseTransactionResponse_error_of_parseTransfer (resp : TransactionResponse)
    (tokenType : TokenType) (e : GoError) (h : parseTransfer resp = .error e) :
    ∃ err, parseTransactionResponse resp tokenType = .error err := by
  unfold parseTransactionResponse
  split
  · exact ⟨_, rfl⟩
  · split
    · exact ⟨_, rfl⟩
    · rw [h]
      exact ⟨_, rfl⟩

/-- With a valid transaction id and sender, `parseTransactionResponse` fails with the error of
the branch on the transaction type. -/
theorem parseTransactionResponse_eq_error (resp : TransactionResponse)
    (tokenType : TokenType) (txID : TransactionID) (sender : StacksAddress) (e : GoError)
    (hid : NewTransactionID resp.TxID = .ok txID)
    (hs : NewStacksAddress resp.SenderAddress = .ok sender)
    (h : parseTransfer resp = .error e) :
    parseTransactionResponse resp tokenType = .error e := by
  unfold parseTransactionResponse
  rw [hid, hs, h]

/-- With a valid transaction id and sender, `parseTransactionResponse` builds the transaction
from the result of the branch on the transaction type. -/
theorem parseTransactionResponse_eq_ok (resp : TransactionResponse)
    (tokenType : TokenType) (txID : TransactionID) (sender recipient : StacksAddress)
    (amount : Amount) (memo : String)
    (hid : NewTransactionID resp.TxID = .ok txID)
    (hs : NewStacksAddress resp.SenderAddress = .ok sender)
    (h : parseTransfer resp = .ok (recipient, amount, memo)) :
    parseTransactionResponse resp tokenType =
      .ok { TxID := txID
            TokenType := tokenType
            Sender := sender
            Recipient := recipient
            Amount := amount
            Fee := NewAmount (strconv.ParseUint resp.Fee).1
            Nonce := resp.Nonce
            BlockHeight := resp.BlockHeight
            Memo := memo
            Status := resp.TxStatus
            IsConfirmed := IsTransactionConfirmed resp.TxStatus resp.BlockHeight } := by
  unfold parseTransactionResponse
  rw [hid, hs, h]

/-- On a `contract_call` payload with call data the branch on the transaction type is
`parseSIP010Transfer`. -/
theorem parseTransfer_contract_call (resp : TransactionResponse) (call : ContractCallData)
    (ht : resp.TxType = "contract_call") (hc : resp.ContractCall = some call) :
    parseTransfer resp = parseSIP010Transfer call := by
  unfold parseTransfer
  rw [ht, hc]
  have h1 : decide ("contract_call" = "token_transfer") = false := by decide
  have h2 : decide ("contract_call" = "contract_call") = true := by decide
  rw [h1, h2]

/-- A payload that matches no known shape fails in the branch on the transaction type. -/
theorem parseTransfer_unsupported (resp : TransactionResponse)
    (h : (resp.TxType ≠ "token_transfer" ∧ resp.TxType ≠ "contract_call") ∨
      (resp.TxType = "token_transfer" ∧ resp.TokenTransfer = none) ∨
      (resp.TxType = "contract_call" ∧ resp.ContractCall = none)) :
    parseTransfer resp = .error (GoError.new "unsupported transaction type") := by
  unfold parseTransfer
  rcases h with ⟨h1, h2⟩ | ⟨h1, h2⟩ | ⟨h1, h2⟩
  · have e1 : decide (resp.TxType = "token_transfer") = false := decide_eq_false h1
    have e2 : decide (resp.TxType = "contract_call") = false := decide_eq_false h2
    rw [e1, e2]
  · rw [h1, h2]
    have e2 : decide ("token_transfer" = "contract_call") = false := by decide
    rw [e2]
    rfl
  · rw [h1, h2]
    have e1 : decide ("contract_call" = "token_transfer") = false := by decide
    rw [e1]
    cases resp.TokenTransfer <;> rfl

/-- C11: normalisation fails, returning an error and no transaction, for every payload that
matches no known shape: a `tx_type` other than `token_transfer` and `contract_call`, a
`token_transfer` without token-transfer data, a `contract_call` without contract-call data,
and a contract call whose function name is not exactly `transfer`. -/
theorem parseTransactionResponse_unknown_shape (resp : TransactionResponse)
    (tokenType : TokenType)
    (h : (resp.TxType ≠ "token_transfer" ∧ resp.TxType ≠ "contract_call") ∨
      (resp.TxType = "token_transfer" ∧ resp.TokenTransfer = none) ∨
      (resp.TxType = "contract_call" ∧ resp.ContractCall = none) ∨
      (resp.TxType = "contract_call" ∧
        ∃ call, resp.ContractCall = some call ∧ call.FunctionName ≠ "transfer")) :
    (∃ err, parseTransactionResponse resp tokenType = .error err) ∧
    (∀ tx, parseTransactionResponse resp tokenType ≠ .ok tx) := by
  have hfail : ∃ err, parseTransactionResponse resp tokenType = .error err := by
    rcases h with h | h | h | ⟨ht, call, hc, hf⟩
    · exact parseTransactionResponse_error_of_parseTransfer resp tokenType _
        (parseTransfer_unsupported resp (Or.inl h))
    · exact parseTransactionResponse_error_of_parseTransfer resp tokenType _
        (parseTransfer_unsupported resp (Or.inr (Or.inl h)))
    · exact parseTransactionResponse_error_of_parseTransfer resp tokenType _
        (parseTransfer_unsupported resp (Or.inr (Or.inr h)))
    · apply parseTransactionResponse_error_of_parseTransfer resp tokenType
        (GoError.new "not a transfer function")
      rw [parseTransfer_contract_call resp call ht hc]
      unfold parseSIP010Transfer
      rw [if_pos hf]
  refine ⟨hfail, ?_⟩
  obtain ⟨err, herr⟩ := hfail
  intro tx htx
  rw [herr] at htx
  cases htx

/-- C11, on the four unknown shapes built from the test payloads: a `coinbase` transaction, a
`token_transfer` without data, a `contract_call` without data, and a call of `mint`. -/
theorem parseTransactionResponse_unknown_shape_witness :
    (∃ err, parseTransactionResponse { stxTransferResponse with TxType := "coinbase" }
      TokenSTX = .error err) ∧
    (∃ err, parseTransactionResponse { stxTransferResponse with TokenTransfer := none }
      TokenSTX = .error err) ∧
    (∃ err, parseTransactionResponse { sip010TransferResponse with ContractCall := none }
      TokenSBTC = .error err) ∧
    (∃ err, parseTransactionResponse
      { sip010TransferResponse with
        ContractCall := some { ContractID := "", FunctionName := "mint", FunctionArgs := [] } }
      TokenSBTC = .error err) :=
  ⟨(parseTransactionResponse_unknown_shape _ TokenSTX
      (Or.inl ⟨by decide, by decide⟩)).1,
    (parseTransactionResponse_unknown_shape _ TokenSTX
      (Or.inr (Or.inl ⟨rfl, rfl⟩))).1,
    (parseTransactionResponse_unknown_shape _ TokenSBTC
      (Or.inr (Or.inr (Or.inl ⟨rfl, rfl⟩)))).1,
    (parseTransactionResponse_unknown_shape _ TokenSBTC
      (Or.inr (Or.inr (Or.inr ⟨rfl, _, rfl, by decide⟩)))).1⟩

/-! ## The argument loop of `parseSIP010Transfer` -/

/-- The value taken from the last element of a list that starts with `a`. -/
theorem getLast?_cons_map_getD {α β : Type} (f : α → β) (a : α) (l : List α) (d : β) :
    ((a :: l).getLast?.map f).getD d = (l.getLast?.map f).getD (f a) := by
  rw [List.getLast?_cons]
  cases l.getLast? <;> rfl

/-- When every recipient argument and every amount argument parses, the argument loop ends
with the last recipient, the last amount and the last memo among the arguments, each falling
back to the value it started from. -/
theorem parseSIP010Args_eq_ok (args : List ContractFunctionArgRaw) :
    ∀ (recipient : StacksAddress) (amount : Amount) (memo : String),
      (∀ arg ∈ args, arg.Name = "recipient" ∨ arg.Name = "to" →
        NewStacksAddress (strings.TrimPrefix arg.Repr "'") =
          .ok { value := strings.TrimPrefix arg.Repr "'" }) →
      (∀ arg ∈ args, arg.Name = "amount" →
        (strconv.ParseUint (strings.TrimPrefix arg.Repr "u")).2 = none) →
      parseSIP010Args args recipient amount memo =
        .ok
          ( (((args.filter (fun arg => decide (arg.Name = "recipient" ∨ arg.Name = "to"))).getLast?).map
              (fun arg => StacksAddress.mk (strings.TrimPrefix arg.Repr "'"))).getD recipient,
            (((args.filter (fun arg => decide (arg.Name = "amount"))).getLast?).map
              (fun arg => NewAmount (strconv.ParseUint (strings.TrimPrefix arg.Repr "u")).1)).getD
                amount,
            (((args.filter (fun arg => decide (arg.Name = "memo"))).getLast?).map
              (fun arg => arg.Repr)).getD memo ) := by
  induction args with
  | nil =>
    intro recipient amount memo _ _
    rfl
  | cons arg rest ih =>
    intro recipient amount memo hR hA
    have hR2 : ∀ a ∈ rest, a.Name = "recipient" ∨ a.Name = "to" →
        NewStacksAddress (strings.TrimPrefix a.Repr "'") =
          .ok { value := strings.TrimPrefix a.Repr "'" } :=
      fun a ha => hR a (List.mem_cons_of_mem _ ha)
    have hA2 : ∀ a ∈ rest, a.Name = "amount" →
        (strconv.ParseUint (strings.TrimPrefix a.Repr "u")).2 = none :=
      fun a ha => hA a (List.mem_cons_of_mem _ ha)
    rw [parseSIP010Args]
    by_cases h1 : arg.Name = "amount"
    · have n2 : ¬ (arg.Name = "recipient" ∨ arg.Name = "to") := by
        rw [h1]
        decide
      have n3 : ¬ (arg.Name = "memo") := by
        rw [h1]
        decide
      have hp := hA arg (List.mem_cons_self _ _) h1
      rw [if_pos h1]
      have hpair : strconv.ParseUint (strings.TrimPrefix arg.Repr "u") =
          ((strconv.ParseUint (strings.TrimPrefix arg.Repr "u")).1, none) := by
        rw [← hp]
      rw [hpair]
      simp only []
      rw [ih _ _ _ hR2 hA2]
      rw [List.filter_cons_of_neg (by simpa using n2), List.filter_cons_of_pos (by simpa using h1),
        List.filter_cons_of_neg (by simpa using n3), getLast?_cons_map_getD]
    · rw [if_neg h1]
      by_cases h2 : arg.Name = "recipient" ∨ arg.Name = "to"
      · have n3 : ¬ (arg.Name = "memo") := by
          rcases h2 with h | h <;> rw [h] <;> decide
        rw [if_pos h2, hR arg (List.mem_cons_self _ _) h2]
        simp only []
        rw [ih _ _ _ hR2 hA2]
        rw [List.filter_cons_of_pos (by simpa using h2), List.filter_cons_of_neg (by simpa using h1),
          List.filter_cons_of_neg (by simpa using n3), getLast?_cons_map_getD]
      · rw [if_neg h2]
        by_cases h3 : arg.Name = "memo"
        · rw [if_pos h3, ih _ _ _ hR2 hA2]
          rw [List.filter_cons_of_neg (by simpa using h2),
            List.filter_cons_of_neg (by simpa using h1),
            List.filter_cons_of_pos (by simpa using h3), getLast?_cons_map_getD]
        · rw [if_neg h3, ih _ _ _ hR2 hA2]
          rw [List.filter_cons_of_neg (by simpa using h2),
            List.filter_cons_of_neg (by simpa using h1),
            List.filter_cons_of_neg (by simpa using h3)]

/-- Without an argument named `recipient` or `to`, the argument loop leaves the recipient as
it was. -/
theorem parseSIP010Args_recipient_unchanged (args : List ContractFunctionArgRaw) :
    ∀ (recipient : StacksAddress) (amount : Amount) (memo : String)
      (out : StacksAddress × Amount × String),
      (∀ arg ∈ args, arg.Name ≠ "recipient" ∧ arg.Name ≠ "to") →
      parseSIP010Args args recipient amount memo = .ok out → out.1 = recipient := by
  induction args with
  | nil =>
    intro recipient amount memo out _ h
    simp only [parseSIP010Args] at h
    injection h with h
    rw [← h]
  | cons arg rest ih =>
    intro recipient amount memo out hno h
    have hno2 : ∀ a ∈ rest, a.Name ≠ "recipient" ∧ a.Name ≠ "to" :=
      fun a ha => hno a (List.mem_cons_of_mem _ ha)
    have hn : ¬ (arg.Name = "recipient" ∨ arg.Name = "to") := by
      have := hno arg (List.mem_cons_self _ _)
      rintro (h | h)
      · exact this.1 h
      · exact this.2 h
    rw [parseSIP010Args] at h
    split at h
    · split at h
      · cases h
      · exact ih _ _ _ _ hno2 h
    · split at h
      · exact ih _ _ _ _ hno2 h
      · exact ih _ _ _ _ hno2 h

/-- A `transfer` call without an argument named `recipient` or `to` is rejected by
`parseSIP010Transfer`. -/
theorem parseSIP010Transfer_no_recipient_fails (call : ContractCallData)
    (hno : ∀ arg ∈ call.FunctionArgs, arg.Name ≠ "recipient" ∧ arg.Name ≠ "to") :
    ∃ err, parseSIP010Transfer call = .error err := by
  unfold parseSIP010Transfer
  split
  · exact ⟨_, rfl⟩
  · split
    · exact ⟨_, rfl⟩
    · rename_i recipient amount memo hargs
      have hrec := parseSIP010Args_recipient_unchanged _ _ _ _ _ hno hargs
      simp only at hrec
      have hz : recipient.IsZero = true := by
        rw [hrec]
        rfl
      rw [if_pos hz]
      exact ⟨_, rfl⟩

/-- C12, counterexample: a `transfer` call without a recipient argument whose amount argument
does not parse fails with the amount error, not with the missing-recipient error. -/
theorem parseTransactionResponse_no_recipient_bad_amount :
    badAmountNoRecipientResponse.TxType = "contract_call" ∧
    (∃ call, badAmountNoRecipientResponse.ContractCall = some call ∧
      call.FunctionName = "transfer" ∧
      (∀ arg ∈ call.FunctionArgs, arg.Name ≠ "recipient" ∧ arg.Name ≠ "to") ∧
      parseSIP010Transfer call =
        .error (GoError.wrap "invalid amount" (GoError.numError "ParseUint" "abc" false))) ∧
    parseTransactionResponse badAmountNoRecipientResponse TokenSBTC =
      .error (GoError.wrap "invalid amount" (GoError.numError "ParseUint" "abc" false)) ∧
    parseTransactionResponse badAmountNoRecipientResponse TokenSBTC ≠
      .error (GoError.new "recipient not found in contract call") := by
  refine ⟨rfl, ⟨_, rfl, rfl, by decide, rfl⟩, rfl, ?_⟩
  intro h
  have h2 : parseTransactionResponse badAmountNoRecipientResponse TokenSBTC =
      .error (GoError.wrap "invalid amount" (GoError.numError "ParseUint" "abc" false)) := rfl
  rw [h2] at h
  cases h

/-- C12, amended: a contract-call payload with function name `transfer` and no argument named
`recipient` or `to` always fails to normalise; when every argument named `amount` parses, the
call fails with "recipient not found in contract call", and so does the whole payload when
its transaction id and sender are valid, even with an amount and a memo argument present. -/
theorem parseTransactionResponse_missing_recipient (resp : TransactionResponse)
    (tokenType : TokenType) (call : ContractCallData)
    (ht : resp.TxType = "contract_call") (hc : resp.ContractCall = some call)
    (hf : call.FunctionName = "transfer")
    (hno : ∀ arg ∈ call.FunctionArgs, arg.Name ≠ "recipient" ∧ arg.Name ≠ "to") :
    (∃ err, parseTransactionResponse resp tokenType = .error err) ∧
    ((∀ arg ∈ call.FunctionArgs, arg.Name = "amount" →
        (strconv.ParseUint (strings.TrimPrefix arg.Repr "u")).2 = none) →
      parseSIP010Transfer call = .error (GoError.new "recipient not found in contract call") ∧
      ∀ txID sender, NewTransactionID resp.TxID = .ok txID →
        NewStacksAddress resp.SenderAddress = .ok sender →
        parseTransactionResponse resp tokenType =
          .error (GoError.new "recipient not found in contract call")) := by
  have hpt := parseTransfer_contract_call resp call ht hc
  constructor
  · obtain ⟨err, herr⟩ := parseSIP010Transfer_no_recipient_fails call hno
    exact parseTransactionResponse_error_of_parseTransfer resp tokenType err (hpt.trans herr)
  · intro hamt
    have hR : ∀ arg ∈ call.FunctionArgs, arg.Name = "recipient" ∨ arg.Name = "to" →
        NewStacksAddress (strings.TrimPrefix arg.Repr "'") =
          .ok { value := strings.TrimPrefix arg.Repr "'" } := by
      intro arg harg hn
      rcases hn with h | h
      · exact absurd h (hno arg harg).1
      · exact absurd h (hno arg harg).2
    have hloop := parseSIP010Args_eq_ok call.FunctionArgs { value := "" } { value := 0 } ""
      hR hamt
    have hnil : call.FunctionArgs.filter
        (fun arg => decide (arg.Name = "recipient" ∨ arg.Name = "to")) = [] := by
      rw [List.filter_eq_nil_iff]
      intro arg harg
      have := hno arg harg
      simp [this.1, this.2]
    rw [hnil] at hloop
    have hcall : parseSIP010Transfer call =
        .error (GoError.new "recipient not found in contract call") := by
      unfold parseSIP010Transfer
      rw [if_neg (not_not.mpr hf), hloop]
      rfl
    refine ⟨hcall, ?_⟩
    intro txID sender hid hs
    exact parseTransactionResponse_eq_error resp tokenType txID sender _ hid hs
      (hpt.trans hcall)

/-- C12, amended, on a `transfer` call that carries an amount and a memo that parse and no
recipient: the payload is rejected with the missing-recipient error. -/
theorem parseTransactionResponse_missing_recipient_witness :
    parseTransactionResponse noRecipientResponse TokenSBTC =
      .error (GoError.new "recipient not found in contract call") :=
  ((parseTransactionResponse_missing_recipient noRecipientResponse TokenSBTC
      { ContractID := "SM3VDXK3WZZSA84XXFKAFAF15NNZX32CTSG82JFQ4.sbtc-token"
        FunctionName := "transfer"
        FunctionArgs :=
          [ { Hex := "", Repr := "u1000000", Type_ := "uint", Name := "amount" },
            { Hex := "", Repr := "test payment", Type_ := "(optional (buff 34))",
              Name := "memo" } ] }
      rfl rfl rfl (by decide)).2 (by decide)).2
    { value := "0x1234567890abcdef1234567890abcdef1234567890abcdef1234567890abcdef" }
    { value := "ST2J6ZY48GV1EZ5V2V5RB9MP66SW86PYKKNRV9EJ7" } rfl rfl

/-! ## Amount failures -/

/-- `ParseUint` returns no error exactly on the non-empty strings of decimal digits whose
value is below `2 ^ 64`. -/
theorem strconv.ParseUint_snd_eq_none_iff (s : String) :
    (strconv.ParseUint s).2 = none ↔
      s ≠ "" ∧ (∀ c ∈ s.data, 48 ≤ c.toNat ∧ c.toNat ≤ 57) ∧
      List.foldl (fun acc c => acc * 10 + (c.toNat - 48)) 0 s.data < 2 ^ 64 := by
  have hmax : strconv.maxUint64 = 18446744073709551615 := by decide
  constructor
  · intro h
    have hpair : strconv.ParseUint s = ((strconv.ParseUint s).1, none) := by
      rw [← h]
    obtain ⟨h0, hd, hv, hle⟩ := (strconv.ParseUint_eq_ok_iff s _).mp hpair
    refine ⟨h0, hd, ?_⟩
    rw [hv]
    rw [hmax] at hle
    norm_num
    omega
  · rintro ⟨h0, hd, hlt⟩
    have hle : List.foldl (fun acc c => acc * 10 + (c.toNat - 48)) 0 s.data ≤
        strconv.maxUint64 := by
      rw [hmax]
      norm_num at hlt
      omega
    rw [(strconv.ParseUint_eq_ok_iff s _).mpr ⟨h0, hd, rfl, hle⟩]

/-- An argument named `amount` that does not parse makes the argument loop fail. -/
theorem parseSIP010Args_bad_amount (args : List ContractFunctionArgRaw) :
    ∀ (recipient : StacksAddress) (amount : Amount) (memo : String),
      (∃ arg ∈ args, arg.Name = "amount" ∧
        (strconv.ParseUint (strings.TrimPrefix arg.Repr "u")).2 ≠ none) →
      ∃ err, parseSIP010Args args recipient amount memo = .error err := by
  induction args with
  | nil =>
    intro recipient amount memo h
    obtain ⟨arg, harg, _⟩ := h
    exact absurd harg (List.not_mem_nil arg)
  | cons arg rest ih =>
    intro recipient amount memo h
    obtain ⟨bad, hbad, hname, hparse⟩ := h
    rw [parseSIP010Args]
    by_cases h1 : arg.Name = "amount"
    · rw [if_pos h1]
      split
      · exact ⟨_, rfl⟩
      · rename_i amountVal hok
        rcases List.mem_cons.mp hbad with heq | hmem
        · rw [heq, hok] at hparse
          exact absurd rfl hparse
        · exact ih _ _ _ ⟨bad, hmem, hname, hparse⟩
    · have hrest : ∃ a ∈ rest, a.Name = "amount" ∧
          (strconv.ParseUint (strings.TrimPrefix a.Repr "u")).2 ≠ none := by
        rcases List.mem_cons.mp hbad with heq | hmem
        · rw [heq] at hname
          exact absurd hname h1
        · exact ⟨bad, hmem, hname, hparse⟩
      rw [if_neg h1]
      split
      · split
        · exact ⟨_, rfl⟩
        · exact ih _ _ _ hrest
      · split
        · exact ih _ _ _ hrest
        · exact ih _ _ _ hrest

/-- C13: amount parse failures are fatal. When the amount of a `token_transfer`, or the repr
of an argument named `amount` of a contract call after one leading `u` is stripped, is not a
non-empty string of decimal digits with a value below `2 ^ 64` (so also when it is empty,
signed, non-numeric or out of range), normalisation returns an error and no transaction. -/
theorem parseTransactionResponse_amount_fatal (resp : TransactionResponse)
    (tokenType : TokenType)
    (h : (resp.TxType = "token_transfer" ∧ ∃ tt, resp.TokenTransfer = some tt ∧
          ¬ (tt.Amount ≠ "" ∧ (∀ c ∈ tt.Amount.data, 48 ≤ c.toNat ∧ c.toNat ≤ 57) ∧
            List.foldl (fun acc c => acc * 10 + (c.toNat - 48)) 0 tt.Amount.data < 2 ^ 64)) ∨
      (resp.TxType = "contract_call" ∧ ∃ call, resp.ContractCall = some call ∧
        ∃ arg ∈ call.FunctionArgs, arg.Name = "amount" ∧
          ¬ (strings.TrimPrefix arg.Repr "u" ≠ "" ∧
            (∀ c ∈ (strings.TrimPrefix arg.Repr "u").data, 48 ≤ c.toNat ∧ c.toNat ≤ 57) ∧
            List.foldl (fun acc c => acc * 10 + (c.toNat - 48)) 0
              (strings.TrimPrefix arg.Repr "u").data < 2 ^ 64))) :
    (∃ err, parseTransactionResponse resp tokenType = .error err) ∧
    (∀ tx, parseTransactionResponse resp tokenType ≠ .ok tx) := by
  have hfail : ∃ err, parseTransactionResponse resp tokenType = .error err := by
    rcases h with ⟨ht, tt, htt, hbad⟩ | ⟨ht, call, hc, arg, harg, hname, hbad⟩
    · rw [← strconv.ParseUint_snd_eq_none_iff] at hbad
      have hpt : ∃ e, parseTransfer resp = .error e := by
        unfold parseTransfer
        rw [ht, htt]
        have e1 : decide ("token_transfer" = "token_transfer") = true := by decide
        rw [e1]
        simp only []
        split
        · exact ⟨_, rfl⟩
        · split
          · exact ⟨_, rfl⟩
          · rename_i amountVal hok
            rw [hok] at hbad
            exact absurd rfl hbad
      obtain ⟨e, he⟩ := hpt
      exact parseTransactionResponse_error_of_parseTransfer resp tokenType e he
    · rw [← strconv.ParseUint_snd_eq_none_iff] at hbad
      have hpt : ∃ e, parseTransfer resp = .error e := by
        rw [parseTransfer_contract_call resp call ht hc]
        unfold parseSIP010Transfer
        split
        · exact ⟨_, rfl⟩
        · obtain ⟨e, he⟩ := parseSIP010Args_bad_amount call.FunctionArgs { value := "" }
            { value := 0 } "" ⟨arg, harg, hname, hbad⟩
          rw [he]
          exact ⟨_, rfl⟩
      obtain ⟨e, he⟩ := hpt
      exact parseTransactionResponse_error_of_parseTransfer resp tokenType e he
  refine ⟨hfail, ?_⟩
  obtain ⟨err, herr⟩ := hfail
  intro tx htx
  rw [herr] at htx
  cases htx

/-- C13, on amounts that are empty, signed, non-numeric and one above the largest `uint64`
in a `token_transfer`, and on a contract call whose amount repr keeps a `u` after one is
stripped: each payload is rejected. -/
theorem parseTransactionResponse_amount_fatal_witness :
    (∃ err, parseTransactionResponse (stxTransferWithAmount "") TokenSTX = .error err) ∧
    (∃ err, parseTransactionResponse (stxTransferWithAmount "-5") TokenSTX = .error err) ∧
    (∃ err, parseTransactionResponse (stxTransferWithAmount "+5") TokenSTX = .error err) ∧
    (∃ err, parseTransactionResponse (stxTransferWithAmount "12a") TokenSTX = .error err) ∧
    (∃ err, parseTransactionResponse (stxTransferWithAmount "18446744073709551616") TokenSTX
      = .error err) ∧
    (∃ err, parseTransactionResponse (sip010TransferWithAmount "uu5") TokenSBTC
      = .error err) :=
  ⟨(parseTransactionResponse_amount_fatal (stxTransferWithAmount "") TokenSTX
      (Or.inl ⟨rfl, _, rfl, by decide⟩)).1,
    (parseTransactionResponse_amount_fatal (stxTransferWithAmount "-5") TokenSTX
      (Or.inl ⟨rfl, _, rfl, by decide⟩)).1,
    (parseTransactionResponse_amount_fatal (stxTransferWithAmount "+5") TokenSTX
      (Or.inl ⟨rfl, _, rfl, by decide⟩)).1,
    (parseTransactionResponse_amount_fatal (stxTransferWithAmount "12a") TokenSTX
      (Or.inl ⟨rfl, _, rfl, by decide⟩)).1,
    (parseTransactionResponse_amount_fatal (stxTransferWithAmount "18446744073709551616")
      TokenSTX (Or.inl ⟨rfl, _, rfl, by decide⟩)).1,
    (parseTransactionResponse_amount_fatal (sip010TransferWithAmount "uu5") TokenSBTC
      (Or.inr ⟨rfl, _, rfl,
        { Hex := "", Repr := "uu5", Type_ := "uint", Name := "amount" },
        by decide, rfl, by decide⟩)).1⟩

/-! ## Defaults of the normaliser -/

/-- C14, at the failing input: a `transfer` call that carries a recipient and no argument named
`amount` normalises, and the transaction carries the defaulted amount 0. -/
theorem parseTransactionResponse_defaults_missing_amount :
    noAmountResponse.TxType = "contract_call" ∧
    (∃ call, noAmountResponse.ContractCall = some call ∧ call.FunctionName = "transfer" ∧
      (∀ arg ∈ call.FunctionArgs, arg.Name ≠ "amount")) ∧
    parseTransactionResponse noAmountResponse TokenSBTC =
      .ok { createTestTransaction with
            TokenType := TokenSBTC, Amount := NewAmount 0, Memo := "" } :=
  ⟨rfl, ⟨_, rfl, rfl, by decide⟩, rfl⟩

/-- C15, at the failing input: a fee string one above the largest `uint64` does not parse, the
payload normalises all the same, and the transaction carries the fee `2 ^ 64 - 1`, not 0. -/
theorem parseTransactionResponse_overflow_fee :
    (strconv.ParseUint overflowFeeResponse.Fee).2 ≠ none ∧
    parseTransactionResponse overflowFeeResponse TokenSTX =
      .ok { createTestTransaction with Fee := NewAmount 18446744073709551615 } ∧
    (∀ tx, parseTransactionResponse overflowFeeResponse TokenSTX = .ok tx →
      tx.Fee.value ≠ 0) := by
  refine ⟨by decide, rfl, ?_⟩
  intro tx h
  have h2 : parseTransactionResponse overflowFeeResponse TokenSTX =
      .ok { createTestTransaction with Fee := NewAmount 18446744073709551615 } := rfl
  rw [h2] at h
  injection h with h
  rw [← h]
  decide

/-- The fee string never decides the success of `parseTransactionResponse`: another fee string
changes the fee of the result and nothing else. -/
theorem parseTransactionResponse_fee_not_fatal (resp : TransactionResponse)
    (tokenType : TokenType) (fee : String) (tx : BlockchainTransaction)
    (h : parseTransactionResponse resp tokenType = .ok tx) :
    parseTransactionResponse { resp with Fee := fee } tokenType =
      .ok { tx with Fee := NewAmount (strconv.ParseUint fee).1 } := by
  have hpt : parseTransfer { resp with Fee := fee } = parseTransfer resp := rfl
  unfold parseTransactionResponse at h ⊢
  rw [hpt]
  simp only
  split at h
  · cases h
  · split at h
    · cases h
    · split at h
      · cases h
      · injection h with h
        rw [← h]

/-- On the empty, the signed and the non-numeric fee strings `ParseUint` returns the value 0
next to its error. -/
theorem strconv.ParseUint_syntax_error_values :
    strconv.ParseUint "" = (0, some (strconv.syntaxError "ParseUint" "")) ∧
    strconv.ParseUint "-1" = (0, some (strconv.syntaxError "ParseUint" "-1")) ∧
    strconv.ParseUint "+1" = (0, some (strconv.syntaxError "ParseUint" "+1")) ∧
    strconv.ParseUint "abc" = (0, some (strconv.syntaxError "ParseUint" "abc")) ∧
    strconv.ParseUint "18446744073709551616" =
      (18446744073709551615, some (strconv.rangeError "ParseUint" "18446744073709551616")) := by
  decide

/-! ## Extraction of programmatic transfers -/

/-- `strings.TrimPrefix` removes a prefix that was put in front. -/
theorem strings.TrimPrefix_append (p s : String) : strings.TrimPrefix (p ++ s) p = s := by
  unfold strings.TrimPrefix strings.HasPrefix
  have hpre : p.data.isPrefixOf (p ++ s).data = true := by
    rw [String.data_append, List.isPrefixOf_iff_prefix]
    exact List.prefix_append _ _
  rw [if_pos hpre, String.data_append, List.drop_left]

/-- C16 as stated fails: the arguments of the call do not decide whether normalisation
succeeds. The reordered SIP-010 payload with the transaction id `0x1234` is a `contract_call`
with function name `transfer`, one recipient argument with a valid address, one amount
argument `u1000000` and one memo argument, and its call yields recipient, amount and memo; yet
`parseTransactionResponse` rejects the payload for its transaction id, which it checks before
it looks at the call. -/
theorem parseTransactionResponse_sip010_short_id :
    sip010ShortIDResponse.TxType = "contract_call" ∧
    sip010ShortIDResponse.ContractCall = some sip010ReorderedCall ∧
    sip010ReorderedCall.FunctionName = "transfer" ∧
    sip010ReorderedCall.FunctionArgs.filter
        (fun arg => decide (arg.Name = "recipient" ∨ arg.Name = "to")) =
      [ { Hex := "", Repr := "'" ++ "ST1PQHQKV0RJXZFY1DGX8MNSNYVE3VGZJSRTPGZGM",
          Type_ := "principal", Name := "to" } ] ∧
    NewStacksAddress "ST1PQHQKV0RJXZFY1DGX8MNSNYVE3VGZJSRTPGZGM" =
      .ok { value := "ST1PQHQKV0RJXZFY1DGX8MNSNYVE3VGZJSRTPGZGM" } ∧
    sip010ReorderedCall.FunctionArgs.filter (fun arg => decide (arg.Name = "amount")) =
      [ { Hex := "", Repr := "u" ++ Nat.repr 1000000, Type_ := "uint", Name := "amount" } ] ∧
    sip010ReorderedCall.FunctionArgs.filter (fun arg => decide (arg.Name = "memo")) =
      [ { Hex := "", Repr := "test payment", Type_ := "(optional (buff 34))",
          Name := "memo" } ] ∧
    parseSIP010Transfer sip010ReorderedCall =
      .ok ({ value := "ST1PQHQKV0RJXZFY1DGX8MNSNYVE3VGZJSRTPGZGM" }, NewAmount 1000000,
        "test payment") ∧
    parseTransactionResponse sip010ShortIDResponse TokenSBTC =
      .error (GoError.wrap "invalid tx ID"
        (GoError.new "invalid transaction ID length: expected 66 characters")) :=
  ⟨rfl, rfl, rfl, by decide, rfl, by decide, by decide, rfl, rfl⟩

/-- C16, amended: programmatic-transfer extraction. For a `contract_call` payload with function
name `transfer` whose arguments hold one recipient argument (named `recipient` or `to`) with
repr `'` followed by a valid address `A`, one argument named `amount` with repr `u` followed by
the decimal form of `n < 2 ^ 64`, and at most one argument named `memo` with repr `m` (`m` empty
when there is none), the call yields recipient `A`, amount `n` and memo `m`, wherever these
arguments stand and whatever other arguments there are; when `NewTransactionID` accepts the
transaction id of the payload and `NewStacksAddress` its sender address, normalisation succeeds
with these three fields, and when one of the two is rejected, normalisation fails. -/
theorem parseTransactionResponse_sip010_extraction (resp : TransactionResponse)
    (tokenType : TokenType) (call : ContractCallData) (ra aa : ContractFunctionArgRaw)
    (A : StacksAddress) (n : Nat) (m : String)
    (ht : resp.TxType = "contract_call") (hc : resp.ContractCall = some call)
    (hf : call.FunctionName = "transfer")
    (hrec : call.FunctionArgs.filter
      (fun arg => decide (arg.Name = "recipient" ∨ arg.Name = "to")) = [ra])
    (hraddr : ra.Repr = "'" ++ A.value) (hA : NewStacksAddress A.value = .ok A)
    (hamt : call.FunctionArgs.filter (fun arg => decide (arg.Name = "amount")) = [aa])
    (han : aa.Repr = "u" ++ Nat.repr n) (hn : n < 2 ^ 64)
    (hmemo : (call.FunctionArgs.filter (fun arg => decide (arg.Name = "memo")) = [] ∧ m = "") ∨
      (∃ ma, call.FunctionArgs.filter (fun arg => decide (arg.Name = "memo")) = [ma] ∧
        m = ma.Repr)) :
    parseSIP010Transfer call = .ok (A, NewAmount n, m) ∧
    (∀ txID sender, NewTransactionID resp.TxID = .ok txID →
      NewStacksAddress resp.SenderAddress = .ok sender →
      ∃ tx, parseTransactionResponse resp tokenType = .ok tx ∧
        tx.Recipient = A ∧ tx.Amount.value = n ∧ tx.Memo = m) ∧
    ((∃ e, NewTransactionID resp.TxID = .error e) ∨
        (∃ e, NewStacksAddress resp.SenderAddress = .error e) →
      (∃ e, parseTransactionResponse resp tokenType = .error e) ∧
      ∀ tx, parseTransactionResponse resp tokenType ≠ .ok tx) := by
  have hAval : A.value ≠ "" := ((NewStacksAddress_ok_iff _ _).mp hA).2.1
  have hAmk : StacksAddress.mk A.value = A := rfl
  have htrimR : strings.TrimPrefix ra.Repr "'" = A.value := by
    rw [hraddr, strings.TrimPrefix_append]
  have htrimA : strings.TrimPrefix aa.Repr "u" = Nat.repr n := by
    rw [han, strings.TrimPrefix_append]
  have hR : ∀ arg ∈ call.FunctionArgs, arg.Name = "recipient" ∨ arg.Name = "to" →
      NewStacksAddress (strings.TrimPrefix arg.Repr "'") =
        .ok { value := strings.TrimPrefix arg.Repr "'" } := by
    intro arg harg hname
    have hmem : arg ∈ call.FunctionArgs.filter
        (fun arg => decide (arg.Name = "recipient" ∨ arg.Name = "to")) :=
      List.mem_filter.mpr ⟨harg, decide_eq_true hname⟩
    rw [hrec, List.mem_singleton] at hmem
    rw [hmem, htrimR, hAmk]
    exact hA
  have hAm : ∀ arg ∈ call.FunctionArgs, arg.Name = "amount" →
      (strconv.ParseUint (strings.TrimPrefix arg.Repr "u")).2 = none := by
    intro arg harg hname
    have hmem : arg ∈ call.FunctionArgs.filter (fun arg => decide (arg.Name = "amount")) :=
      List.mem_filter.mpr ⟨harg, decide_eq_true hname⟩
    rw [hamt, List.mem_singleton] at hmem
    rw [hmem, htrimA, strconv.ParseUint_repr n hn]
  have hloop := parseSIP010Args_eq_ok call.FunctionArgs { value := "" } { value := 0 } "" hR hAm
  have hm : (((call.FunctionArgs.filter (fun arg => decide (arg.Name = "memo"))).getLast?).map
      (fun arg => arg.Repr)).getD "" = m := by
    rcases hmemo with ⟨h, hm⟩ | ⟨ma, h, hm⟩
    · rw [h, hm]
      rfl
    · rw [h, hm]
      rfl
  rw [hrec, hamt, hm] at hloop
  simp only [List.getLast?_singleton, Option.map_some', Option.getD_some, htrimR, htrimA,
    strconv.ParseUint_repr n hn] at hloop
  have hcall : parseSIP010Transfer call = .ok (A, NewAmount n, m) := by
    unfold parseSIP010Transfer
    rw [if_neg (not_not.mpr hf), hloop]
    have hz : ¬ ((StacksAddress.mk A.value).IsZero = true) := by
      simp only [StacksAddress.IsZero, decide_eq_true_eq]
      exact hAval
    simp only [if_neg hz]
  refine ⟨hcall, ?_, ?_⟩
  · intro txID sender hid hs
    have hpt : parseTransfer resp = .ok (A, NewAmount n, m) :=
      (parseTransfer_contract_call resp call ht hc).trans hcall
    exact ⟨_,
      parseTransactionResponse_eq_ok resp tokenType txID sender A (NewAmount n) m hid hs hpt,
      rfl, rfl, rfl⟩
  · intro hbad
    have herr : ∃ e, parseTransactionResponse resp tokenType = .error e := by
      unfold parseTransactionResponse
      cases hid : NewTransactionID resp.TxID with
      | error e => exact ⟨_, rfl⟩
      | ok txID =>
        cases hs : NewStacksAddress resp.SenderAddress with
        | error e => exact ⟨_, rfl⟩
        | ok sender =>
          rcases hbad with ⟨e, he⟩ | ⟨e, he⟩
          · rw [hid] at he
            cases he
          · rw [hs] at he
            cases he
    obtain ⟨e, he⟩ := herr
    refine ⟨⟨e, he⟩, ?_⟩
    intro tx htx
    rw [he] at htx
    cases htx

/-- C16, amended, on the reordered call (memo first, recipient named `to`, a foreign argument,
amount last) and on a call without a memo, both with a valid transaction id and sender:
recipient, amount and memo are extracted. -/
theorem parseTransactionResponse_sip010_extraction_witness :
    (∃ tx, parseTransactionResponse sip010ReorderedResponse TokenSBTC = .ok tx ∧
      tx.Recipient = { value := "ST1PQHQKV0RJXZFY1DGX8MNSNYVE3VGZJSRTPGZGM" } ∧
      tx.Amount.value = 1000000 ∧ tx.Memo = "test payment") ∧
    (∃ tx, parseTransactionResponse (sip010TransferWithAmount "u42") TokenUSDCX = .ok tx ∧
      tx.Recipient = { value := "ST1PQHQKV0RJXZFY1DGX8MNSNYVE3VGZJSRTPGZGM" } ∧
      tx.Amount.value = 42 ∧ tx.Memo = "") :=
  ⟨(parseTransactionResponse_sip010_extraction sip010ReorderedResponse TokenSBTC
      sip010ReorderedCall
      { Hex := "", Repr := "'ST1PQHQKV0RJXZFY1DGX8MNSNYVE3VGZJSRTPGZGM",
        Type_ := "principal", Name := "to" }
      { Hex := "", Repr := "u1000000", Type_ := "uint", Name := "amount" }
      { value := "ST1PQHQKV0RJXZFY1DGX8MNSNYVE3VGZJSRTPGZGM" } 1000000 "test payment"
      rfl rfl rfl (by decide) rfl rfl (by decide) rfl (by decide)
      (Or.inr
        ⟨{ Hex := "", Repr := "test payment", Type_ := "(optional (buff 34))", Name := "memo" },
          by decide, rfl⟩)).2.1
      { value := "0x1234567890abcdef1234567890abcdef1234567890abcdef1234567890abcdef" }
      { value := "ST2J6ZY48GV1EZ5V2V5RB9MP66SW86PYKKNRV9EJ7" } rfl rfl,
   (parseTransactionResponse_sip010_extraction (sip010TransferWithAmount "u42") TokenUSDCX
      { ContractID := "SM3VDXK3WZZSA84XXFKAFAF15NNZX32CTSG82JFQ4.sbtc-token"
        FunctionName := "transfer"
        FunctionArgs :=
          [ { Hex := "", Repr := "u42", Type_ := "uint", Name := "amount" },
            { Hex := "", Repr := "'ST1PQHQKV0RJXZFY1DGX8MNSNYVE3VGZJSRTPGZGM",
              Type_ := "principal", Name := "recipient" } ] }
      { Hex := "", Repr := "'ST1PQHQKV0RJXZFY1DGX8MNSNYVE3VGZJSRTPGZGM",
        Type_ := "principal", Name := "recipient" }
      { Hex := "", Repr := "u42", Type_ := "uint", Name := "amount" }
      { value := "ST1PQHQKV0RJXZFY1DGX8MNSNYVE3VGZJSRTPGZGM" } 42 ""
      rfl rfl rfl (by decide) rfl rfl (by decide) rfl (by decide)
      (Or.inl ⟨by decide, rfl⟩)).2.1
      { value := "0x1234567890abcdef1234567890abcdef1234567890abcdef1234567890abcdef" }
      { value := "ST2J6ZY48GV1EZ5V2V5RB9MP66SW86PYKKNRV9EJ7" } rfl rfl⟩

/-! ## Direct transfers and derived confirmation -/

/-- An id accepted by `NewTransactionID` is stored in its `0x`-prefixed form. -/
theorem NewTransactionID_ok_value (id : String) (t : TransactionID)
    (h : NewTransactionID id = .ok t) :
    t.value = if strings.HasPrefix id "0x" = true then id else "0x" ++ id := by
  unfold NewTransactionID at h
  by_cases h0 : id = ""
  · rw [if_pos h0] at h
    cases h
  · rw [if_neg h0] at h
    cases hp : strings.HasPrefix id "0x"
    · simp only [hp, Bool.not_false, if_true] at h
      split at h
      · cases h
      · split at h
        · cases h
        · injection h with h
          rw [← h]
          simp
    · simp only [hp, Bool.not_true, Bool.false_eq_true, if_false] at h
      split at h
      · cases h
      · split at h
        · cases h
        · injection h with h
          rw [← h]
          simp

/-- On a `token_transfer` payload with transfer data, a valid recipient and an amount that
parses, the branch on the transaction type returns the scalar fields. -/
theorem parseTransfer_token_transfer (resp : TransactionResponse) (tt : TokenTransferData)
    (recipient : StacksAddress) (n : Nat)
    (ht : resp.TxType = "token_transfer") (htt : resp.TokenTransfer = some tt)
    (hr : NewStacksAddress tt.RecipientAddress = .ok recipient)
    (ha : strconv.ParseUint tt.Amount = (n, none)) :
    parseTransfer resp = .ok (recipient, NewAmount n, tt.Memo) := by
  unfold parseTransfer
  rw [ht, htt]
  have e1 : decide ("token_transfer" = "token_transfer") = true := by decide
  rw [e1]
  simp only [hr, ha]

/-- C17: direct-transfer normalisation. A `token_transfer` payload with a valid transaction
id, valid sender and recipient addresses and the decimal form of an amount `n < 2 ^ 64`
normalises; sender, recipient and memo are the scalar fields of the payload, the amount is
`n`, the fee is the value read from the fee string (`f` when that is the decimal form of
`f < 2 ^ 64`), nonce, block height and status are those of the payload, the id is the payload
id in `0x`-prefixed form, and the token type is the asserted one, which changes no other field
and never the success. -/
theorem parseTransactionResponse_direct_transfer (resp : TransactionResponse)
    (tokenType : TokenType) (tt : TokenTransferData) (txID : TransactionID)
    (sender recipient : StacksAddress) (n : Nat)
    (ht : resp.TxType = "token_transfer") (htt : resp.TokenTransfer = some tt)
    (hid : NewTransactionID resp.TxID = .ok txID)
    (hs : NewStacksAddress resp.SenderAddress = .ok sender)
    (hr : NewStacksAddress tt.RecipientAddress = .ok recipient)
    (ha : tt.Amount = Nat.repr n) (hn : n < 2 ^ 64) :
    parseTransactionResponse resp tokenType =
      .ok { TxID := { value := if strings.HasPrefix resp.TxID "0x" = true then resp.TxID
                               else "0x" ++ resp.TxID }
            TokenType := tokenType
            Sender := { value := resp.SenderAddress }
            Recipient := { value := tt.RecipientAddress }
            Amount := { value := n }
            Fee := { value := (strconv.ParseUint resp.Fee).1 }
            Nonce := resp.Nonce
            BlockHeight := resp.BlockHeight
            Memo := tt.Memo
            Status := resp.TxStatus
            IsConfirmed := IsTransactionConfirmed resp.TxStatus resp.BlockHeight } ∧
    (∀ f, f < 2 ^ 64 → resp.Fee = Nat.repr f → (strconv.ParseUint resp.Fee).1 = f) ∧
    (∀ other tx, parseTransactionResponse resp tokenType = .ok tx →
      parseTransactionResponse resp other = .ok { tx with TokenType := other }) := by
  have hidv := NewTransactionID_ok_value _ _ hid
  have hsv := ((NewStacksAddress_ok_iff _ _).mp hs).1
  have hrv := ((NewStacksAddress_ok_iff _ _).mp hr).1
  have hparse : strconv.ParseUint tt.Amount = (n, none) := by
    rw [ha]
    exact strconv.ParseUint_repr n hn
  have hpt := parseTransfer_token_transfer resp tt recipient n ht htt hr hparse
  have hall : ∀ t, parseTransactionResponse resp t =
      .ok { TxID := txID
            TokenType := t
            Sender := sender
            Recipient := recipient
            Amount := NewAmount n
            Fee := NewAmount (strconv.ParseUint resp.Fee).1
            Nonce := resp.Nonce
            BlockHeight := resp.BlockHeight
            Memo := tt.Memo
            Status := resp.TxStatus
            IsConfirmed := IsTransactionConfirmed resp.TxStatus resp.BlockHeight } :=
    fun t => parseTransactionResponse_eq_ok resp t txID sender recipient (NewAmount n) tt.Memo
      hid hs hpt
  refine ⟨?_, ?_, ?_⟩
  · rw [hall tokenType, ← hidv, ← hsv, ← hrv]
    rfl
  · intro f hf hfee
    rw [hfee, strconv.ParseUint_repr f hf]
  · intro other tx htx
    rw [hall tokenType] at htx
    injection htx with htx
    rw [hall other, ← htx]

/-- C17, on the payload of `TestClient_GetTransaction_STXTransfer` (id already prefixed, amount
1000000, fee 180) asserted as STX and as sBTC: the test transaction, with the asserted token
type. -/
theorem parseTransactionResponse_direct_transfer_witness :
    parseTransactionResponse stxTransferResponse TokenSTX = .ok createTestTransaction ∧
    parseTransactionResponse stxTransferResponse TokenSBTC =
      .ok { createTestTransaction with TokenType := TokenSBTC } ∧
    (strconv.ParseUint stxTransferResponse.Fee).1 = 180 :=
  ⟨(parseTransactionResponse_direct_transfer stxTransferResponse TokenSTX
      { RecipientAddress := "ST1PQHQKV0RJXZFY1DGX8MNSNYVE3VGZJSRTPGZGM"
        Amount := "1000000"
        Memo := "test payment" }
      { value := "0x1234567890abcdef1234567890abcdef1234567890abcdef1234567890abcdef" }
      { value := "ST2J6ZY48GV1EZ5V2V5RB9MP66SW86PYKKNRV9EJ7" }
      { value := "ST1PQHQKV0RJXZFY1DGX8MNSNYVE3VGZJSRTPGZGM" } 1000000
      rfl rfl rfl rfl rfl rfl (by decide)).1,
   (parseTransactionResponse_direct_transfer stxTransferResponse TokenSTX
      { RecipientAddress := "ST1PQHQKV0RJXZFY1DGX8MNSNYVE3VGZJSRTPGZGM"
        Amount := "1000000"
        Memo := "test payment" }
      { value := "0x1234567890abcdef1234567890abcdef1234567890abcdef1234567890abcdef" }
      { value := "ST2J6ZY48GV1EZ5V2V5RB9MP66SW86PYKKNRV9EJ7" }
      { value := "ST1PQHQKV0RJXZFY1DGX8MNSNYVE3VGZJSRTPGZGM" } 1000000
      rfl rfl rfl rfl rfl rfl (by decide)).2.2 TokenSBTC createTestTransaction rfl,
   (parseTransactionResponse_direct_transfer stxTransferResponse TokenSTX
      { RecipientAddress := "ST1PQHQKV0RJXZFY1DGX8MNSNYVE3VGZJSRTPGZGM"
        Amount := "1000000"
        Memo := "test payment" }
      { value := "0x1234567890abcdef1234567890abcdef1234567890abcdef1234567890abcdef" }
      { value := "ST2J6ZY48GV1EZ5V2V5RB9MP66SW86PYKKNRV9EJ7" }
      { value := "ST1PQHQKV0RJXZFY1DGX8MNSNYVE3VGZJSRTPGZGM" } 1000000
      rfl rfl rfl rfl rfl rfl (by decide)).2.1 180 (by decide) rfl⟩

/-- The result of `parseTransactionResponse` carries the status and the block height of the
payload and the confirmation flag derived from them. -/
theorem parseTransactionResponse_status (resp : TransactionResponse) (tokenType : TokenType)
    (tx : BlockchainTransaction) (h : parseTransactionResponse resp tokenType = .ok tx) :
    tx.Status = resp.TxStatus ∧ tx.BlockHeight = resp.BlockHeight ∧
    tx.IsConfirmed = IsTransactionConfirmed resp.TxStatus resp.BlockHeight := by
  unfold parseTransactionResponse at h
  split at h
  · cases h
  · split at h
    · cases h
    · split at h
      · cases h
      · injection h with h
        rw [← h]
        exact ⟨rfl, rfl, rfl⟩

/-- C18: derived confirmation. `IsTransactionConfirmed status height` holds iff the status is
exactly `success` and the height is positive; every transaction produced by the normaliser
carries the `tx_status` of the payload verbatim and has
`IsConfirmed = IsTransactionConfirmed Status BlockHeight`; `success` at height 0 and any other
status at any height are not confirmed. -/
theorem IsTransactionConfirmed_derived :
    (∀ (status : String) (height : Nat),
      IsTransactionConfirmed status height = true ↔ status = "success" ∧ height > 0) ∧
    (∀ (resp : TransactionResponse) (tokenType : TokenType) (tx : BlockchainTransaction),
      parseTransactionResponse resp tokenType = .ok tx →
      tx.Status = resp.TxStatus ∧
        tx.IsConfirmed = IsTransactionConfirmed tx.Status tx.BlockHeight) ∧
    IsTransactionConfirmed "success" 0 = false ∧
    (∀ (status : String) (height : Nat), status ≠ "success" →
      IsTransactionConfirmed status height = false) := by
  refine ⟨?_, ?_, ?_, ?_⟩
  · intro status height
    simp [IsTransactionConfirmed]
  · intro resp tokenType tx h
    obtain ⟨h1, h2, h3⟩ := parseTransactionResponse_status resp tokenType tx h
    rw [h1, h2]
    exact ⟨rfl, h3⟩
  · decide
  · intro status height hne
    simp [IsTransactionConfirmed, hne]

/-- C18, on the cases of `TestClient_IsTransactionConfirmed` and on the payload of
`TestClient_GetTransaction_STXTransfer`, whose status `success` at height 12345 is carried over
and confirmed. -/
theorem IsTransactionConfirmed_derived_witness :
    IsTransactionConfirmed "success" 12345 = true ∧
    IsTransactionConfirmed "success" 0 = false ∧
    IsTransactionConfirmed "pending" 0 = false ∧
    IsTransactionConfirmed "failed" 12345 = false ∧
    (createTestTransaction.Status = stxTransferResponse.TxStatus ∧
      createTestTransaction.IsConfirmed =
        IsTransactionConfirmed createTestTransaction.Status createTestTransaction.BlockHeight) :=
  ⟨(IsTransactionConfirmed_derived.1 "success" 12345).mpr ⟨rfl, by decide⟩,
    IsTransactionConfirmed_derived.2.2.1,
    IsTransactionConfirmed_derived.2.2.2 "pending" 0 (by decide),
    IsTransactionConfirmed_derived.2.2.2 "failed" 12345 (by decide),
    IsTransactionConfirmed_derived.2.1 stxTransferResponse TokenSTX createTestTransaction rfl⟩

/-! ## Properties of the poller -/

/-- Without cancellation, the loop of `WaitForConfirmation` returns the first terminal
transaction it fetches, `j` fetches after its start, provided that fetch is made inside the
`for` loop; it has then fetched `j + 1` times and waited `j` times. -/
theorem waitForConfirmationLoop_first_terminal (env : PollEnv) (tx : BlockchainTransaction)
    (hnc : ∀ w, env.done w = false)
    (hterm : (tx.IsConfirmed || IsTransactionFailed tx.Status) = true) (j : Nat) :
    ∀ (remaining : Nat) (n : PollCount), j < remaining →
      env.fetch (n.fetches + j) = .ok tx →
      (∀ i, i < j → ∀ t, env.fetch (n.fetches + i) = .ok t →
        (t.IsConfirmed || IsTransactionFailed t.Status) = false) →
      waitForConfirmationLoop env remaining n =
        (.ok tx, { fetches := n.fetches + j + 1, waits := n.waits + j }) := by
  induction j with
  | zero =>
    intro remaining n hlt hfetch _
    cases remaining with
    | zero => exact absurd hlt (Nat.lt_irrefl 0)
    | succ r =>
      rw [waitForConfirmationLoop]
      rw [Nat.add_zero] at hfetch
      rw [hfetch]
      simp only [hterm, if_true, Nat.add_zero]
  | succ j ih =>
    intro remaining n hlt hfetch hearlier
    cases remaining with
    | zero => exact absurd hlt (Nat.not_lt_zero _)
    | succ r =>
      have hr : j < r := Nat.lt_of_succ_lt_succ hlt
      have hnext := ih r { fetches := n.fetches + 1, waits := n.waits + 1 } hr
        (by
          simp only
          rw [Nat.add_assoc, Nat.add_comm 1 j]
          exact hfetch)
        (by
          intro i hi t ht
          simp only at ht
          rw [Nat.add_assoc, Nat.add_comm 1 i] at ht
          exact hearlier (i + 1) (Nat.succ_lt_succ hi) t ht)
      simp only at hnext
      have e1 : n.fetches + 1 + j + 1 = n.fetches + (j + 1) + 1 := by omega
      have e2 : n.waits + 1 + j = n.waits + (j + 1) := by omega
      rw [e1, e2] at hnext
      rw [waitForConfirmationLoop]
      cases hf : env.fetch n.fetches with
      | error e =>
        simp only [hnc, Bool.false_eq_true, if_false]
        exact hnext
      | ok t =>
        have hnt := hearlier 0 (Nat.succ_pos j) t (by rw [Nat.add_zero]; exact hf)
        simp only [hnt, hnc, Bool.false_eq_true, if_false]
        exact hnext

/-- Without cancellation, when no fetch inside the `for` loop returns a terminal transaction,
the loop of `WaitForConfirmation` runs to its end and returns the outcome of the final fetch,
after one fetch and one wait per iteration. -/
theorem waitForConfirmationLoop_exhausted (env : PollEnv) (hnc : ∀ w, env.done w = false)
    (remaining : Nat) :
    ∀ (n : PollCount),
      (∀ i, i < remaining → ∀ t, env.fetch (n.fetches + i) = .ok t →
        (t.IsConfirmed || IsTransactionFailed t.Status) = false) →
      waitForConfirmationLoop env remaining n =
        (env.fetch (n.fetches + remaining),
          { fetches := n.fetches + remaining + 1, waits := n.waits + remaining }) := by
  induction remaining with
  | zero =>
    intro n _
    rw [waitForConfirmationLoop]
    rfl
  | succ r ih =>
    intro n hpend
    have hnext := ih { fetches := n.fetches + 1, waits := n.waits + 1 }
      (by
        intro i hi t ht
        simp only at ht
        rw [Nat.add_assoc, Nat.add_comm 1 i] at ht
        exact hpend (i + 1) (Nat.succ_lt_succ hi) t ht)
    simp only at hnext
    have e0 : n.fetches + 1 + r = n.fetches + (r + 1) := by omega
    have e2 : n.waits + 1 + r = n.waits + (r + 1) := by omega
    rw [e0, e2] at hnext
    rw [waitForConfirmationLoop]
    cases hf : env.fetch n.fetches with
    | error e =>
      simp only [hnc, Bool.false_eq_true, if_false]
      exact hnext
    | ok t =>
      have hnt := hpend 0 (Nat.succ_pos r) t (by rw [Nat.add_zero]; exact hf)
      simp only [hnt, hnc, Bool.false_eq_true, if_false]
      exact hnext

/-- C19: poller termination. Without cancellation, when the `k`-th fetch (`1 ≤ k ≤ maxRetries`)
is the first to return a terminal transaction (confirmed, or with a failed status), every
earlier fetch having returned an error or a non-terminal transaction, `WaitForConfirmation`
returns that transaction with no error after exactly `k` fetches and `k - 1` waits. -/
theorem WaitForConfirmation_returns_first_terminal (env : PollEnv) (maxRetries : Int)
    (k : Nat) (tx : BlockchainTransaction)
    (hnc : ∀ w, env.done w = false)
    (hk1 : 1 ≤ k) (hk2 : (k : Int) ≤ maxRetries)
    (hk : env.fetch (k - 1) = .ok tx)
    (hterm : tx.IsConfirmed = true ∨ IsTransactionFailed tx.Status = true)
    (hearlier : ∀ i, i < k - 1 → ∀ t, env.fetch i = .ok t →
      t.IsConfirmed = false ∧ IsTransactionFailed t.Status = false) :
    WaitForConfirmation env maxRetries = (.ok tx, { fetches := k, waits := k - 1 }) := by
  have hterm2 : (tx.IsConfirmed || IsTransactionFailed tx.Status) = true := by
    rcases hterm with h | h <;> simp [h]
  have hlt : k - 1 < maxRetries.toNat := by omega
  have h := waitForConfirmationLoop_first_terminal env tx hnc hterm2 (k - 1) maxRetries.toNat
    { fetches := 0, waits := 0 } hlt
    (by simp only [Nat.zero_add]; exact hk)
    (by
      intro i hi t ht
      simp only [Nat.zero_add] at ht
      obtain ⟨h1, h2⟩ := hearlier i hi t ht
      simp [h1, h2])
  simp only [Nat.zero_add] at h
  have e1 : k - 1 + 1 = k := by omega
  rw [e1] at h
  exact h

/-- C19, on a chain whose first fetch fails, whose second fetch is pending and whose third
fetch is confirmed, with a budget of 5: the confirmed transaction after 3 fetches and 2
waits. -/
theorem WaitForConfirmation_returns_first_terminal_witness :
    WaitForConfirmation confirmsAtThirdFetch 5 =
      (.ok createTestTransaction, { fetches := 3, waits := 2 }) :=
  WaitForConfirmation_returns_first_terminal confirmsAtThirdFetch 5 3 createTestTransaction
    (fun _ => rfl) (by decide) (by decide) rfl (Or.inl rfl)
    (by
      intro i hi t ht
      have hi2 : i = 0 ∨ i = 1 := by omega
      rcases hi2 with h | h
      · rw [h] at ht
        cases ht
      · rw [h] at ht
        injection ht with ht
        rw [← ht]
        decide)

/-- C20: poller exhaustion. Without cancellation and with `maxRetries ≥ 0`, when every fetch
succeeds with a non-terminal transaction, `WaitForConfirmation` makes exactly `maxRetries`
waits and `maxRetries + 1` fetches and returns the transaction of the last fetch with no
error. -/
theorem WaitForConfirmation_exhaustion (env : PollEnv) (maxRetries : Int)
    (hnc : ∀ w, env.done w = false) (h0 : 0 ≤ maxRetries)
    (hpend : ∀ i, ∃ t, env.fetch i = .ok t ∧
      t.IsConfirmed = false ∧ IsTransactionFailed t.Status = false) :
    ∃ tx, env.fetch maxRetries.toNat = .ok tx ∧
      WaitForConfirmation env maxRetries =
        (.ok tx, { fetches := maxRetries.toNat + 1, waits := maxRetries.toNat }) ∧
      ((maxRetries.toNat : Int) = maxRetries) := by
  obtain ⟨tx, htx, _, _⟩ := hpend maxRetries.toNat
  refine ⟨tx, htx, ?_, Int.toNat_of_nonneg h0⟩
  have h := waitForConfirmationLoop_exhausted env hnc maxRetries.toNat
    { fetches := 0, waits := 0 }
    (by
      intro i _ t ht
      simp only [Nat.zero_add] at ht
      obtain ⟨t2, ht2, h1, h2⟩ := hpend i
      rw [ht2] at ht
      injection ht with ht
      rw [← ht]
      simp [h1, h2])
  simp only [Nat.zero_add] at h
  rw [htx] at h
  exact h

/-- C20, on a chain that stays pending, with a budget of 3: the transaction of the fourth
fetch after 4 fetches and 3 waits. -/
theorem WaitForConfirmation_exhaustion_witness :
    ∃ tx, alwaysPending.fetch 3 = .ok tx ∧
      WaitForConfirmation alwaysPending 3 = (.ok tx, { fetches := 3 + 1, waits := 3 }) ∧
      (((3 : Int).toNat : Int) = 3) :=
  WaitForConfirmation_exhaustion alwaysPending 3 (fun _ => rfl) (by decide)
    (fun i => ⟨{ pendingTransaction with Nonce := i }, rfl, rfl, rfl⟩)

/-! ## Cancellation and the fetch-with-retry poller -/

/-- When the context is done at the wait that follows fetch `j` of the loop of
`WaitForConfirmation`, no earlier wait having been cancelled and no fetch up to there having
returned a terminal transaction, the loop returns the context error after `j + 1` fetches. -/
theorem waitForConfirmationLoop_cancelled (env : PollEnv) (j : Nat) :
    ∀ (remaining : Nat) (n : PollCount), j < remaining →
      (∀ w, w < j → env.done (n.waits + w) = false) →
      env.done (n.waits + j) = true →
      (∀ i, i ≤ j → ∀ t, env.fetch (n.fetches + i) = .ok t →
        (t.IsConfirmed || IsTransactionFailed t.Status) = false) →
      waitForConfirmationLoop env remaining n =
        (.error env.ctxErr, { fetches := n.fetches + j + 1, waits := n.waits + j + 1 }) := by
  induction j with
  | zero =>
    intro remaining n hlt _ hdone hfetch
    cases remaining with
    | zero => exact absurd hlt (Nat.lt_irrefl 0)
    | succ r =>
      rw [Nat.add_zero] at hdone
      rw [waitForConfirmationLoop]
      cases hf : env.fetch n.fetches with
      | error e => simp only [hdone, if_true, Nat.add_zero]
      | ok t =>
        have hnt := hfetch 0 (Nat.le_refl 0) t (by rw [Nat.add_zero]; exact hf)
        simp only [hnt, hdone, Bool.false_eq_true, if_false, if_true, Nat.add_zero]
  | succ j ih =>
    intro remaining n hlt hnc hdone hfetch
    cases remaining with
    | zero => exact absurd hlt (Nat.not_lt_zero _)
    | succ r =>
      have hr : j < r := Nat.lt_of_succ_lt_succ hlt
      have h0 : env.done n.waits = false := by
        have := hnc 0 (Nat.succ_pos j)
        rw [Nat.add_zero] at this
        exact this
      have hnext := ih r { fetches := n.fetches + 1, waits := n.waits + 1 } hr
        (by
          intro w hw
          simp only
          rw [Nat.add_assoc, Nat.add_comm 1 w]
          exact hnc (w + 1) (Nat.succ_lt_succ hw))
        (by
          simp only
          rw [Nat.add_assoc, Nat.add_comm 1 j]
          exact hdone)
        (by
          intro i hi t ht
          simp only at ht
          rw [Nat.add_assoc, Nat.add_comm 1 i] at ht
          exact hfetch (i + 1) (Nat.succ_le_succ hi) t ht)
      simp only at hnext
      have e1 : n.fetches + 1 + j + 1 = n.fetches + (j + 1) + 1 := by omega
      have e2 : n.waits + 1 + j + 1 = n.waits + (j + 1) + 1 := by omega
      rw [e1, e2] at hnext
      rw [waitForConfirmationLoop]
      cases hf : env.fetch n.fetches with
      | error e =>
        simp only [h0, Bool.false_eq_true, if_false]
        exact hnext
      | ok t =>
        have hnt := hfetch 0 (Nat.zero_le _) t (by rw [Nat.add_zero]; exact hf)
        simp only [hnt, h0, Bool.false_eq_true, if_false]
        exact hnext

/-- When the context is done at the wait that follows fetch `j` of the loop of
`GetTransactionWithRetry`, no earlier wait having been cancelled and every fetch up to there
having failed, the loop returns the context error after `j + 1` fetches. -/
theorem getTransactionWithRetryLoop_cancelled (env : PollEnv) (j : Nat) :
    ∀ (remaining : Nat) (lastErr : Option GoError) (n : PollCount), j < remaining →
      (∀ w, w < j → env.done (n.waits + w) = false) →
      env.done (n.waits + j) = true →
      (∀ i, i ≤ j → ∃ e, env.fetch (n.fetches + i) = .error e) →
      getTransactionWithRetryLoop env remaining lastErr n =
        ((zeroTransaction, some env.ctxErr),
          { fetches := n.fetches + j + 1, waits := n.waits + j + 1 }) := by
  induction j with
  | zero =>
    intro remaining lastErr n hlt _ hdone hfetch
    cases remaining with
    | zero => exact absurd hlt (Nat.lt_irrefl 0)
    | succ r =>
      rw [Nat.add_zero] at hdone
      obtain ⟨e, he⟩ := hfetch 0 (Nat.le_refl 0)
      rw [Nat.add_zero] at he
      rw [getTransactionWithRetryLoop, he]
      simp only [hdone, if_true, Nat.add_zero]
  | succ j ih =>
    intro remaining lastErr n hlt hnc hdone hfetch
    cases remaining with
    | zero => exact absurd hlt (Nat.not_lt_zero _)
    | succ r =>
      have hr : j < r := Nat.lt_of_succ_lt_succ hlt
      have h0 : env.done n.waits = false := by
        have := hnc 0 (Nat.succ_pos j)
        rw [Nat.add_zero] at this
        exact this
      obtain ⟨e, he⟩ := hfetch 0 (Nat.zero_le _)
      rw [Nat.add_zero] at he
      have hnext := ih r (some e) { fetches := n.fetches + 1, waits := n.waits + 1 } hr
        (by
          intro w hw
          simp only
          rw [Nat.add_assoc, Nat.add_comm 1 w]
          exact hnc (w + 1) (Nat.succ_lt_succ hw))
        (by
          simp only
          rw [Nat.add_assoc, Nat.add_comm 1 j]
          exact hdone)
        (by
          intro i hi
          simp only
          rw [Nat.add_assoc, Nat.add_comm 1 i]
          exact hfetch (i + 1) (Nat.succ_le_succ hi))
      simp only at hnext
      have e1 : n.fetches + 1 + j + 1 = n.fetches + (j + 1) + 1 := by omega
      have e2 : n.waits + 1 + j + 1 = n.waits + (j + 1) + 1 := by omega
      rw [e1, e2] at hnext
      rw [getTransactionWithRetryLoop, he]
      simp only [h0, Bool.false_eq_true, if_false]
      exact hnext

/-- C21: cancellation, for both pollers. When the context is done at the wait that follows
the `j`-th fetch (`1 ≤ j ≤ maxRetries`), no earlier wait having been cancelled and no earlier
attempt having ended the loop, the poller returns the context error and no transaction after
exactly `j` fetches: `WaitForConfirmation` when none of these fetches was terminal,
`GetTransactionWithRetry` when each of them failed. This holds for every `j`, so at every wait
boundary. -/
theorem pollers_return_on_cancellation (env : PollEnv) (maxRetries : Int) (j : Nat)
    (hj1 : 1 ≤ j) (hj2 : (j : Int) ≤ maxRetries)
    (hbefore : ∀ w, w < j - 1 → env.done w = false)
    (hdone : env.done (j - 1) = true) :
    ((∀ i, i < j → ∀ t, env.fetch i = .ok t →
        t.IsConfirmed = false ∧ IsTransactionFailed t.Status = false) →
      WaitForConfirmation env maxRetries =
        (.error env.ctxErr, { fetches := j, waits := j })) ∧
    ((∀ i, i < j → ∃ e, env.fetch i = .error e) →
      GetTransactionWithRetry env maxRetries =
        ((zeroTransaction, some env.ctxErr), { fetches := j, waits := j })) := by
  have hlt : j - 1 < maxRetries.toNat := by omega
  have e1 : j - 1 + 1 = j := by omega
  constructor
  · intro hfetch
    have h := waitForConfirmationLoop_cancelled env (j - 1) maxRetries.toNat
      { fetches := 0, waits := 0 } hlt
      (by
        intro w hw
        simp only [Nat.zero_add]
        exact hbefore w hw)
      (by simp only [Nat.zero_add]; exact hdone)
      (by
        intro i hi t ht
        simp only [Nat.zero_add] at ht
        obtain ⟨h1, h2⟩ := hfetch i (by omega) t ht
        simp [h1, h2])
    simp only [Nat.zero_add] at h
    rw [e1] at h
    exact h
  · intro hfetch
    have h := getTransactionWithRetryLoop_cancelled env (j - 1) maxRetries.toNat none
      { fetches := 0, waits := 0 } hlt
      (by
        intro w hw
        simp only [Nat.zero_add]
        exact hbefore w hw)
      (by simp only [Nat.zero_add]; exact hdone)
      (by
        intro i hi
        simp only [Nat.zero_add]
        exact hfetch i (by omega))
    simp only [Nat.zero_add] at h
    rw [e1] at h
    exact h

/-- C21, on a chain whose first two fetches fail and whose context is done at the second
wait, with a budget of 5: both pollers return the context error after 2 fetches, although the
third fetch would have returned a transaction. -/
theorem pollers_return_on_cancellation_witness :
    WaitForConfirmation cancelledAtSecondWait 5 =
      (.error (GoError.new "context canceled"), { fetches := 2, waits := 2 }) ∧
    GetTransactionWithRetry cancelledAtSecondWait 5 =
      ((zeroTransaction, some (GoError.new "context canceled")), { fetches := 2, waits := 2 }) :=
  ⟨(pollers_return_on_cancellation cancelledAtSecondWait 5 2 (by decide) (by decide)
      (by
        intro w hw
        have h0 : w = 0 := by omega
        rw [h0]
        rfl)
      rfl).1
      (by
        intro i hi t ht
        have hi2 : i = 0 ∨ i = 1 := by omega
        rcases hi2 with h | h <;> rw [h] at ht <;> cases ht),
    (pollers_return_on_cancellation cancelledAtSecondWait 5 2 (by decide) (by decide)
      (by
        intro w hw
        have h0 : w = 0 := by omega
        rw [h0]
        rfl)
      rfl).2
      (by
        intro i hi
        have hi2 : i = 0 ∨ i = 1 := by omega
        rcases hi2 with h | h <;> rw [h] <;> exact ⟨_, rfl⟩)⟩

/-- Without cancellation, the loop of `GetTransactionWithRetry` returns the transaction of
the first fetch that succeeds, `j` fetches after its start; it has then fetched `j + 1` times
and waited `j` times. -/
theorem getTransactionWithRetryLoop_first_success (env : PollEnv)
    (tx : BlockchainTransaction) (hnc : ∀ w, env.done w = false) (j : Nat) :
    ∀ (remaining : Nat) (lastErr : Option GoError) (n : PollCount), j < remaining →
      env.fetch (n.fetches + j) = .ok tx →
      (∀ i, i < j → ∃ e, env.fetch (n.fetches + i) = .error e) →
      getTransactionWithRetryLoop env remaining lastErr n =
        ((tx, none), { fetches := n.fetches + j + 1, waits := n.waits + j }) := by
  induction j with
  | zero =>
    intro remaining lastErr n hlt hfetch _
    cases remaining with
    | zero => exact absurd hlt (Nat.lt_irrefl 0)
    | succ r =>
      rw [Nat.add_zero] at hfetch
      rw [getTransactionWithRetryLoop, hfetch]
      rfl
  | succ j ih =>
    intro remaining lastErr n hlt hfetch hearlier
    cases remaining with
    | zero => exact absurd hlt (Nat.not_lt_zero _)
    | succ r =>
      have hr : j < r := Nat.lt_of_succ_lt_succ hlt
      obtain ⟨e, he⟩ := hearlier 0 (Nat.succ_pos j)
      rw [Nat.add_zero] at he
      have hnext := ih r (some e) { fetches := n.fetches + 1, waits := n.waits + 1 } hr
        (by
          simp only
          rw [Nat.add_assoc, Nat.add_comm 1 j]
          exact hfetch)
        (by
          intro i hi
          simp only
          rw [Nat.add_assoc, Nat.add_comm 1 i]
          exact hearlier (i + 1) (Nat.succ_lt_succ hi))
      simp only at hnext
      have e1 : n.fetches + 1 + j + 1 = n.fetches + (j + 1) + 1 := by omega
      have e2 : n.waits + 1 + j = n.waits + (j + 1) := by omega
      rw [e1, e2] at hnext
      rw [getTransactionWithRetryLoop, he]
      simp only [hnc, Bool.false_eq_true, if_false]
      exact hnext

/-- Without cancellation, when each of the `r + 1` fetches of the loop of
`GetTransactionWithRetry` fails, the loop returns the error of the last of them, after one
fetch and one wait per iteration. -/
theorem getTransactionWithRetryLoop_all_fail (env : PollEnv) (hnc : ∀ w, env.done w = false)
    (r : Nat) :
    ∀ (lastErr : Option GoError) (n : PollCount) (e : GoError),
      (∀ i, i < r → ∃ e2, env.fetch (n.fetches + i) = .error e2) →
      env.fetch (n.fetches + r) = .error e →
      getTransactionWithRetryLoop env (r + 1) lastErr n =
        ((zeroTransaction, some e),
          { fetches := n.fetches + r + 1, waits := n.waits + r + 1 }) := by
  induction r with
  | zero =>
    intro lastErr n e _ hlast
    rw [Nat.add_zero] at hlast
    rw [getTransactionWithRetryLoop, hlast]
    simp only [hnc, Bool.false_eq_true, if_false]
    rw [getTransactionWithRetryLoop]
  | succ r ih =>
    intro lastErr n e hearlier hlast
    obtain ⟨e0, he0⟩ := hearlier 0 (Nat.succ_pos r)
    rw [Nat.add_zero] at he0
    have hnext := ih (some e0) { fetches := n.fetches + 1, waits := n.waits + 1 } e
      (by
        intro i hi
        simp only
        rw [Nat.add_assoc, Nat.add_comm 1 i]
        exact hearlier (i + 1) (Nat.succ_lt_succ hi))
      (by
        simp only
        rw [Nat.add_assoc, Nat.add_comm 1 r]
        exact hlast)
    simp only at hnext
    have e1 : n.fetches + 1 + r + 1 = n.fetches + (r + 1) + 1 := by omega
    have e2 : n.waits + 1 + r + 1 = n.waits + (r + 1) + 1 := by omega
    rw [e1, e2] at hnext
    rw [getTransactionWithRetryLoop, he0]
    simp only [hnc, Bool.false_eq_true, if_false]
    exact hnext

/-- C22: the fetch-with-retry poller. Without cancellation and with `maxRetries ≥ 1`: when the
`k`-th fetch (`1 ≤ k ≤ maxRetries`) is the first that succeeds, `GetTransactionWithRetry`
returns its transaction with no error after exactly `k` fetches, whatever the status of the
transaction; when all `maxRetries` fetches fail, it returns the error of the last fetch after
exactly `maxRetries` fetches. -/
theorem GetTransactionWithRetry_first_success_or_last_error (env : PollEnv)
    (maxRetries : Int) (hnc : ∀ w, env.done w = false) (hm : 1 ≤ maxRetries) :
    (∀ (k : Nat) (tx : BlockchainTransaction), 1 ≤ k → (k : Int) ≤ maxRetries →
      env.fetch (k - 1) = .ok tx →
      (∀ i, i < k - 1 → ∃ e, env.fetch i = .error e) →
      GetTransactionWithRetry env maxRetries =
        ((tx, none), { fetches := k, waits := k - 1 })) ∧
    (∀ e : GoError, (∀ i, i < maxRetries.toNat → ∃ e2, env.fetch i = .error e2) →
      env.fetch (maxRetries.toNat - 1) = .error e →
      GetTransactionWithRetry env maxRetries =
        ((zeroTransaction, some e),
          { fetches := maxRetries.toNat, waits := maxRetries.toNat }) ∧
      (maxRetries.toNat : Int) = maxRetries) := by
  constructor
  · intro k tx hk1 hk2 hfetch hearlier
    have hlt : k - 1 < maxRetries.toNat := by omega
    have h := getTransactionWithRetryLoop_first_success env tx hnc (k - 1) maxRetries.toNat
      none { fetches := 0, waits := 0 } hlt
      (by simp only [Nat.zero_add]; exact hfetch)
      (by
        intro i hi
        simp only [Nat.zero_add]
        exact hearlier i hi)
    simp only [Nat.zero_add] at h
    have e1 : k - 1 + 1 = k := by omega
    rw [e1] at h
    exact h
  · intro e hall hlast
    have hpos : maxRetries.toNat = (maxRetries.toNat - 1) + 1 := by omega
    have h := getTransactionWithRetryLoop_all_fail env hnc (maxRetries.toNat - 1) none
      { fetches := 0, waits := 0 } e
      (by
        intro i hi
        simp only [Nat.zero_add]
        exact hall i (by omega))
      (by simp only [Nat.zero_add]; exact hlast)
    simp only [Nat.zero_add] at h
    rw [← hpos] at h
    exact ⟨h, Int.toNat_of_nonneg (by omega)⟩

/-- C22, with a budget of 5 on a chain whose third fetch is the first to succeed, with a
pending transaction: that transaction after 3 fetches; and with a budget of 3 on a chain that
always fails: the error of the third fetch after 3 fetches. -/
theorem GetTransactionWithRetry_first_success_or_last_error_witness :
    GetTransactionWithRetry pendingAtThirdFetch 5 =
      ((pendingTransaction, none), { fetches := 3, waits := 2 }) ∧
    GetTransactionWithRetry alwaysFailing 3 =
      ((zeroTransaction, some (GoError.new "transaction not found, attempt 2")),
        { fetches := 3, waits := 3 }) :=
  ⟨(GetTransactionWithRetry_first_success_or_last_error pendingAtThirdFetch 5
      (fun _ => rfl) (by decide)).1 3 pendingTransaction (by decide) (by decide) rfl
      (by
        intro i hi
        have hi2 : i = 0 ∨ i = 1 := by omega
        rcases hi2 with h | h <;> rw [h] <;> exact ⟨_, rfl⟩),
    ((GetTransactionWithRetry_first_success_or_last_error alwaysFailing 3
      (fun _ => rfl) (by decide)).2 (GoError.new "transaction not found, attempt 2")
      (fun i _ => ⟨_, rfl⟩) rfl).1⟩

/-! ## Properties of the use cases -/

/-- With valid inputs, `VerifyPaymentHandler.Handle` makes one call to the blockchain client
and turns its outcome into the result. -/
theorem verifyHandle_of_valid (h : VerifyPaymentHandler)
    (cmd : VerifyPaymentCommand) (txID : TransactionID) (network : Network)
    (recipient : StacksAddress)
    (hid : NewTransactionID cmd.TxID = .ok txID)
    (hn : NewNetwork cmd.Network = .ok network)
    (hr : NewStacksAddress cmd.ExpectedRecipient = .ok recipient) :
    h.Handle cmd =
      match h.blockchainClient
        { txID := txID, tokenType := tokenTypeOrDefault cmd.TokenType, network := network,
          maxRetries := h.maxRetries, retryDelay := h.retryDelay } with
      | (_, some err) =>
        (.error (GoError.wrap "failed to fetch transaction" err),
          [{ txID := txID, tokenType := tokenTypeOrDefault cmd.TokenType, network := network,
             maxRetries := h.maxRetries, retryDelay := h.retryDelay }])
      | (tx, none) =>
        (.ok (verifyResult tx network (verifyCriteria cmd recipient)),
          [{ txID := txID, tokenType := tokenTypeOrDefault cmd.TokenType, network := network,
             maxRetries := h.maxRetries, retryDelay := h.retryDelay }]) := by
  unfold VerifyPaymentHandler.Handle
  rw [hid]
  simp only [hn, hr]

/-- `VerifyPaymentHandler.Handle` fails without a call when an input is malformed. -/
theorem verifyHandle_of_invalid (h : VerifyPaymentHandler)
    (cmd : VerifyPaymentCommand)
    (hbad : (∃ e, NewTransactionID cmd.TxID = .error e) ∨
      (∃ e, NewNetwork cmd.Network = .error e) ∨
      (∃ e, NewStacksAddress cmd.ExpectedRecipient = .error e)) :
    (∃ err, (h.Handle cmd).1 = .error err) ∧ (h.Handle cmd).2 = [] := by
  unfold VerifyPaymentHandler.Handle
  cases h1 : NewTransactionID cmd.TxID with
  | error e => exact ⟨⟨_, rfl⟩, rfl⟩
  | ok txID =>
    cases h2 : NewNetwork cmd.Network with
    | error e => exact ⟨⟨_, rfl⟩, rfl⟩
    | ok network =>
      cases h3 : NewStacksAddress cmd.ExpectedRecipient with
      | error e => exact ⟨⟨_, rfl⟩, rfl⟩
      | ok recipient =>
        rcases hbad with ⟨e, he⟩ | ⟨e, he⟩ | ⟨e, he⟩
        · rw [h1] at he
          cases he
        · rw [h2] at he
          cases he
        · rw [h3] at he
          cases he

/-- A result of `VerifyPaymentHandler.Handle` comes from valid inputs and a transaction that
the blockchain client returned without error in the one call made. -/
theorem verifyHandle_ok_inv (h : VerifyPaymentHandler)
    (cmd : VerifyPaymentCommand) (res : VerifyPaymentResult)
    (hres : (h.Handle cmd).1 = .ok res) :
    ∃ txID network recipient tx,
      NewTransactionID cmd.TxID = .ok txID ∧ NewNetwork cmd.Network = .ok network ∧
      NewStacksAddress cmd.ExpectedRecipient = .ok recipient ∧
      h.blockchainClient
        { txID := txID, tokenType := tokenTypeOrDefault cmd.TokenType, network := network,
          maxRetries := h.maxRetries, retryDelay := h.retryDelay } = (tx, none) ∧
      (h.Handle cmd).2 =
        [{ txID := txID, tokenType := tokenTypeOrDefault cmd.TokenType, network := network,
           maxRetries := h.maxRetries, retryDelay := h.retryDelay }] ∧
      res = verifyResult tx network (verifyCriteria cmd recipient) := by
  cases h1 : NewTransactionID cmd.TxID with
  | error e =>
    obtain ⟨⟨err, herr⟩, _⟩ := verifyHandle_of_invalid h cmd (Or.inl ⟨e, h1⟩)
    rw [herr] at hres
    cases hres
  | ok txID =>
    cases h2 : NewNetwork cmd.Network with
    | error e =>
      obtain ⟨⟨err, herr⟩, _⟩ := verifyHandle_of_invalid h cmd
        (Or.inr (Or.inl ⟨e, h2⟩))
      rw [herr] at hres
      cases hres
    | ok network =>
      cases h3 : NewStacksAddress cmd.ExpectedRecipient with
      | error e =>
        obtain ⟨⟨err, herr⟩, _⟩ := verifyHandle_of_invalid h cmd
          (Or.inr (Or.inr ⟨e, h3⟩))
        rw [herr] at hres
        cases hres
      | ok recipient =>
        have hv := verifyHandle_of_valid h cmd txID network recipient h1 h2 h3
        rw [hv] at hres ⊢
        cases hc : h.blockchainClient
            { txID := txID, tokenType := tokenTypeOrDefault cmd.TokenType, network := network,
              maxRetries := h.maxRetries, retryDelay := h.retryDelay } with
        | mk tx oerr =>
          rw [hc] at hres
          cases oerr with
          | some e => cases hres
          | none =>
            simp only at hres
            injection hres with hres
            exact ⟨txID, network, recipient, tx, rfl, rfl, rfl, hc, rfl, hres.symm⟩

/-- With valid inputs, `SettlePaymentHandler.Handle` broadcasts, then waits for the id that
the broadcast returned, and turns the outcome into the result. -/
theorem settleHandle_of_valid (h : SettlePaymentHandler)
    (cmd : SettlePaymentCommand) (network : Network) (recipient : StacksAddress)
    (hn : NewNetwork cmd.Network = .ok network)
    (hr : NewStacksAddress cmd.ExpectedRecipient = .ok recipient) :
    h.Handle cmd =
      match h.BroadcastTransaction cmd.SignedTransaction network with
      | (_, some err) =>
        (.error (GoError.wrap "failed to broadcast transaction" err),
          [BroadcasterCall.BroadcastTransaction cmd.SignedTransaction network])
      | (txID, none) =>
        match h.WaitForConfirmation txID (tokenTypeOrDefault cmd.TokenType) network
          h.maxRetries h.retryDelay with
        | (_, some err) =>
          (.error (GoError.wrap "failed to confirm transaction" err),
            [BroadcasterCall.BroadcastTransaction cmd.SignedTransaction network,
             BroadcasterCall.WaitForConfirmation txID (tokenTypeOrDefault cmd.TokenType)
               network h.maxRetries h.retryDelay])
        | (tx, none) =>
          (.ok (settleResult tx network (settleCriteria cmd recipient)),
            [BroadcasterCall.BroadcastTransaction cmd.SignedTransaction network,
             BroadcasterCall.WaitForConfirmation txID (tokenTypeOrDefault cmd.TokenType)
               network h.maxRetries h.retryDelay]) := by
  unfold SettlePaymentHandler.Handle
  simp only [hn, hr]

/-- `SettlePaymentHandler.Handle` fails without a call when an input is malformed. -/
theorem settleHandle_of_invalid (h : SettlePaymentHandler)
    (cmd : SettlePaymentCommand)
    (hbad : (∃ e, NewNetwork cmd.Network = .error e) ∨
      (∃ e, NewStacksAddress cmd.ExpectedRecipient = .error e)) :
    (∃ err, (h.Handle cmd).1 = .error err) ∧ (h.Handle cmd).2 = [] := by
  unfold SettlePaymentHandler.Handle
  cases h2 : NewNetwork cmd.Network with
  | error e => exact ⟨⟨_, rfl⟩, rfl⟩
  | ok network =>
    cases h3 : NewStacksAddress cmd.ExpectedRecipient with
    | error e => exact ⟨⟨_, rfl⟩, rfl⟩
    | ok recipient =>
      rcases hbad with ⟨e, he⟩ | ⟨e, he⟩
      · rw [h2] at he
        cases he
      · rw [h3] at he
        cases he

/-- A result of `SettlePaymentHandler.Handle` comes from valid inputs, a broadcast that
returned an id without error and a wait for that id that returned a transaction without
error. -/
theorem settleHandle_ok_inv (h : SettlePaymentHandler)
    (cmd : SettlePaymentCommand) (res : SettlePaymentResult)
    (hres : (h.Handle cmd).1 = .ok res) :
    ∃ network recipient txID tx,
      NewNetwork cmd.Network = .ok network ∧
      NewStacksAddress cmd.ExpectedRecipient = .ok recipient ∧
      h.BroadcastTransaction cmd.SignedTransaction network = (txID, none) ∧
      h.WaitForConfirmation txID (tokenTypeOrDefault cmd.TokenType) network
        h.maxRetries h.retryDelay = (tx, none) ∧
      (h.Handle cmd).2 =
        [BroadcasterCall.BroadcastTransaction cmd.SignedTransaction network,
         BroadcasterCall.WaitForConfirmation txID (tokenTypeOrDefault cmd.TokenType)
           network h.maxRetries h.retryDelay] ∧
      res = settleResult tx network (settleCriteria cmd recipient) := by
  cases h2 : NewNetwork cmd.Network with
  | error e =>
    obtain ⟨⟨err, herr⟩, _⟩ := settleHandle_of_invalid h cmd (Or.inl ⟨e, h2⟩)
    rw [herr] at hres
    cases hres
  | ok network =>
    cases h3 : NewStacksAddress cmd.ExpectedRecipient with
    | error e =>
      obtain ⟨⟨err, herr⟩, _⟩ := settleHandle_of_invalid h cmd
        (Or.inr ⟨e, h3⟩)
      rw [herr] at hres
      cases hres
    | ok recipient =>
      have hv := settleHandle_of_valid h cmd network recipient h2 h3
      rw [hv] at hres ⊢
      cases hb : h.BroadcastTransaction cmd.SignedTransaction network with
      | mk txID oerr =>
        rw [hb] at hres
        cases oerr with
        | some e => cases hres
        | none =>
          simp only at hres ⊢
          cases hw : h.WaitForConfirmation txID (tokenTypeOrDefault cmd.TokenType) network
              h.maxRetries h.retryDelay with
          | mk tx oerr2 =>
            rw [hw] at hres
            cases oerr2 with
            | some e => cases hres
            | none =>
              simp only at hres
              injection hres with hres
              exact ⟨network, recipient, txID, tx, rfl, rfl, hb, hw, rfl, hres.symm⟩

/-- An error of `VerifyPaymentHandler.Handle` comes from a malformed input or from an error
of the blockchain client. -/
theorem verifyHandle_error_inv (h : VerifyPaymentHandler)
    (cmd : VerifyPaymentCommand) (err : GoError)
    (herr : (h.Handle cmd).1 = .error err) :
    (∃ e, NewTransactionID cmd.TxID = .error e) ∨
    (∃ e, NewNetwork cmd.Network = .error e) ∨
    (∃ e, NewStacksAddress cmd.ExpectedRecipient = .error e) ∨
    (∃ call tx e, h.blockchainClient call = (tx, some e) ∧
      err = GoError.wrap "failed to fetch transaction" e) := by
  cases h1 : NewTransactionID cmd.TxID with
  | error e => exact Or.inl ⟨e, rfl⟩
  | ok txID =>
    cases h2 : NewNetwork cmd.Network with
    | error e => exact Or.inr (Or.inl ⟨e, rfl⟩)
    | ok network =>
      cases h3 : NewStacksAddress cmd.ExpectedRecipient with
      | error e => exact Or.inr (Or.inr (Or.inl ⟨e, rfl⟩))
      | ok recipient =>
        right
        right
        right
        rw [verifyHandle_of_valid h cmd txID network recipient h1 h2 h3] at herr
        cases hc : h.blockchainClient
            { txID := txID, tokenType := tokenTypeOrDefault cmd.TokenType, network := network,
              maxRetries := h.maxRetries, retryDelay := h.retryDelay } with
        | mk tx oerr =>
          rw [hc] at herr
          cases oerr with
          | none => cases herr
          | some e =>
            simp only at herr
            injection herr with herr
            exact ⟨_, tx, e, hc, herr.symm⟩

/-- An error of `SettlePaymentHandler.Handle` comes from a malformed input, from an error of
the broadcast or from an error of the wait. -/
theorem settleHandle_error_inv (h : SettlePaymentHandler)
    (cmd : SettlePaymentCommand) (err : GoError)
    (herr : (h.Handle cmd).1 = .error err) :
    (∃ e, NewNetwork cmd.Network = .error e) ∨
    (∃ e, NewStacksAddress cmd.ExpectedRecipient = .error e) ∨
    (∃ network txID e, h.BroadcastTransaction cmd.SignedTransaction network = (txID, some e) ∧
      err = GoError.wrap "failed to broadcast transaction" e) ∨
    (∃ txID tokenType network tx e,
      h.WaitForConfirmation txID tokenType network h.maxRetries h.retryDelay = (tx, some e) ∧
      err = GoError.wrap "failed to confirm transaction" e) := by
  cases h2 : NewNetwork cmd.Network with
  | error e => exact Or.inl ⟨e, rfl⟩
  | ok network =>
    cases h3 : NewStacksAddress cmd.ExpectedRecipient with
    | error e => exact Or.inr (Or.inl ⟨e, rfl⟩)
    | ok recipient =>
      right
      right
      rw [settleHandle_of_valid h cmd network recipient h2 h3] at herr
      cases hb : h.BroadcastTransaction cmd.SignedTransaction network with
      | mk txID oerr =>
        rw [hb] at herr
        cases oerr with
        | some e =>
          simp only at herr
          injection herr with herr
          exact Or.inl ⟨network, txID, e, hb, herr.symm⟩
        | none =>
          simp only at herr
          cases hw : h.WaitForConfirmation txID (tokenTypeOrDefault cmd.TokenType) network
              h.maxRetries h.retryDelay with
          | mk tx oerr2 =>
            rw [hw] at herr
            cases oerr2 with
            | none => cases herr
            | some e =>
              simp only at herr
              injection herr with herr
              exact Or.inr ⟨txID, _, network, tx, e, hw, herr.symm⟩

/-- C23: input validation precedes chain interaction. `VerifyPaymentHandler.Handle` returns an
error without calling the blockchain client when the transaction id, the network or the
expected recipient of the command is malformed, and `SettlePaymentHandler.Handle` returns an
error without broadcasting or polling when the network or the expected recipient is
malformed. -/
theorem Handle_validates_before_chain (vh : VerifyPaymentHandler)
    (vcmd : VerifyPaymentCommand) (sh : SettlePaymentHandler) (scmd : SettlePaymentCommand) :
    (((∃ e, NewTransactionID vcmd.TxID = .error e) ∨
        (∃ e, NewNetwork vcmd.Network = .error e) ∨
        (∃ e, NewStacksAddress vcmd.ExpectedRecipient = .error e)) →
      (∃ err, (vh.Handle vcmd).1 = .error err) ∧ (vh.Handle vcmd).2 = []) ∧
    (((∃ e, NewNetwork scmd.Network = .error e) ∨
        (∃ e, NewStacksAddress scmd.ExpectedRecipient = .error e)) →
      (∃ err, (sh.Handle scmd).1 = .error err) ∧ (sh.Handle scmd).2 = []) :=
  ⟨verifyHandle_of_invalid vh vcmd,
    settleHandle_of_invalid sh scmd⟩

/-- C23, on `TestVerifyPaymentHandler_InvalidTxID` (id `invalid`) and on the settle command
with the network `invalid`: an error and no call. -/
theorem Handle_validates_before_chain_witness :
    ((∃ err, ((NewVerifyPaymentHandler (mockClient createTestTransaction)).Handle
        { verifyTestCommand with TxID := "invalid" }).1 = .error err) ∧
      ((NewVerifyPaymentHandler (mockClient createTestTransaction)).Handle
        { verifyTestCommand with TxID := "invalid" }).2 = []) ∧
    ((∃ err, ((NewSettlePaymentHandler mockBroadcast (mockWait createTestTransaction)).Handle
        { settleTestCommand with Network := "invalid" }).1 = .error err) ∧
      ((NewSettlePaymentHandler mockBroadcast (mockWait createTestTransaction)).Handle
        { settleTestCommand with Network := "invalid" }).2 = []) :=
  ⟨(Handle_validates_before_chain (NewVerifyPaymentHandler (mockClient createTestTransaction))
      { verifyTestCommand with TxID := "invalid" }
      (NewSettlePaymentHandler mockBroadcast (mockWait createTestTransaction))
      { settleTestCommand with Network := "invalid" }).1 (Or.inl ⟨_, rfl⟩),
   (Handle_validates_before_chain (NewVerifyPaymentHandler (mockClient createTestTransaction))
      { verifyTestCommand with TxID := "invalid" }
      (NewSettlePaymentHandler mockBroadcast (mockWait createTestTransaction))
      { settleTestCommand with Network := "invalid" }).2 (Or.inl ⟨_, rfl⟩)⟩

/-- C24, at the failing input: an expected sender that `NewStacksAddress` rejects (the
lower-case form of an address that is not the sender of the transaction) raises no error, is
left out of the criteria after the chain has been called, and the result is valid although
the sender of the transaction is another address. -/
theorem Handle_drops_invalid_expected_sender :
    (∃ e, NewStacksAddress "st9j6zy48gv1ez5v2v5rb9mp66sw86pykknrv9ej9" = .error e) ∧
    (∃ res, ((NewVerifyPaymentHandler (mockClient createTestTransaction)).Handle
        { verifyTestCommand with
          ExpectedSender := some "st9j6zy48gv1ez5v2v5rb9mp66sw86pykknrv9ej9" }).1 = .ok res ∧
      res.Valid = true ∧ res.Errors = [] ∧
      res.SenderAddress = "ST2J6ZY48GV1EZ5V2V5RB9MP66SW86PYKKNRV9EJ7") ∧
    ((NewVerifyPaymentHandler (mockClient createTestTransaction)).Handle
        { verifyTestCommand with
          ExpectedSender := some "st9j6zy48gv1ez5v2v5rb9mp66sw86pykknrv9ej9" }).2.length = 1 ∧
    (∃ res, ((NewSettlePaymentHandler mockBroadcast (mockWait createTestTransaction)).Handle
        { settleTestCommand with
          ExpectedSender := some "st9j6zy48gv1ez5v2v5rb9mp66sw86pykknrv9ej9" }).1 = .ok res ∧
      res.Success = true ∧ res.Errors = [] ∧
      res.SenderAddress = "ST2J6ZY48GV1EZ5V2V5RB9MP66SW86PYKKNRV9EJ7") ∧
    ((NewSettlePaymentHandler mockBroadcast (mockWait createTestTransaction)).Handle
        { settleTestCommand with
          ExpectedSender := some "st9j6zy48gv1ez5v2v5rb9mp66sw86pykknrv9ej9" }).2.length = 2 :=
  ⟨⟨_, rfl⟩, ⟨_, rfl, rfl, rfl, rfl⟩, rfl, ⟨_, rfl, rfl, rfl, rfl⟩, rfl⟩

/-- The validity flag of `Verify` is off exactly when there is a violation. -/
theorem Verify_valid_eq_false_iff (tx : BlockchainTransaction) (c : VerificationCriteria) :
    (Verify tx c).Valid = false ↔ (Verify tx c).Errors ≠ [] := by
  rw [Ne, ← Verify_valid_eq_true_iff tx c]
  cases (Verify tx c).Valid <;> simp

/-- The criteria of a verify command, field by field: the parsed expected recipient, the
minimum amount, the expected sender when it is given and `NewStacksAddress` accepts it, the
expected memo as given, and confirmation required. -/
theorem verifyCriteria_eq (cmd : VerifyPaymentCommand) (recipient : StacksAddress) :
    verifyCriteria cmd recipient =
      { ExpectedRecipient := recipient
        MinAmount := { value := cmd.MinAmount }
        ExpectedSender := cmd.ExpectedSender.bind (fun s => (NewStacksAddress s).toOption)
        ExpectedMemo := cmd.ExpectedMemo
        AcceptUnconfirmed := false } := by
  unfold verifyCriteria
  cases cmd.ExpectedSender with
  | none => cases cmd.ExpectedMemo <;> rfl
  | some s =>
    simp only [Option.bind]
    cases NewStacksAddress s <;> cases cmd.ExpectedMemo <;> rfl

/-- The criteria of a settle command, field by field: as for a verify command, without an
expected memo. -/
theorem settleCriteria_eq (cmd : SettlePaymentCommand) (recipient : StacksAddress) :
    settleCriteria cmd recipient =
      { ExpectedRecipient := recipient
        MinAmount := { value := cmd.MinAmount }
        ExpectedSender := cmd.ExpectedSender.bind (fun s => (NewStacksAddress s).toOption)
        ExpectedMemo := none
        AcceptUnconfirmed := false } := by
  unfold settleCriteria
  cases cmd.ExpectedSender with
  | none => rfl
  | some s =>
    simp only [Option.bind]
    cases NewStacksAddress s <;> rfl

/-- C25: rule violations are never errors. For a command with valid inputs for which the
chain collaborator returns a transaction (after a successful broadcast, for settle), `Handle`
returns a result and no error; its `Valid` or `Success` flag and its `Errors` are those of the
verification engine on the inputs of the command: the parsed expected recipient, the minimum
amount, the expected sender when it is given and accepted, the expected memo (verify only),
and confirmation required. So a transaction that fails these criteria gives `false` with the
non-empty list of the violations of the engine, and one that meets them gives `true` with an
empty list. `Handle` returns an error only when an input is malformed or when the fetch, the
broadcast or the wait fails. -/
theorem Handle_rule_violations_are_not_errors (vh : VerifyPaymentHandler)
    (vcmd : VerifyPaymentCommand) (sh : SettlePaymentHandler) (scmd : SettlePaymentCommand) :
    (∀ txID network recipient tx,
      NewTransactionID vcmd.TxID = .ok txID → NewNetwork vcmd.Network = .ok network →
      NewStacksAddress vcmd.ExpectedRecipient = .ok recipient →
      vh.blockchainClient
        { txID := txID, tokenType := tokenTypeOrDefault vcmd.TokenType, network := network,
          maxRetries := vh.maxRetries, retryDelay := vh.retryDelay } = (tx, none) →
      ∃ res, (vh.Handle vcmd).1 = .ok res ∧
        res.Valid =
          (Verify tx
            { ExpectedRecipient := recipient
              MinAmount := { value := vcmd.MinAmount }
              ExpectedSender :=
                vcmd.ExpectedSender.bind (fun s => (NewStacksAddress s).toOption)
              ExpectedMemo := vcmd.ExpectedMemo
              AcceptUnconfirmed := false }).Valid ∧
        res.Errors =
          (Verify tx
            { ExpectedRecipient := recipient
              MinAmount := { value := vcmd.MinAmount }
              ExpectedSender :=
                vcmd.ExpectedSender.bind (fun s => (NewStacksAddress s).toOption)
              ExpectedMemo := vcmd.ExpectedMemo
              AcceptUnconfirmed := false }).Errors ∧
        (res.Valid = false ↔ res.Errors ≠ []) ∧
        (tx.Recipient ≠ recipient ∨ tx.Amount.value < vcmd.MinAmount ∨
            (∃ s a, vcmd.ExpectedSender = some s ∧ NewStacksAddress s = .ok a ∧
              tx.Sender ≠ a) ∨
            (∃ m, vcmd.ExpectedMemo = some m ∧ tx.Memo ≠ m) ∨
            tx.IsConfirmed = false ∨ isFailedStatus tx.Status = true →
          res.Valid = false ∧ res.Errors ≠ [])) ∧
    (∀ err, (vh.Handle vcmd).1 = .error err →
      (∃ e, NewTransactionID vcmd.TxID = .error e) ∨
      (∃ e, NewNetwork vcmd.Network = .error e) ∨
      (∃ e, NewStacksAddress vcmd.ExpectedRecipient = .error e) ∨
      (∃ call tx e, vh.blockchainClient call = (tx, some e) ∧
        err = GoError.wrap "failed to fetch transaction" e)) ∧
    (∀ network recipient txID tx,
      NewNetwork scmd.Network = .ok network →
      NewStacksAddress scmd.ExpectedRecipient = .ok recipient →
      sh.BroadcastTransaction scmd.SignedTransaction network = (txID, none) →
      sh.WaitForConfirmation txID (tokenTypeOrDefault scmd.TokenType) network
        sh.maxRetries sh.retryDelay = (tx, none) →
      ∃ res, (sh.Handle scmd).1 = .ok res ∧
        res.Success =
          (Verify tx
            { ExpectedRecipient := recipient
              MinAmount := { value := scmd.MinAmount }
              ExpectedSender :=
                scmd.ExpectedSender.bind (fun s => (NewStacksAddress s).toOption)
              ExpectedMemo := none
              AcceptUnconfirmed := false }).Valid ∧
        res.Errors =
          (Verify tx
            { ExpectedRecipient := recipient
              MinAmount := { value := scmd.MinAmount }
              ExpectedSender :=
                scmd.ExpectedSender.bind (fun s => (NewStacksAddress s).toOption)
              ExpectedMemo := none
              AcceptUnconfirmed := false }).Errors ∧
        (res.Success = false ↔ res.Errors ≠ []) ∧
        (tx.Recipient ≠ recipient ∨ tx.Amount.value < scmd.MinAmount ∨
            (∃ s a, scmd.ExpectedSender = some s ∧ NewStacksAddress s = .ok a ∧
              tx.Sender ≠ a) ∨
            tx.IsConfirmed = false ∨ isFailedStatus tx.Status = true →
          res.Success = false ∧ res.Errors ≠ [])) ∧
    (∀ err, (sh.Handle scmd).1 = .error err →
      (∃ e, NewNetwork scmd.Network = .error e) ∨
      (∃ e, NewStacksAddress scmd.ExpectedRecipient = .error e) ∨
      (∃ network txID e,
        sh.BroadcastTransaction scmd.SignedTransaction network = (txID, some e) ∧
        err = GoError.wrap "failed to broadcast transaction" e) ∨
      (∃ txID tokenType network tx e,
        sh.WaitForConfirmation txID tokenType network sh.maxRetries sh.retryDelay =
          (tx, some e) ∧
        err = GoError.wrap "failed to confirm transaction" e)) := by
  have hfails : ∀ (tx : BlockchainTransaction) (c : VerificationCriteria),
      (tx.Recipient ≠ c.ExpectedRecipient ∨ tx.Amount.value < c.MinAmount.value ∨
        (∃ a, c.ExpectedSender = some a ∧ tx.Sender ≠ a) ∨
        (∃ m, c.ExpectedMemo = some m ∧ tx.Memo ≠ m) ∨
        (c.AcceptUnconfirmed = false ∧ tx.IsConfirmed = false) ∨
        isFailedStatus tx.Status = true) →
      (Verify tx c).Errors ≠ [] := by
    intro tx c hv hnil
    have hmem : ∀ msg, msg ∉ (Verify tx c).Errors := by
      intro msg
      rw [hnil]
      exact List.not_mem_nil msg
    rcases hv with h | h | ⟨a, ha, h⟩ | ⟨m, hm, h⟩ | h | h
    · exact hmem _ ((mem_Verify_Errors tx c _).2 (Or.inr (Or.inr (Or.inl ⟨h, rfl⟩))))
    · exact hmem _ ((mem_Verify_Errors tx c _).2
        (Or.inr (Or.inr (Or.inr (Or.inl ⟨h, rfl⟩)))))
    · exact hmem _ ((mem_Verify_Errors tx c _).2
        (Or.inr (Or.inr (Or.inr (Or.inr (Or.inl ⟨a, ha, h, rfl⟩))))))
    · exact hmem _ ((mem_Verify_Errors tx c _).2
        (Or.inr (Or.inr (Or.inr (Or.inr (Or.inr ⟨m, hm, h, rfl⟩))))))
    · exact hmem _ ((mem_Verify_Errors tx c _).2 (Or.inr (Or.inl ⟨h, rfl⟩)))
    · exact hmem _ ((mem_Verify_Errors tx c _).2 (Or.inl ⟨h, rfl⟩))
  refine ⟨?_, verifyHandle_error_inv vh vcmd, ?_,
    settleHandle_error_inv sh scmd⟩
  · intro txID network recipient tx hid hn hr hc
    rw [verifyHandle_of_valid vh vcmd txID network recipient hid hn hr, hc]
    refine ⟨_, rfl, ?_, ?_, Verify_valid_eq_false_iff tx _, ?_⟩
    · show (Verify tx (verifyCriteria vcmd recipient)).Valid = _
      rw [verifyCriteria_eq]
    · show (Verify tx (verifyCriteria vcmd recipient)).Errors = _
      rw [verifyCriteria_eq]
    · intro hv
      have hne : (Verify tx (verifyCriteria vcmd recipient)).Errors ≠ [] := by
        rw [verifyCriteria_eq]
        apply hfails
        rcases hv with h | h | ⟨s, a, hs, ha, h⟩ | ⟨m, hm, h⟩ | h | h
        · exact Or.inl h
        · exact Or.inr (Or.inl h)
        · refine Or.inr (Or.inr (Or.inl ⟨a, ?_, h⟩))
          simp only [hs, Option.bind, ha, Except.toOption]
        · exact Or.inr (Or.inr (Or.inr (Or.inl ⟨m, hm, h⟩)))
        · exact Or.inr (Or.inr (Or.inr (Or.inr (Or.inl ⟨rfl, h⟩))))
        · exact Or.inr (Or.inr (Or.inr (Or.inr (Or.inr h))))
      exact ⟨(Verify_valid_eq_false_iff tx _).2 hne, hne⟩
  · intro network recipient txID tx hn hr hb hw
    rw [settleHandle_of_valid sh scmd network recipient hn hr, hb]
    simp only [hw]
    refine ⟨_, rfl, ?_, ?_, Verify_valid_eq_false_iff tx _, ?_⟩
    · show (Verify tx (settleCriteria scmd recipient)).Valid = _
      rw [settleCriteria_eq]
    · show (Verify tx (settleCriteria scmd recipient)).Errors = _
      rw [settleCriteria_eq]
    · intro hv
      have hne : (Verify tx (settleCriteria scmd recipient)).Errors ≠ [] := by
        rw [settleCriteria_eq]
        apply hfails
        rcases hv with h | h | ⟨s, a, hs, ha, h⟩ | h | h
        · exact Or.inl h
        · exact Or.inr (Or.inl h)
        · refine Or.inr (Or.inr (Or.inl ⟨a, ?_, h⟩))
          simp only [hs, Option.bind, ha, Except.toOption]
        · exact Or.inr (Or.inr (Or.inr (Or.inr (Or.inl ⟨rfl, h⟩))))
        · exact Or.inr (Or.inr (Or.inr (Or.inr (Or.inr h))))
      exact ⟨(Verify_valid_eq_false_iff tx _).2 hne, hne⟩

/-- C25, on `TestVerifyPaymentHandler_InvalidRecipient` and on
`TestSettlePaymentHandler_VerificationFailed`: a recipient mismatch gives a result with the flag
off and the violation of the engine, not an error. -/
theorem Handle_rule_violations_are_not_errors_witness :
    (∃ res, ((NewVerifyPaymentHandler (mockClient createTestTransaction)).Handle
        { verifyTestCommand with
          ExpectedRecipient := "ST9J6ZY48GV1EZ5V2V5RB9MP66SW86PYKKNRV9EJ9" }).1 = .ok res ∧
      res.Valid = false ∧
      res.Errors = ["recipient mismatch: expected ST9J6ZY48GV1EZ5V2V5RB9MP66SW86PYKKNRV9EJ9, " ++
        "got ST1PQHQKV0RJXZFY1DGX8MNSNYVE3VGZJSRTPGZGM"]) ∧
    (∃ res, ((NewSettlePaymentHandler mockBroadcast
        (mockWait { createTestTransaction with
          Recipient := { value := "ST9J6ZY48GV1EZ5V2V5RB9MP66SW86PYKKNRV9EJ9" } })).Handle
        settleTestCommand).1 = .ok res ∧
      res.Success = false ∧
      res.Errors = ["recipient mismatch: expected ST1PQHQKV0RJXZFY1DGX8MNSNYVE3VGZJSRTPGZGM, " ++
        "got ST9J6ZY48GV1EZ5V2V5RB9MP66SW86PYKKNRV9EJ9"]) := by
  obtain ⟨res, h1, h2, h3, _⟩ :=
    (Handle_rule_violations_are_not_errors
      (NewVerifyPaymentHandler (mockClient createTestTransaction))
      { verifyTestCommand with
        ExpectedRecipient := "ST9J6ZY48GV1EZ5V2V5RB9MP66SW86PYKKNRV9EJ9" }
      (NewSettlePaymentHandler mockBroadcast
        (mockWait { createTestTransaction with
          Recipient := { value := "ST9J6ZY48GV1EZ5V2V5RB9MP66SW86PYKKNRV9EJ9" } }))
      settleTestCommand).1
      { value := "0x1234567890abcdef1234567890abcdef1234567890abcdef1234567890abcdef" }
      NetworkTestnet { value := "ST9J6ZY48GV1EZ5V2V5RB9MP66SW86PYKKNRV9EJ9" }
      createTestTransaction rfl rfl rfl rfl
  obtain ⟨res2, g1, g2, g3, _⟩ :=
    (Handle_rule_violations_are_not_errors
      (NewVerifyPaymentHandler (mockClient createTestTransaction))
      { verifyTestCommand with
        ExpectedRecipient := "ST9J6ZY48GV1EZ5V2V5RB9MP66SW86PYKKNRV9EJ9" }
      (NewSettlePaymentHandler mockBroadcast
        (mockWait { createTestTransaction with
          Recipient := { value := "ST9J6ZY48GV1EZ5V2V5RB9MP66SW86PYKKNRV9EJ9" } }))
      settleTestCommand).2.2.1
      NetworkTestnet { value := "ST1PQHQKV0RJXZFY1DGX8MNSNYVE3VGZJSRTPGZGM" }
      { value := "0x1234567890abcdef1234567890abcdef1234567890abcdef1234567890abcdef" }
      { createTestTransaction with
        Recipient := { value := "ST9J6ZY48GV1EZ5V2V5RB9MP66SW86PYKKNRV9EJ9" } }
      rfl rfl rfl rfl
  exact ⟨⟨res, h1, h2.trans rfl, h3.trans rfl⟩, ⟨res2, g1, g2.trans rfl, g3.trans rfl⟩⟩

/-- The criteria of a verify command always require confirmation. -/
theorem verifyCriteria_AcceptUnconfirmed (cmd : VerifyPaymentCommand)
    (recipient : StacksAddress) : (verifyCriteria cmd recipient).AcceptUnconfirmed = false := by
  unfold verifyCriteria
  cases cmd.ExpectedSender with
  | none => cases cmd.ExpectedMemo <;> rfl
  | some s =>
    simp only
    cases NewStacksAddress s <;> cases cmd.ExpectedMemo <;> rfl

/-- The criteria of a settle command always require confirmation. -/
theorem settleCriteria_AcceptUnconfirmed (cmd : SettlePaymentCommand)
    (recipient : StacksAddress) : (settleCriteria cmd recipient).AcceptUnconfirmed = false := by
  unfold settleCriteria
  cases cmd.ExpectedSender with
  | none => rfl
  | some s =>
    simp only
    cases NewStacksAddress s <;> rfl

/-- Under criteria that require confirmation, an unconfirmed transaction is invalid with the
confirmation violation, and a valid transaction has the lifecycle label `confirmed`. -/
theorem Verify_requires_confirmation (tx : BlockchainTransaction) (c : VerificationCriteria)
    (hc : c.AcceptUnconfirmed = false) :
    (tx.IsConfirmed = false →
      (Verify tx c).Valid = false ∧ "transaction not confirmed" ∈ (Verify tx c).Errors) ∧
    ((Verify tx c).Valid = true → determinePaymentStatus tx = "confirmed") := by
  have hmem : tx.IsConfirmed = false → "transaction not confirmed" ∈ (Verify tx c).Errors := by
    intro hu
    rw [mem_Verify_Errors]
    exact Or.inr (Or.inl ⟨⟨hc, hu⟩, rfl⟩)
  constructor
  · intro hu
    refine ⟨?_, hmem hu⟩
    rw [Verify_valid_eq_false_iff]
    intro hnil
    have := hmem hu
    rw [hnil] at this
    exact absurd this (List.not_mem_nil _)
  · intro hv
    rw [Verify_valid_eq_true_iff] at hv
    cases hconf : tx.IsConfirmed with
    | true => simp [determinePaymentStatus, hconf]
    | false =>
      have := hmem hconf
      rw [hv] at this
      exact absurd this (List.not_mem_nil _)

/-- C26: both use cases always require confirmation. When the chain collaborator returns a
transaction with `IsConfirmed = false`, the result of `Handle` (verify and settle) has its
flag off and "transaction not confirmed" among its errors; and every result with the flag on
has the status `confirmed`. -/
theorem Handle_requires_confirmation (vh : VerifyPaymentHandler)
    (vcmd : VerifyPaymentCommand) (sh : SettlePaymentHandler) (scmd : SettlePaymentCommand) :
    (∀ txID network recipient tx,
      NewTransactionID vcmd.TxID = .ok txID → NewNetwork vcmd.Network = .ok network →
      NewStacksAddress vcmd.ExpectedRecipient = .ok recipient →
      vh.blockchainClient
        { txID := txID, tokenType := tokenTypeOrDefault vcmd.TokenType, network := network,
          maxRetries := vh.maxRetries, retryDelay := vh.retryDelay } = (tx, none) →
      tx.IsConfirmed = false →
      ∃ res, (vh.Handle vcmd).1 = .ok res ∧ res.Valid = false ∧
        "transaction not confirmed" ∈ res.Errors) ∧
    (∀ res, (vh.Handle vcmd).1 = .ok res → res.Valid = true → res.Status = "confirmed") ∧
    (∀ network recipient txID tx,
      NewNetwork scmd.Network = .ok network →
      NewStacksAddress scmd.ExpectedRecipient = .ok recipient →
      sh.BroadcastTransaction scmd.SignedTransaction network = (txID, none) →
      sh.WaitForConfirmation txID (tokenTypeOrDefault scmd.TokenType) network
        sh.maxRetries sh.retryDelay = (tx, none) →
      tx.IsConfirmed = false →
      ∃ res, (sh.Handle scmd).1 = .ok res ∧ res.Success = false ∧
        "transaction not confirmed" ∈ res.Errors) ∧
    (∀ res, (sh.Handle scmd).1 = .ok res → res.Success = true → res.Status = "confirmed") := by
  refine ⟨?_, ?_, ?_, ?_⟩
  · intro txID network recipient tx hid hn hr hc hu
    rw [verifyHandle_of_valid vh vcmd txID network recipient hid hn hr, hc]
    obtain ⟨h1, h2⟩ := (Verify_requires_confirmation tx (verifyCriteria vcmd recipient)
      (verifyCriteria_AcceptUnconfirmed vcmd recipient)).1 hu
    exact ⟨_, rfl, h1, h2⟩
  · intro res hres hv
    obtain ⟨txID, network, recipient, tx, _, _, _, _, _, hr⟩ :=
      verifyHandle_ok_inv vh vcmd res hres
    rw [hr] at hv ⊢
    exact (Verify_requires_confirmation tx (verifyCriteria vcmd recipient)
      (verifyCriteria_AcceptUnconfirmed vcmd recipient)).2 hv
  · intro network recipient txID tx hn hr hb hw hu
    rw [settleHandle_of_valid sh scmd network recipient hn hr, hb]
    simp only [hw]
    obtain ⟨h1, h2⟩ := (Verify_requires_confirmation tx (settleCriteria scmd recipient)
      (settleCriteria_AcceptUnconfirmed scmd recipient)).1 hu
    exact ⟨_, rfl, h1, h2⟩
  · intro res hres hv
    obtain ⟨network, recipient, txID, tx, _, _, _, _, _, hr⟩ :=
      settleHandle_ok_inv sh scmd res hres
    rw [hr] at hv ⊢
    exact (Verify_requires_confirmation tx (settleCriteria scmd recipient)
      (settleCriteria_AcceptUnconfirmed scmd recipient)).2 hv

/-- C26, on the test commands with a chain that returns the pending transaction: both results
have the flag off and carry "transaction not confirmed"; with the confirmed test transaction
the results are valid with status `confirmed`. -/
theorem Handle_requires_confirmation_witness :
    (∃ res, ((NewVerifyPaymentHandler (mockClient pendingTransaction)).Handle
        verifyTestCommand).1 = .ok res ∧ res.Valid = false ∧
      "transaction not confirmed" ∈ res.Errors) ∧
    (∃ res, ((NewSettlePaymentHandler mockBroadcast (mockWait pendingTransaction)).Handle
        settleTestCommand).1 = .ok res ∧ res.Success = false ∧
      "transaction not confirmed" ∈ res.Errors) ∧
    (verifyResult createTestTransaction NetworkTestnet validCriteria).Status = "confirmed" ∧
    (settleResult createTestTransaction NetworkTestnet validCriteria).Status = "confirmed" :=
  ⟨(Handle_requires_confirmation (NewVerifyPaymentHandler (mockClient pendingTransaction))
      verifyTestCommand (NewSettlePaymentHandler mockBroadcast (mockWait pendingTransaction))
      settleTestCommand).1
      { value := "0x1234567890abcdef1234567890abcdef1234567890abcdef1234567890abcdef" }
      NetworkTestnet { value := "ST1PQHQKV0RJXZFY1DGX8MNSNYVE3VGZJSRTPGZGM" }
      pendingTransaction rfl rfl rfl rfl rfl,
   (Handle_requires_confirmation (NewVerifyPaymentHandler (mockClient pendingTransaction))
      verifyTestCommand (NewSettlePaymentHandler mockBroadcast (mockWait pendingTransaction))
      settleTestCommand).2.2.1
      NetworkTestnet { value := "ST1PQHQKV0RJXZFY1DGX8MNSNYVE3VGZJSRTPGZGM" }
      { value := "0x1234567890abcdef1234567890abcdef1234567890abcdef1234567890abcdef" }
      pendingTransaction rfl rfl rfl rfl rfl,
   (Handle_requires_confirmation
      (NewVerifyPaymentHandler (mockClient createTestTransaction)) verifyTestCommand
      (NewSettlePaymentHandler mockBroadcast (mockWait createTestTransaction))
      settleTestCommand).2.1 _ rfl rfl,
   (Handle_requires_confirmation
      (NewVerifyPaymentHandler (mockClient createTestTransaction)) verifyTestCommand
      (NewSettlePaymentHandler mockBroadcast (mockWait createTestTransaction))
      settleTestCommand).2.2.2 _ rfl rfl⟩

/-- C27: settle broadcasts before polling and stops on a broadcast failure. With valid inputs
`SettlePaymentHandler.Handle` calls `BroadcastTransaction` first; when that fails, it returns
an error wrapping the failure and has made no other call; when it succeeds,
`WaitForConfirmation` is the next call, with exactly the transaction id that the broadcast
returned. -/
theorem SettlePaymentHandler_broadcasts_first (h : SettlePaymentHandler)
    (cmd : SettlePaymentCommand) (network : Network) (recipient : StacksAddress)
    (hn : NewNetwork cmd.Network = .ok network)
    (hr : NewStacksAddress cmd.ExpectedRecipient = .ok recipient) :
    ((h.Handle cmd).2.head? =
      some (BroadcasterCall.BroadcastTransaction cmd.SignedTransaction network)) ∧
    (∀ txID e, h.BroadcastTransaction cmd.SignedTransaction network = (txID, some e) →
      h.Handle cmd =
        (.error (GoError.wrap "failed to broadcast transaction" e),
          [BroadcasterCall.BroadcastTransaction cmd.SignedTransaction network])) ∧
    (∀ txID, h.BroadcastTransaction cmd.SignedTransaction network = (txID, none) →
      (h.Handle cmd).2 =
        [BroadcasterCall.BroadcastTransaction cmd.SignedTransaction network,
         BroadcasterCall.WaitForConfirmation txID (tokenTypeOrDefault cmd.TokenType) network
           h.maxRetries h.retryDelay]) := by
  have hv := settleHandle_of_valid h cmd network recipient hn hr
  have hthird : ∀ txID, h.BroadcastTransaction cmd.SignedTransaction network = (txID, none) →
      (h.Handle cmd).2 =
        [BroadcasterCall.BroadcastTransaction cmd.SignedTransaction network,
         BroadcasterCall.WaitForConfirmation txID (tokenTypeOrDefault cmd.TokenType) network
           h.maxRetries h.retryDelay] := by
    intro txID hb
    rw [hv, hb]
    simp only
    cases hw : h.WaitForConfirmation txID (tokenTypeOrDefault cmd.TokenType) network
        h.maxRetries h.retryDelay with
    | mk tx oerr => cases oerr <;> rfl
  have hsecond : ∀ txID e,
      h.BroadcastTransaction cmd.SignedTransaction network = (txID, some e) →
      h.Handle cmd =
        (.error (GoError.wrap "failed to broadcast transaction" e),
          [BroadcasterCall.BroadcastTransaction cmd.SignedTransaction network]) := by
    intro txID e hb
    rw [hv, hb]
  refine ⟨?_, hsecond, hthird⟩
  cases hb : h.BroadcastTransaction cmd.SignedTransaction network with
  | mk txID oerr =>
    cases oerr with
    | some e =>
      rw [hsecond txID e hb]
      rfl
    | none =>
      rw [hthird txID hb]
      rfl

/-- C27, on `TestSettlePaymentHandler_BroadcastError` and on
`TestSettlePaymentHandler_Success`: after a failed broadcast the error wraps "broadcast
failed" and the broadcast is the only call; after a successful one the wait is for the id
that the broadcast returned. -/
theorem SettlePaymentHandler_broadcasts_first_witness :
    (NewSettlePaymentHandler mockBroadcastError (mockWait createTestTransaction)).Handle
        settleTestCommand =
      (.error (GoError.wrap "failed to broadcast transaction" (GoError.new "broadcast failed")),
        [BroadcasterCall.BroadcastTransaction "0x00000001deadbeef" NetworkTestnet]) ∧
    ((NewSettlePaymentHandler mockBroadcast (mockWait createTestTransaction)).Handle
        settleTestCommand).2 =
      [BroadcasterCall.BroadcastTransaction "0x00000001deadbeef" NetworkTestnet,
       BroadcasterCall.WaitForConfirmation
         { value := "0x1234567890abcdef1234567890abcdef1234567890abcdef1234567890abcdef" }
         TokenSTX NetworkTestnet 15 2000000000] :=
  ⟨(SettlePaymentHandler_broadcasts_first
      (NewSettlePaymentHandler mockBroadcastError (mockWait createTestTransaction))
      settleTestCommand NetworkTestnet
      { value := "ST1PQHQKV0RJXZFY1DGX8MNSNYVE3VGZJSRTPGZGM" } rfl rfl).2.1
      { value := "" } (GoError.new "broadcast failed") rfl,
   (SettlePaymentHandler_broadcasts_first
      (NewSettlePaymentHandler mockBroadcast (mockWait createTestTransaction))
      settleTestCommand NetworkTestnet
      { value := "ST1PQHQKV0RJXZFY1DGX8MNSNYVE3VGZJSRTPGZGM" } rfl rfl).2.2
      { value := "0x1234567890abcdef1234567890abcdef1234567890abcdef1234567890abcdef" } rfl⟩

/-- A settle command and a verify command with the same expected recipient, minimum amount
and expected sender, the verify command without expected memo, give the same criteria. -/
theorem settleCriteria_eq_verifyCriteria (vcmd : VerifyPaymentCommand)
    (scmd : SettlePaymentCommand) (recipient : StacksAddress)
    (hM : vcmd.MinAmount = scmd.MinAmount) (hS : vcmd.ExpectedSender = scmd.ExpectedSender)
    (hMemo : vcmd.ExpectedMemo = none) :
    settleCriteria scmd recipient = verifyCriteria vcmd recipient := by
  unfold settleCriteria verifyCriteria
  rw [hM, hS, hMemo]

/-- C28: settle and verify perform the same domain computation. For the same transaction
returned by the chain collaborator and commands with the same token type, network, expected
recipient, minimum amount and expected sender, the verify command having no expected memo,
both `Handle` functions return a result, `Success` equals `Valid`, the two `Errors` lists are
equal, and so are the shared fields `TxID`, `SenderAddress`, `RecipientAddress`, `Amount`, `Fee`,
`Status`, `BlockHeight`, `TokenType` and `Network`. -/
theorem settle_and_verify_same_computation (vh : VerifyPaymentHandler)
    (vcmd : VerifyPaymentCommand) (sh : SettlePaymentHandler) (scmd : SettlePaymentCommand)
    (txID broadcastID : TransactionID) (network : Network) (recipient : StacksAddress)
    (tx : BlockchainTransaction)
    (_hT : vcmd.TokenType = scmd.TokenType) (hN : vcmd.Network = scmd.Network)
    (hR : vcmd.ExpectedRecipient = scmd.ExpectedRecipient)
    (hM : vcmd.MinAmount = scmd.MinAmount) (hS : vcmd.ExpectedSender = scmd.ExpectedSender)
    (hMemo : vcmd.ExpectedMemo = none)
    (hid : NewTransactionID vcmd.TxID = .ok txID)
    (hn : NewNetwork vcmd.Network = .ok network)
    (hr : NewStacksAddress vcmd.ExpectedRecipient = .ok recipient)
    (hc : vh.blockchainClient
      { txID := txID, tokenType := tokenTypeOrDefault vcmd.TokenType, network := network,
        maxRetries := vh.maxRetries, retryDelay := vh.retryDelay } = (tx, none))
    (hb : sh.BroadcastTransaction scmd.SignedTransaction network = (broadcastID, none))
    (hw : sh.WaitForConfirmation broadcastID (tokenTypeOrDefault scmd.TokenType) network
      sh.maxRetries sh.retryDelay = (tx, none)) :
    ∃ vres sres, (vh.Handle vcmd).1 = .ok vres ∧ (sh.Handle scmd).1 = .ok sres ∧
      sres.Success = vres.Valid ∧ sres.Errors = vres.Errors ∧
      sres.TxID = vres.TxID ∧ sres.SenderAddress = vres.SenderAddress ∧
      sres.RecipientAddress = vres.RecipientAddress ∧ sres.Amount = vres.Amount ∧
      sres.Fee = vres.Fee ∧ sres.Status = vres.Status ∧
      sres.BlockHeight = vres.BlockHeight ∧ sres.TokenType = vres.TokenType ∧
      sres.Network = vres.Network := by
  have hcrit := settleCriteria_eq_verifyCriteria vcmd scmd recipient hM hS hMemo
  have hv := verifyHandle_of_valid vh vcmd txID network recipient hid hn hr
  rw [hc] at hv
  have hs := settleHandle_of_valid sh scmd network recipient
    (hN ▸ hn) (hR ▸ hr)
  rw [hb] at hs
  simp only [hw] at hs
  refine ⟨_, _, by rw [hv], by rw [hs], ?_⟩
  rw [hcrit]
  exact ⟨rfl, rfl, rfl, rfl, rfl, rfl, rfl, rfl, rfl, rfl, rfl⟩

/-- C28, on the two success tests, whose commands agree and whose collaborators return the
same transaction. -/
theorem settle_and_verify_same_computation_witness :
    ∃ vres sres,
      ((NewVerifyPaymentHandler (mockClient createTestTransaction)).Handle
        verifyTestCommand).1 = .ok vres ∧
      ((NewSettlePaymentHandler mockBroadcast (mockWait createTestTransaction)).Handle
        settleTestCommand).1 = .ok sres ∧
      sres.Success = vres.Valid ∧ sres.Errors = vres.Errors ∧
      sres.TxID = vres.TxID ∧ sres.SenderAddress = vres.SenderAddress ∧
      sres.RecipientAddress = vres.RecipientAddress ∧ sres.Amount = vres.Amount ∧
      sres.Fee = vres.Fee ∧ sres.Status = vres.Status ∧
      sres.BlockHeight = vres.BlockHeight ∧ sres.TokenType = vres.TokenType ∧
      sres.Network = vres.Network :=
  settle_and_verify_same_computation
    (NewVerifyPaymentHandler (mockClient createTestTransaction)) verifyTestCommand
    (NewSettlePaymentHandler mockBroadcast (mockWait createTestTransaction)) settleTestCommand
    { value := "0x1234567890abcdef1234567890abcdef1234567890abcdef1234567890abcdef" }
    { value := "0x1234567890abcdef1234567890abcdef1234567890abcdef1234567890abcdef" }
    NetworkTestnet { value := "ST1PQHQKV0RJXZFY1DGX8MNSNYVE3VGZJSRTPGZGM" }
    createTestTransaction rfl rfl rfl rfl rfl rfl rfl rfl rfl rfl rfl rfl

/-- C29: the terminal-failure set. `IsTransactionFailed` (of the poller) and `isFailedStatus`
(of the verification engine) are each true exactly on the strings `failed`,
`abort_by_response` and `abort_by_post_condition`, letter case included, and false on every
other string, `success` and `pending` among them; so they agree on every raw status. -/
theorem failed_status_classifiers_agree :
    (∀ status : String, IsTransactionFailed status = true ↔
      status = "failed" ∨ status = "abort_by_response" ∨
        status = "abort_by_post_condition") ∧
    (∀ status : String, isFailedStatus status = true ↔
      status = "failed" ∨ status = "abort_by_response" ∨
        status = "abort_by_post_condition") ∧
    (∀ status : String, IsTransactionFailed status = isFailedStatus status) ∧
    (IsTransactionFailed "success" = false ∧ IsTransactionFailed "pending" = false ∧
      isFailedStatus "success" = false ∧ isFailedStatus "pending" = false) ∧
    (IsTransactionFailed "Failed" = false ∧ IsTransactionFailed "FAILED" = false ∧
      isFailedStatus "Failed" = false ∧ isFailedStatus "ABORT_BY_RESPONSE" = false) := by
  refine ⟨?_, ?_, ?_, by decide, by decide⟩
  · intro status
    simp [IsTransactionFailed]
  · intro status
    simp [isFailedStatus]
  · intro status
    rfl

/-- The lifecycle label of a transaction, by its confirmation flag and raw status. -/
theorem determinePaymentStatus_cases (tx : BlockchainTransaction) :
    (tx.IsConfirmed = true ∧ determinePaymentStatus tx = "confirmed") ∨
    (tx.IsConfirmed = false ∧
      (tx.Status = "failed" ∨ tx.Status = "abort_by_response" ∨
        tx.Status = "abort_by_post_condition") ∧
      determinePaymentStatus tx = "failed") ∨
    (tx.IsConfirmed = false ∧
      ¬ (tx.Status = "failed" ∨ tx.Status = "abort_by_response" ∨
        tx.Status = "abort_by_post_condition") ∧
      determinePaymentStatus tx = "pending") := by
  unfold determinePaymentStatus
  cases hc : tx.IsConfirmed with
  | true => exact Or.inl ⟨rfl, by simp⟩
  | false =>
    by_cases hf : tx.Status = "failed" ∨ tx.Status = "abort_by_response" ∨
        tx.Status = "abort_by_post_condition"
    · exact Or.inr (Or.inl ⟨rfl, hf, by simp [hf]⟩)
    · exact Or.inr (Or.inr ⟨rfl, hf, by simp [hf]⟩)

/-- C30: the lifecycle label. `determinePaymentStatus` returns one of `pending`, `confirmed`,
`failed` for every transaction; for a transaction produced by the normaliser it returns
`confirmed` iff the raw status is `success` and the block height is positive, `failed` iff the
raw status is one of the three terminal-failure strings, and `pending` in every other case,
`success` at block height 0 included. -/
theorem determinePaymentStatus_label :
    (∀ tx : BlockchainTransaction,
      determinePaymentStatus tx = "pending" ∨ determinePaymentStatus tx = "confirmed" ∨
        determinePaymentStatus tx = "failed") ∧
    (∀ (resp : TransactionResponse) (tokenType : TokenType) (tx : BlockchainTransaction),
      parseTransactionResponse resp tokenType = .ok tx →
      (determinePaymentStatus tx = "confirmed" ↔
        tx.Status = "success" ∧ tx.BlockHeight > 0) ∧
      (determinePaymentStatus tx = "failed" ↔
        tx.Status = "failed" ∨ tx.Status = "abort_by_response" ∨
          tx.Status = "abort_by_post_condition") ∧
      (determinePaymentStatus tx = "pending" ↔
        ¬ (tx.Status = "success" ∧ tx.BlockHeight > 0) ∧
        ¬ (tx.Status = "failed" ∨ tx.Status = "abort_by_response" ∨
          tx.Status = "abort_by_post_condition")) ∧
      (tx.Status = "success" → tx.BlockHeight = 0 → determinePaymentStatus tx = "pending")) := by
  have hcp : ("confirmed" : String) ≠ "pending" := by decide
  have hcf : ("confirmed" : String) ≠ "failed" := by decide
  have hfp : ("failed" : String) ≠ "pending" := by decide
  constructor
  · intro tx
    rcases determinePaymentStatus_cases tx with ⟨_, h⟩ | ⟨_, _, h⟩ | ⟨_, _, h⟩
    · exact Or.inr (Or.inl h)
    · exact Or.inr (Or.inr h)
    · exact Or.inl h
  · intro resp tokenType tx hparse
    obtain ⟨h1, h2, h3⟩ := parseTransactionResponse_status resp tokenType tx hparse
    have hconf : tx.IsConfirmed = true ↔ tx.Status = "success" ∧ tx.BlockHeight > 0 := by
      rw [h3, h1, h2]
      simp [IsTransactionConfirmed]
    have hsucc : ∀ s : String, (s = "failed" ∨ s = "abort_by_response" ∨
        s = "abort_by_post_condition") → s ≠ "success" := by
      intro s hs
      rcases hs with h | h | h <;> rw [h] <;> decide
    have hiff1 : determinePaymentStatus tx = "confirmed" ↔
        tx.Status = "success" ∧ tx.BlockHeight > 0 := by
      rw [← hconf]
      rcases determinePaymentStatus_cases tx with ⟨hc, h⟩ | ⟨hc, _, h⟩ | ⟨hc, _, h⟩
      · simp [hc, h]
      · rw [h, hc]
        constructor
        · intro e
          exact absurd e.symm hcf
        · intro e
          cases e
      · rw [h, hc]
        constructor
        · intro e
          exact absurd e.symm hcp
        · intro e
          cases e
    have hiff2 : determinePaymentStatus tx = "failed" ↔
        (tx.Status = "failed" ∨ tx.Status = "abort_by_response" ∨
          tx.Status = "abort_by_post_condition") := by
      rcases determinePaymentStatus_cases tx with ⟨hc, h⟩ | ⟨hc, hf, h⟩ | ⟨hc, hf, h⟩
      · rw [h]
        constructor
        · intro e
          exact absurd e hcf
        · intro hf
          exact absurd (hconf.mp hc).1 (hsucc _ hf)
      · rw [h]
        exact ⟨fun _ => hf, fun _ => rfl⟩
      · rw [h]
        constructor
        · intro e
          exact absurd e.symm hfp
        · intro hf2
          exact absurd hf2 hf
    have hiff3 : determinePaymentStatus tx = "pending" ↔
        ¬ (tx.Status = "success" ∧ tx.BlockHeight > 0) ∧
        ¬ (tx.Status = "failed" ∨ tx.Status = "abort_by_response" ∨
          tx.Status = "abort_by_post_condition") := by
      rw [← hiff1, ← hiff2]
      rcases determinePaymentStatus_cases tx with ⟨_, h⟩ | ⟨_, _, h⟩ | ⟨_, _, h⟩
      · rw [h]
        constructor
        · intro e
          exact absurd e hcp
        · rintro ⟨e, _⟩
          exact absurd rfl e
      · rw [h]
        constructor
        · intro e
          exact absurd e hfp
        · rintro ⟨_, e⟩
          exact absurd rfl e
      · rw [h]
        constructor
        · intro _
          exact ⟨fun e => hcp e.symm, fun e => hfp e.symm⟩
        · intro _
          rfl
    refine ⟨hiff1, hiff2, hiff3, ?_⟩
    intro hs hh
    rw [hiff3]
    constructor
    · rintro ⟨_, hpos⟩
      omega
    · intro hf
      exact hsucc _ hf hs

/-- C30, on the payloads of the three client tests: `success` at height 12345 is `confirmed`,
`pending` at height 0 is `pending`, `abort_by_response` at height 12345 is `failed`; and
`success` at height 0 is `pending`. -/
theorem determinePaymentStatus_label_witness :
    (∃ tx, parseTransactionResponse stxTransferResponse TokenSTX = .ok tx ∧
      determinePaymentStatus tx = "confirmed") ∧
    (∃ tx, parseTransactionResponse pendingResponse TokenSTX = .ok tx ∧
      determinePaymentStatus tx = "pending") ∧
    (∃ tx, parseTransactionResponse failedResponse TokenSTX = .ok tx ∧
      determinePaymentStatus tx = "failed") ∧
    (∃ tx, parseTransactionResponse { stxTransferResponse with BlockHeight := 0 } TokenSTX
        = .ok tx ∧
      determinePaymentStatus tx = "pending") :=
  ⟨⟨_, rfl, ((determinePaymentStatus_label.2 stxTransferResponse TokenSTX _ rfl).1).mpr
      ⟨rfl, by decide⟩⟩,
   ⟨_, rfl, ((determinePaymentStatus_label.2 pendingResponse TokenSTX _ rfl).2.2.1).mpr
      ⟨by decide, by decide⟩⟩,
   ⟨_, rfl, ((determinePaymentStatus_label.2 failedResponse TokenSTX _ rfl).2.1).mpr
      (Or.inr (Or.inl rfl))⟩,
   ⟨_, rfl, (determinePaymentStatus_label.2 { stxTransferResponse with BlockHeight := 0 }
      TokenSTX _ rfl).2.2.2 rfl rfl⟩⟩

/-! ## Transaction identifiers -/

/-- A hexadecimal digit is one byte of UTF-8. -/
theorem hex.utf8Size_of_isSome (c : Char) (h : (hex.fromHexChar c).isSome = true) :
    c.utf8Size = 1 := by
  have hc : c.toNat ≤ 102 := by
    unfold hex.fromHexChar at h
    by_contra hcon
    simp only [] at h
    split at h
    · omega
    · split at h
      · omega
      · split at h
        · omega
        · simp at h
  have hv : c.val.toNat ≤ 102 := hc
  unfold Char.utf8Size
  have : c.val ≤ 127 := by
    rw [UInt32.le_def]
    show c.val.toNat ≤ 127
    omega
  simp [this]

/-- Hexadecimal digits take as many bytes as there are characters. -/
theorem hex.utf8Len_of_isSome (l : List Char)
    (h : ∀ c ∈ l, (hex.fromHexChar c).isSome = true) : String.utf8Len l = l.length := by
  induction l with
  | nil => rfl
  | cons c rest ih =>
    rw [String.utf8Len_cons, ih (fun d hd => h d (List.mem_cons_of_mem c hd)),
      hex.utf8Size_of_isSome c (h c (List.mem_cons_self c rest)), List.length_cons]

/-- The decoder accepts exactly the even-length lists of hexadecimal digits. -/
theorem hex.Decode_ok_iff (n : Nat) : ∀ l : List Char, l.length ≤ n →
    ((∃ b, hex.Decode l = .ok b) ↔
      (l.length % 2 = 0 ∧ ∀ c ∈ l, (hex.fromHexChar c).isSome = true)) := by
  induction n with
  | zero =>
    intro l hl
    have : l = [] := List.eq_nil_of_length_eq_zero (by omega)
    subst this
    simp [hex.Decode]
  | succ n ih =>
    intro l hl
    match l, hl with
    | [], _ => simp [hex.Decode]
    | [p], _ =>
      cases hp : hex.fromHexChar p <;> simp [hex.Decode, hp]
    | p :: q :: rest, hl =>
      have hr := ih rest (by simp only [List.length_cons] at hl; omega)
      cases hp : hex.fromHexChar p with
      | none => simp [hex.Decode, hp]
      | some a =>
        cases hq : hex.fromHexChar q with
        | none => simp [hex.Decode, hp, hq]
        | some b =>
          cases hd : hex.Decode rest with
          | error e =>
            have hno : ¬ (rest.length % 2 = 0 ∧
                ∀ c ∈ rest, (hex.fromHexChar c).isSome = true) := by
              rw [← hr, hd]; simp
            simp only [hex.Decode, hp, hq, hd, List.length_cons, List.mem_cons]
            constructor
            · rintro ⟨_, h⟩; cases h
            · rintro ⟨h1, h2⟩
              exact absurd ⟨by omega, fun c hc => h2 c (Or.inr (Or.inr hc))⟩ hno
          | ok bytes =>
            have hyes : rest.length % 2 = 0 ∧
                ∀ c ∈ rest, (hex.fromHexChar c).isSome = true := by
              rw [← hr, hd]; exact ⟨bytes, rfl⟩
            simp only [hex.Decode, hp, hq, hd, List.length_cons, List.mem_cons]
            constructor
            · intro _
              refine ⟨by omega, ?_⟩
              rintro c (rfl | rfl | hc)
              · simp [hp]
              · simp [hq]
              · exact hyes.2 c hc
            · intro _; exact ⟨_, rfl⟩

/-- A string has the prefix `0x` exactly when its first two characters are `0` and `x`. -/
theorem HasPrefix_0x_iff (s : String) :
    strings.HasPrefix s "0x" = true ↔ ∃ rest, s.data = '0' :: 'x' :: rest := by
  unfold strings.HasPrefix
  show List.isPrefixOf ['0', 'x'] s.data = true ↔ _
  match h : s.data with
  | [] => simp
  | [a] => simp
  | a :: b :: rest =>
    simp only [List.isPrefixOf, Bool.and_true, Bool.and_eq_true, beq_iff_eq, List.cons.injEq,
      exists_eq', and_true]
    constructor
    · rintro ⟨h1, h2⟩; exact ⟨rest, h1.symm, h2.symm, rfl⟩
    · rintro ⟨r, h1, h2, _⟩; exact ⟨h1.symm, h2.symm⟩

/-- The normalised identifier always starts with `0x`. -/
theorem normalized_data (s : String) :
    ∃ rest, (NewTransactionID.normalized s).data = '0' :: 'x' :: rest := by
  unfold NewTransactionID.normalized
  cases hp : strings.HasPrefix s "0x"
  · exact ⟨s.data, rfl⟩
  · exact (HasPrefix_0x_iff s).1 hp

/-- The normalised identifier of a string that starts with `0x` is the string itself. -/
theorem normalized_of_prefix (s : String) (h : strings.HasPrefix s "0x" = true) :
    NewTransactionID.normalized s = s := by
  unfold NewTransactionID.normalized
  rw [h]
  rfl

/-- The normalised identifier of a string that does not start with `0x`. -/
theorem normalized_of_no_prefix (s : String) (h : strings.HasPrefix s "0x" = false) :
    NewTransactionID.normalized s = "0x" ++ s := by
  unfold NewTransactionID.normalized
  rw [h]
  rfl

/-- The results of `NewTransactionID`: success, with the normalised identifier as value, exactly
for a non-empty input whose normalised form has 66 bytes, all after the prefix hexadecimal
digits. -/
theorem NewTransactionID_eq_ok_iff (s : String) (t : TransactionID) :
    NewTransactionID s = .ok t ↔
      s ≠ "" ∧ len (NewTransactionID.normalized s) = 66 ∧
      (∀ c ∈ (NewTransactionID.normalized s).data.drop 2,
        (hex.fromHexChar c).isSome = true) ∧
      t = { value := NewTransactionID.normalized s } := by
  obtain ⟨rest, hrest⟩ := normalized_data s
  have hdef : NewTransactionID s =
      if s = "" then .error (GoError.new "transaction ID cannot be empty")
      else if len (NewTransactionID.normalized s) ≠ 66 then
        .error (GoError.new "invalid transaction ID length: expected 66 characters")
      else
        match hex.DecodeString (String.mk ((NewTransactionID.normalized s).data.drop 2)) with
        | .error _ => .error (GoError.new "invalid hex characters in transaction ID")
        | .ok _ => .ok { value := NewTransactionID.normalized s } := rfl
  rw [hdef]
  generalize NewTransactionID.normalized s = s' at hrest ⊢
  by_cases h0 : s = ""
  · simp [h0]
  by_cases hl : len s' = 66
  · have hbytes : String.utf8Len rest = 64 := by
      have : String.utf8Len s'.data = 66 := hl
      rw [hrest] at this
      simp only [String.utf8Len_cons] at this
      have h1 : Char.utf8Size '0' = 1 := by decide
      have h2 : Char.utf8Size 'x' = 1 := by decide
      omega
    have hdec := hex.Decode_ok_iff rest.length rest (le_refl _)
    simp only [if_neg h0, hl, ne_eq, not_true_eq_false, if_false, hex.DecodeString, hrest,
      List.drop_succ_cons, List.drop_zero, not_false_eq_true, true_and]
    cases hd : hex.Decode rest with
    | error e =>
      have hno : ¬ (rest.length % 2 = 0 ∧
          ∀ c ∈ rest, (hex.fromHexChar c).isSome = true) := by
        rw [← hdec, hd]; simp
      constructor
      · intro h; cases h
      · rintro ⟨_, hall, _⟩
        refine absurd ⟨?_, hall⟩ hno
        rw [← hex.utf8Len_of_isSome rest hall, hbytes]
    | ok b =>
      have hyes : rest.length % 2 = 0 ∧
          ∀ c ∈ rest, (hex.fromHexChar c).isSome = true := by
        rw [← hdec, hd]; exact ⟨b, rfl⟩
      constructor
      · intro h
        injection h with h
        exact ⟨h0, hyes.2, h.symm⟩
      · rintro ⟨_, _, h⟩; rw [h]
  · simp [h0, hl]

/-- The three failures of `NewTransactionID`, in the order of its checks. -/
theorem NewTransactionID_error_cases (s : String) :
    (s = "" → NewTransactionID s = .error (GoError.new "transaction ID cannot be empty")) ∧
    (s ≠ "" → len (NewTransactionID.normalized s) ≠ 66 →
      NewTransactionID s =
        .error (GoError.new "invalid transaction ID length: expected 66 characters")) ∧
    (s ≠ "" → len (NewTransactionID.normalized s) = 66 →
      (∀ t, NewTransactionID s ≠ .ok t) →
      NewTransactionID s = .error (GoError.new "invalid hex characters in transaction ID")) := by
  have hdef : NewTransactionID s =
      if s = "" then .error (GoError.new "transaction ID cannot be empty")
      else if len (NewTransactionID.normalized s) ≠ 66 then
        .error (GoError.new "invalid transaction ID length: expected 66 characters")
      else
        match hex.DecodeString (String.mk ((NewTransactionID.normalized s).data.drop 2)) with
        | .error _ => .error (GoError.new "invalid hex characters in transaction ID")
        | .ok _ => .ok { value := NewTransactionID.normalized s } := rfl
  refine ⟨?_, ?_, ?_⟩
  · intro h0
    rw [hdef, if_pos h0]
  · intro h0 hl
    rw [hdef, if_neg h0, if_pos hl]
  · intro h0 hl hno
    rw [hdef, if_neg h0, if_neg (by simp [hl])] at hno ⊢
    cases hd : hex.DecodeString (String.mk ((NewTransactionID.normalized s).data.drop 2)) with
    | error e => rfl
    | ok b =>
      rw [hd] at hno
      exact absurd rfl (hno _)

/-- Every character takes at least one byte. -/
theorem length_le_utf8Len (l : List Char) : l.length ≤ String.utf8Len l := by
  induction l with
  | nil => exact Nat.le_refl _
  | cons c rest ih =>
    rw [String.utf8Len_cons, List.length_cons]
    have := Char.utf8Size_pos c
    omega

/-- In a string of 66 bytes that starts with `0x`, the last 64 characters are hexadecimal
digits exactly when all characters after the prefix are. -/
theorem last64_iff (s' : String) (rest : List Char) (hrest : s'.data = '0' :: 'x' :: rest)
    (hl : len s' = 66) :
    (∀ c ∈ s'.data.drop (s'.data.length - 64), (hex.fromHexChar c).isSome = true) ↔
      (∀ c ∈ s'.data.drop 2, (hex.fromHexChar c).isSome = true) := by
  have hbytes : String.utf8Len rest = 64 := by
    have : String.utf8Len s'.data = 66 := hl
    rw [hrest] at this
    simp only [String.utf8Len_cons] at this
    have h1 : Char.utf8Size '0' = 1 := by decide
    have h2 : Char.utf8Size 'x' = 1 := by decide
    omega
  have hle := length_le_utf8Len rest
  have hlen : s'.data.length = rest.length + 2 := by rw [hrest]; rfl
  constructor
  · intro h c hc
    apply h c
    have hj : s'.data.length - 64 ≤ 2 := by omega
    have hdd : s'.data.drop 2 =
        (s'.data.drop (s'.data.length - 64)).drop (2 - (s'.data.length - 64)) := by
      rw [List.drop_drop]
      congr 1
      omega
    rw [hdd] at hc
    exact List.mem_of_mem_drop hc
  · intro h c hc
    have hall : ∀ c ∈ rest, (hex.fromHexChar c).isSome = true := by
      intro d hd
      apply h d
      rw [hrest]
      exact hd
    have h64 : rest.length = 64 := by rw [← hex.utf8Len_of_isSome rest hall, hbytes]
    have : s'.data.length - 64 = 2 := by omega
    rw [this] at hc
    exact h c hc

/-- An accepted identifier, without its prefix, is accepted again with the same result. -/
theorem NewTransactionID_of_trimmed (s : String) (t : TransactionID)
    (h : NewTransactionID s = .ok t) :
    NewTransactionID (strings.TrimPrefix t.value "0x") = .ok t ∧
    NewTransactionID ("0x" ++ strings.TrimPrefix t.value "0x") = .ok t ∧
    NewTransactionID t.value = .ok t ∧
    strings.TrimPrefix t.value "0x" = strings.TrimPrefix s "0x" := by
  obtain ⟨h0, hl, hall, ht⟩ := (NewTransactionID_eq_ok_iff s t).1 h
  obtain ⟨rest, hrest⟩ := normalized_data s
  have hv : t.value = NewTransactionID.normalized s := by rw [ht]
  have hpre : strings.HasPrefix t.value "0x" = true :=
    (HasPrefix_0x_iff t.value).2 ⟨rest, by rw [hv, hrest]⟩
  have htrim : strings.TrimPrefix t.value "0x" = String.mk rest := by
    unfold strings.TrimPrefix
    rw [if_pos hpre, hv, hrest]
    rfl
  have hallr : ∀ c ∈ rest, (hex.fromHexChar c).isSome = true := by
    intro c hc
    apply hall c
    rw [hrest]
    exact hc
  have hx : (hex.fromHexChar 'x').isSome = false := by decide
  have hnopre : strings.HasPrefix (String.mk rest) "0x" = false := by
    cases hp : strings.HasPrefix (String.mk rest) "0x" with
    | false => rfl
    | true =>
      obtain ⟨r2, hr2⟩ := (HasPrefix_0x_iff _).1 hp
      have hr3 : rest = '0' :: 'x' :: r2 := hr2
      have := hallr 'x' (by rw [hr3]; simp)
      rw [hx] at this
      cases this
  have hfull : "0x" ++ String.mk rest = t.value := by
    apply String.ext
    rw [hv, hrest]
    rfl
  have hself : NewTransactionID t.value = .ok t := by
    rw [NewTransactionID_eq_ok_iff, normalized_of_prefix t.value hpre]
    refine ⟨?_, ?_, ?_, rfl⟩
    · intro hem
      rw [hem] at hpre
      cases hpre
    · rw [hv]; exact hl
    · rw [hv]; exact hall
  refine ⟨?_, ?_, hself, ?_⟩
  · rw [htrim, NewTransactionID_eq_ok_iff, normalized_of_no_prefix _ hnopre, hfull]
    refine ⟨?_, ?_, ?_, rfl⟩
    · intro hem
      have h64 : rest.length = 64 := by
        have := hex.utf8Len_of_isSome rest hallr
        have hb : String.utf8Len (NewTransactionID.normalized s).data = 66 := hl
        rw [hrest] at hb
        simp only [String.utf8Len_cons] at hb
        have h1 : Char.utf8Size '0' = 1 := by decide
        have h2 : Char.utf8Size 'x' = 1 := by decide
        omega
      have : rest = [] := congrArg String.data hem
      rw [this] at h64
      cases h64
    · rw [hv]; exact hl
    · rw [hv]; exact hall
  · rw [htrim, hfull]; exact hself
  · rw [hv]
    unfold NewTransactionID.normalized
    cases hp : strings.HasPrefix s "0x" with
    | true => rfl
    | false =>
      simp only [Bool.not_false, if_true]
      unfold strings.TrimPrefix
      have hp2 : strings.HasPrefix ("0x" ++ s) "0x" = true :=
        (HasPrefix_0x_iff _).2 ⟨s.data, rfl⟩
      rw [if_pos hp2, hp]
      rfl

/-- C31: `NewTransactionID` accepts `s` exactly when `s` is non-empty and its normalised form
(`s` itself when it starts with `0x`, else `0x` followed by `s`) has length 66 with its last 64
characters all hexadecimal digits. On success `String()` is the normalised form, which starts
with `0x` and has 66 bytes and 66 characters; parsing it again returns the same identifier; and
the identifier with and without the prefix parses to identifiers that `Equals` holds equal.
The empty string fails with the emptiness error, a wrong length with the length error, and a
non-hexadecimal character in a string of the right length with the hexadecimal error. -/
theorem NewTransactionID_canonical_form (s : String) :
    ((∃ t, NewTransactionID s = .ok t) ↔
      s ≠ "" ∧ len (NewTransactionID.normalized s) = 66 ∧
      ∀ c ∈ (NewTransactionID.normalized s).data.drop
          ((NewTransactionID.normalized s).data.length - 64),
        (hex.fromHexChar c).isSome = true) ∧
    NewTransactionID.normalized s =
      (if strings.HasPrefix s "0x" = true then s else "0x" ++ s) ∧
    (∀ t, NewTransactionID s = .ok t →
      t.String = NewTransactionID.normalized s ∧
      strings.HasPrefix t.String "0x" = true ∧ len t.String = 66 ∧
      t.String.data.length = 66 ∧
      NewTransactionID t.String = .ok t ∧
      (∃ u v, NewTransactionID (strings.TrimPrefix s "0x") = .ok u ∧
        NewTransactionID ("0x" ++ strings.TrimPrefix s "0x") = .ok v ∧
        u.Equals v = true ∧ u.Equals t = true)) ∧
    (s = "" → NewTransactionID s = .error (GoError.new "transaction ID cannot be empty")) ∧
    (s ≠ "" → len (NewTransactionID.normalized s) ≠ 66 →
      NewTransactionID s =
        .error (GoError.new "invalid transaction ID length: expected 66 characters")) ∧
    (s ≠ "" → len (NewTransactionID.normalized s) = 66 →
      (∃ c ∈ (NewTransactionID.normalized s).data.drop
          ((NewTransactionID.normalized s).data.length - 64),
        hex.fromHexChar c = none) →
      NewTransactionID s =
        .error (GoError.new "invalid hex characters in transaction ID")) := by
  obtain ⟨rest, hrest⟩ := normalized_data s
  have herr := NewTransactionID_error_cases s
  refine ⟨?_, ?_, ?_, herr.1, herr.2.1, ?_⟩
  · constructor
    · rintro ⟨t, ht⟩
      obtain ⟨h0, hl, hall, _⟩ := (NewTransactionID_eq_ok_iff s t).1 ht
      exact ⟨h0, hl, (last64_iff _ rest hrest hl).2 hall⟩
    · rintro ⟨h0, hl, hall⟩
      exact ⟨_, (NewTransactionID_eq_ok_iff s _).2
        ⟨h0, hl, (last64_iff _ rest hrest hl).1 hall, rfl⟩⟩
  · unfold NewTransactionID.normalized
    cases strings.HasPrefix s "0x" <;> rfl
  · intro t ht
    obtain ⟨h0, hl, hall, hteq⟩ := (NewTransactionID_eq_ok_iff s t).1 ht
    have hv : t.value = NewTransactionID.normalized s := by rw [hteq]
    obtain ⟨h1, h2, h3, h4⟩ := NewTransactionID_of_trimmed s t ht
    have hallr : ∀ c ∈ rest, (hex.fromHexChar c).isSome = true := by
      intro c hc
      apply hall c
      rw [hrest]
      exact hc
    have hb : String.utf8Len (NewTransactionID.normalized s).data = 66 := hl
    rw [hrest] at hb
    simp only [String.utf8Len_cons, hex.utf8Len_of_isSome rest hallr] at hb
    refine ⟨hv, ?_, ?_, ?_, h3, t, t, ?_, ?_, ?_, ?_⟩
    · exact (HasPrefix_0x_iff _).2 ⟨rest, by rw [← hrest, ← hv]; rfl⟩
    · show len t.value = 66
      rw [hv]; exact hl
    · show t.value.data.length = 66
      rw [hv, hrest]
      simp only [List.length_cons]
      have h1 : Char.utf8Size '0' = 1 := by decide
      have h2 : Char.utf8Size 'x' = 1 := by decide
      omega
    · rw [← h4]; exact h1
    · rw [← h4]; exact h2
    · simp [TransactionID.Equals]
    · simp [TransactionID.Equals]
  · intro h0 hl hbad
    apply herr.2.2 h0 hl
    intro t ht
    obtain ⟨_, _, hall, _⟩ := (NewTransactionID_eq_ok_iff s t).1 ht
    obtain ⟨c, hc, hnone⟩ := hbad
    have := (last64_iff _ rest hrest hl).2 hall c hc
    rw [hnone] at this
    cases this

/-- C31 on the identifiers of the tests: the identifier without its prefix is accepted in the
canonical form, and the one with `GGGG` in it fails with the hexadecimal error. -/
theorem NewTransactionID_canonical_form_witness :
    (NewTransactionID txIDWithoutPrefix = .ok { value := validTxID } ∧
      NewTransactionID validTxID = .ok { value := validTxID }) ∧
    NewTransactionID invalidHex =
      .error (GoError.new "invalid hex characters in transaction ID") :=
  ⟨⟨rfl, ((NewTransactionID_canonical_form txIDWithoutPrefix).2.2.1
      { value := validTxID } rfl).2.2.2.2.1⟩,
    (NewTransactionID_canonical_form invalidHex).2.2.2.2.2 (by decide) (by decide)
      ⟨'G', by decide, rfl⟩⟩

/-! ## Addresses -/

/-- A string has a prefix of two characters exactly when these are its first two. -/
theorem HasPrefix_two_iff (s : String) (a b : Char) :
    strings.HasPrefix s (String.mk [a, b]) = true ↔ ∃ rest, s.data = a :: b :: rest := by
  unfold strings.HasPrefix
  show List.isPrefixOf [a, b] s.data = true ↔ _
  match h : s.data with
  | [] => simp
  | [c] => simp
  | c :: d :: rest =>
    simp only [List.isPrefixOf, Bool.and_true, Bool.and_eq_true, beq_iff_eq, List.cons.injEq,
      exists_eq', and_true]
    constructor
    · rintro ⟨h1, h2⟩; exact ⟨rest, h1.symm, h2.symm, rfl⟩
    · rintro ⟨r, h1, h2, _⟩; exact ⟨h1.symm, h2.symm⟩

/-- A testnet prefix and a mainnet prefix exclude each other: exactly one of `IsTestnet` and
`IsMainnet` holds of a value with one of the four prefixes. -/
theorem IsTestnet_xor_IsMainnet (a : StacksAddress)
    (hp : strings.HasPrefix a.value "ST" = true ∨ strings.HasPrefix a.value "SP" = true ∨
      strings.HasPrefix a.value "SM" = true ∨ strings.HasPrefix a.value "SN" = true) :
    (a.IsTestnet = true ∧ a.IsMainnet = false) ∨
    (a.IsTestnet = false ∧ a.IsMainnet = true) := by
  have hST := HasPrefix_two_iff a.value 'S' 'T'
  have hSP := HasPrefix_two_iff a.value 'S' 'P'
  have hSM := HasPrefix_two_iff a.value 'S' 'M'
  have hSN := HasPrefix_two_iff a.value 'S' 'N'
  change strings.HasPrefix a.value "ST" = true ↔ _ at hST
  change strings.HasPrefix a.value "SP" = true ↔ _ at hSP
  change strings.HasPrefix a.value "SM" = true ↔ _ at hSM
  change strings.HasPrefix a.value "SN" = true ↔ _ at hSN
  unfold StacksAddress.IsTestnet StacksAddress.IsMainnet
  have hTP : 'T' ≠ 'P' := by decide
  have hTM : 'T' ≠ 'M' := by decide
  have hNP : 'N' ≠ 'P' := by decide
  have hNM : 'N' ≠ 'M' := by decide
  have excl : ∀ x y : Char, x ≠ y → (∃ rest, a.value.data = 'S' :: x :: rest) →
      ¬ ∃ rest, a.value.data = 'S' :: y :: rest := by
    rintro x y hxy ⟨r1, h1⟩ ⟨r2, h2⟩
    rw [h1] at h2
    injection h2 with _ h2
    injection h2 with h2 _
    exact hxy h2
  rcases hp with h | h | h | h
  · have n1 : strings.HasPrefix a.value "SP" = false := by
      rw [← Bool.not_eq_true, hSP]; exact excl _ _ hTP (hST.1 h)
    have n2 : strings.HasPrefix a.value "SM" = false := by
      rw [← Bool.not_eq_true, hSM]; exact excl _ _ hTM (hST.1 h)
    left; simp [h, n1, n2]
  · have n1 : strings.HasPrefix a.value "ST" = false := by
      rw [← Bool.not_eq_true, hST]; exact excl _ _ hTP.symm (hSP.1 h)
    have n2 : strings.HasPrefix a.value "SN" = false := by
      rw [← Bool.not_eq_true, hSN]; exact excl _ _ hNP.symm (hSP.1 h)
    right; simp [h, n1, n2]
  · have n1 : strings.HasPrefix a.value "ST" = false := by
      rw [← Bool.not_eq_true, hST]; exact excl _ _ hTM.symm (hSM.1 h)
    have n2 : strings.HasPrefix a.value "SN" = false := by
      rw [← Bool.not_eq_true, hSN]; exact excl _ _ hNM.symm (hSM.1 h)
    right; simp [h, n1, n2]
  · have n1 : strings.HasPrefix a.value "SP" = false := by
      rw [← Bool.not_eq_true, hSP]; exact excl _ _ hNP (hSN.1 h)
    have n2 : strings.HasPrefix a.value "SM" = false := by
      rw [← Bool.not_eq_true, hSM]; exact excl _ _ hNM (hSN.1 h)
    left; simp [h, n1, n2]

/-- C32: `NewStacksAddress` accepts `s` exactly when `s` starts with `ST`, `SP`, `SM` or `SN`
and has between 30 and 50 bytes. On success `String()` returns `s`, `IsZero()` is false and
exactly one of `IsTestnet` and `IsMainnet` holds. The empty string fails with the emptiness
error, a non-empty string with none of the prefixes with the prefix error whatever its length,
and a string with one of the prefixes and a length outside the range with the length error. -/
theorem NewStacksAddress_accepts (s : String) :
    ((∃ a, NewStacksAddress s = .ok a) ↔
      (strings.HasPrefix s "ST" = true ∨ strings.HasPrefix s "SP" = true ∨
        strings.HasPrefix s "SM" = true ∨ strings.HasPrefix s "SN" = true) ∧
      30 ≤ len s ∧ len s ≤ 50) ∧
    (∀ a, NewStacksAddress s = .ok a →
      a.String = s ∧ a.IsZero = false ∧
      ((a.IsTestnet = true ∧ a.IsMainnet = false) ∨
        (a.IsTestnet = false ∧ a.IsMainnet = true))) ∧
    (s = "" → NewStacksAddress s = .error (GoError.new "address cannot be empty")) ∧
    (s ≠ "" → strings.HasPrefix s "ST" = false → strings.HasPrefix s "SP" = false →
      strings.HasPrefix s "SM" = false → strings.HasPrefix s "SN" = false →
      NewStacksAddress s = .error
        (GoError.new "invalid Stacks address prefix: must start with ST, SP, SM, or SN")) ∧
    ((strings.HasPrefix s "ST" = true ∨ strings.HasPrefix s "SP" = true ∨
        strings.HasPrefix s "SM" = true ∨ strings.HasPrefix s "SN" = true) →
      (len s < 30 ∨ 50 < len s) →
      NewStacksAddress s = .error (GoError.new "invalid Stacks address length")) := by
  have hne : (strings.HasPrefix s "ST" = true ∨ strings.HasPrefix s "SP" = true ∨
      strings.HasPrefix s "SM" = true ∨ strings.HasPrefix s "SN" = true) → s ≠ "" := by
    intro hp h0
    rw [h0] at hp
    rcases hp with h | h | h | h <;> cases h
  refine ⟨?_, ?_, ?_, ?_, ?_⟩
  · constructor
    · rintro ⟨a, ha⟩
      obtain ⟨_, _, hp, h1, h2⟩ := (NewStacksAddress_ok_iff s a).1 ha
      exact ⟨hp, h1, h2⟩
    · rintro ⟨hp, h1, h2⟩
      exact ⟨{ value := s }, (NewStacksAddress_ok_iff s _).2 ⟨rfl, hne hp, hp, h1, h2⟩⟩
  · intro a ha
    obtain ⟨hv, h0, hp, _, _⟩ := (NewStacksAddress_ok_iff s a).1 ha
    refine ⟨hv, ?_, IsTestnet_xor_IsMainnet a (by rw [hv]; exact hp)⟩
    unfold StacksAddress.IsZero
    rw [hv]
    exact decide_eq_false h0
  · intro h0
    unfold NewStacksAddress
    rw [if_pos h0]
  · intro h0 p1 p2 p3 p4
    unfold NewStacksAddress
    rw [if_neg h0, p1, p2, p3, p4]
    rfl
  · intro hp hl
    have h0 := hne hp
    unfold NewStacksAddress
    rw [if_neg h0]
    have hnp : ¬ ((!strings.HasPrefix s "ST" && !strings.HasPrefix s "SP" &&
        !strings.HasPrefix s "SM" && !strings.HasPrefix s "SN") = true) := by
      rcases hp with h | h | h | h <;> simp [h]
    rw [if_neg hnp, if_pos (by omega)]

/-- C32 on the addresses of the tests: the testnet address is accepted as it is and is a
testnet address only, `BT…` fails on its prefix and `ST1234` on its length. -/
theorem NewStacksAddress_accepts_witness :
    ((StacksAddress.mk validTestnetAddr).String = validTestnetAddr ∧
      (StacksAddress.mk validTestnetAddr).IsZero = false ∧
      (((StacksAddress.mk validTestnetAddr).IsTestnet = true ∧
          (StacksAddress.mk validTestnetAddr).IsMainnet = false) ∨
        ((StacksAddress.mk validTestnetAddr).IsTestnet = false ∧
          (StacksAddress.mk validTestnetAddr).IsMainnet = true))) ∧
    NewStacksAddress "BT1PQHQKV0RJXZFY1DGX8MNSNYVE3VGZJSRTPGZGM" = .error
      (GoError.new "invalid Stacks address prefix: must start with ST, SP, SM, or SN") ∧
    NewStacksAddress "ST1234" = .error (GoError.new "invalid Stacks address length") :=
  ⟨(NewStacksAddress_accepts validTestnetAddr).2.1 { value := validTestnetAddr } rfl,
    (NewStacksAddress_accepts "BT1PQHQKV0RJXZFY1DGX8MNSNYVE3VGZJSRTPGZGM").2.2.2.1
      (by decide) rfl rfl rfl rfl,
    (NewStacksAddress_accepts "ST1234").2.2.2.2 (Or.inl rfl) (Or.inl (by decide))⟩

/-! ## The terminal test and the lifecycle label -/

/-- The failure test of the poller holds exactly for the three failure statuses. -/
theorem IsTransactionFailed_iff (status : String) :
    IsTransactionFailed status = true ↔
      status = "failed" ∨ status = "abort_by_response" ∨
        status = "abort_by_post_condition" := by
  simp [IsTransactionFailed]

/-- C33: the poller and the display never diverge. For every transaction, the terminal test of
the poller (`tx.IsConfirmed || IsTransactionFailed(tx.Status)`) holds exactly when
`determinePaymentStatus` returns a label other than `pending`. -/
theorem terminal_iff_label_not_pending (tx : BlockchainTransaction) :
    (tx.IsConfirmed || IsTransactionFailed tx.Status) = true ↔
      determinePaymentStatus tx ≠ "pending" := by
  rw [Bool.or_eq_true, IsTransactionFailed_iff]
  rcases determinePaymentStatus_cases tx with ⟨hc, hl⟩ | ⟨hc, hf, hl⟩ | ⟨hc, hf, hl⟩
  · rw [hl]
    exact ⟨fun _ => by decide, fun _ => Or.inl hc⟩
  · rw [hl]
    exact ⟨fun _ => by decide, fun _ => Or.inr hf⟩
  · rw [hl, hc]
    constructor
    · rintro (h | h)
      · cases h
      · exact absurd h hf
    · intro h
      exact absurd rfl h

/-! ## The two pollers side by side -/

/-- When every successful fetch returns a terminal transaction and one of the remaining
attempts ends the loop (its fetch succeeds, or the context is done at its wait), the loops of
the two pollers make the same calls and return the same outcome. -/
theorem pollerLoops_agree (env : PollEnv)
    (hterm : ∀ i tx, env.fetch i = .ok tx →
      (tx.IsConfirmed || IsTransactionFailed tx.Status) = true) :
    ∀ (remaining : Nat) (lastErr : Option GoError) (n : PollCount),
      (∃ i, i < remaining ∧
        ((∃ tx, env.fetch (n.fetches + i) = .ok tx) ∨ env.done (n.waits + i) = true)) →
      (getTransactionWithRetryLoop env remaining lastErr n).2 =
        (waitForConfirmationLoop env remaining n).2 ∧
      ((∃ tx, (getTransactionWithRetryLoop env remaining lastErr n).1 = (tx, none) ∧
          (waitForConfirmationLoop env remaining n).1 = .ok tx) ∨
        (∃ e, (getTransactionWithRetryLoop env remaining lastErr n).1 =
            (zeroTransaction, some e) ∧
          (waitForConfirmationLoop env remaining n).1 = .error e)) := by
  intro remaining
  induction remaining with
  | zero =>
    rintro lastErr n ⟨i, hi, _⟩
    exact absurd hi (Nat.not_lt_zero i)
  | succ r ih =>
    rintro lastErr n ⟨i, hi, hev⟩
    rw [getTransactionWithRetryLoop, waitForConfirmationLoop]
    cases hf : env.fetch n.fetches with
    | ok tx =>
      have ht := hterm _ tx hf
      refine ⟨?_, Or.inl ⟨tx, rfl, ?_⟩⟩
      · simp only [ht, if_true]
      · simp only [ht, if_true]
    | error e =>
      cases hd : env.done n.waits with
      | true =>
        exact ⟨rfl, Or.inr ⟨env.ctxErr, rfl, rfl⟩⟩
      | false =>
        simp only [Bool.false_eq_true, if_false]
        apply ih (some e) { fetches := n.fetches + 1, waits := n.waits + 1 }
        cases i with
        | zero =>
          rw [Nat.add_zero, Nat.add_zero, hf, hd] at hev
          rcases hev with ⟨tx, h⟩ | h
          · cases h
          · cases h
        | succ j =>
          refine ⟨j, Nat.lt_of_succ_lt_succ hi, ?_⟩
          simp only
          rw [Nat.add_assoc, Nat.add_comm 1 j, Nat.add_assoc n.waits, Nat.add_comm 1 j]
          exact hev

/-- When each of the remaining attempts fails and none is cancelled, the loop of
`GetTransactionWithRetry` ends after them with the zero transaction, while the loop of
`WaitForConfirmation` makes one more fetch and returns its outcome. -/
theorem pollerLoops_exhausted (env : PollEnv) :
    ∀ (remaining : Nat) (lastErr : Option GoError) (n : PollCount),
      (∀ i, i < remaining →
        (∃ e, env.fetch (n.fetches + i) = .error e) ∧ env.done (n.waits + i) = false) →
      (getTransactionWithRetryLoop env remaining lastErr n).2 =
        { fetches := n.fetches + remaining, waits := n.waits + remaining } ∧
      (getTransactionWithRetryLoop env remaining lastErr n).1.1 = zeroTransaction ∧
      (remaining = 0 → (getTransactionWithRetryLoop env remaining lastErr n).1.2 = lastErr) ∧
      (∀ e, 1 ≤ remaining → env.fetch (n.fetches + (remaining - 1)) = .error e →
        (getTransactionWithRetryLoop env remaining lastErr n).1.2 = some e) ∧
      waitForConfirmationLoop env remaining n =
        (env.fetch (n.fetches + remaining),
          { fetches := n.fetches + remaining + 1, waits := n.waits + remaining }) := by
  intro remaining
  induction remaining with
  | zero =>
    intro lastErr n _
    rw [getTransactionWithRetryLoop, waitForConfirmationLoop]
    refine ⟨rfl, rfl, fun _ => rfl, ?_, rfl⟩
    intro e h1 _
    exact absurd h1 (by decide)
  | succ r ih =>
    intro lastErr n hall
    obtain ⟨⟨e0, he0⟩, hd0⟩ := hall 0 (Nat.succ_pos r)
    rw [Nat.add_zero] at he0 hd0
    obtain ⟨h1, h2, h3, h4, h5⟩ := ih (some e0)
      { fetches := n.fetches + 1, waits := n.waits + 1 }
      (by
        intro i hi
        have := hall (i + 1) (Nat.succ_lt_succ hi)
        simp only
        rw [Nat.add_assoc, Nat.add_comm 1 i, Nat.add_assoc n.waits, Nat.add_comm 1 i]
        exact this)
    simp only at h1 h2 h3 h4 h5
    have e1 : n.fetches + 1 + r = n.fetches + (r + 1) := by omega
    have e2 : n.waits + 1 + r = n.waits + (r + 1) := by omega
    rw [e1] at h1 h5
    rw [e2] at h1 h5
    rw [getTransactionWithRetryLoop, waitForConfirmationLoop, he0]
    simp only [hd0, Bool.false_eq_true, if_false]
    refine ⟨h1, h2, ?_, ?_, h5⟩
    · intro h
      cases h
    · intro e _ he
      cases r with
      | zero =>
        rw [Nat.add_zero] at he
        rw [he0] at he
        injection he with he
        rw [h3 rfl, he]
      | succ q =>
        apply h4 e (Nat.succ_pos q)
        have e3 : n.fetches + 1 + (q + 1 - 1) = n.fetches + (q + 1 + 1 - 1) := by omega
        rw [e3]
        exact he

/-- C34 as stated fails when the retry budget runs out. On a chain whose every fetch fails,
with a budget of 3, `GetTransactionWithRetry` makes 3 fetches and returns the error of the
third, while `WaitForConfirmation` makes 4 fetches and returns the error of the fourth; with a
budget of 0 the former makes no fetch and returns no error, the latter makes one fetch and
returns its error. -/
theorem pollers_differ_when_exhausted :
    (∀ i, ∃ e, alwaysFailing.fetch i = .error e) ∧
    (∀ w, alwaysFailing.done w = false) ∧
    GetTransactionWithRetry alwaysFailing 3 =
      ((zeroTransaction, some (GoError.new "transaction not found, attempt 2")),
        { fetches := 3, waits := 3 }) ∧
    WaitForConfirmation alwaysFailing 3 =
      (.error (GoError.new "transaction not found, attempt 3"),
        { fetches := 4, waits := 3 }) ∧
    GetTransactionWithRetry alwaysFailing 0 =
      ((zeroTransaction, none), { fetches := 0, waits := 0 }) ∧
    WaitForConfirmation alwaysFailing 0 =
      (.error (GoError.new "transaction not found, attempt 0"),
        { fetches := 1, waits := 0 }) :=
  ⟨fun _ => ⟨_, rfl⟩, fun _ => rfl, rfl, rfl, rfl, rfl⟩

/-- C34, amended: the two pollers share the loop but not its end. For every `maxRetries`,
every cancellation schedule and every fetch behaviour in which each fetch either fails or
returns a terminal transaction: when one of the first `maxRetries` attempts ends the loop (its
fetch succeeds, or the context is done at its wait), `GetTransactionWithRetry` and
`WaitForConfirmation` make the same calls and return the same outcome, the same transaction
or the same error; when all `maxRetries` attempts fail without cancellation, which is always
so for `maxRetries ≤ 0`, `GetTransactionWithRetry` returns the zero transaction with the last
error (no error for `maxRetries ≤ 0`) after `maxRetries` fetches, whereas `WaitForConfirmation`
makes one more fetch and returns its outcome. -/
theorem pollers_agree_unless_exhausted (env : PollEnv) (maxRetries : Int)
    (hterm : ∀ i tx, env.fetch i = .ok tx →
      (tx.IsConfirmed || IsTransactionFailed tx.Status) = true) :
    ((∃ i, i < maxRetries.toNat ∧ ((∃ tx, env.fetch i = .ok tx) ∨ env.done i = true)) →
      (GetTransactionWithRetry env maxRetries).2 = (WaitForConfirmation env maxRetries).2 ∧
      ((∃ tx, (GetTransactionWithRetry env maxRetries).1 = (tx, none) ∧
          (WaitForConfirmation env maxRetries).1 = .ok tx) ∨
        (∃ e, (GetTransactionWithRetry env maxRetries).1 = (zeroTransaction, some e) ∧
          (WaitForConfirmation env maxRetries).1 = .error e))) ∧
    ((∀ i, i < maxRetries.toNat → (∃ e, env.fetch i = .error e) ∧ env.done i = false) →
      (GetTransactionWithRetry env maxRetries).2 =
        { fetches := maxRetries.toNat, waits := maxRetries.toNat } ∧
      (GetTransactionWithRetry env maxRetries).1.1 = zeroTransaction ∧
      (maxRetries ≤ 0 → (GetTransactionWithRetry env maxRetries).1.2 = none) ∧
      (∀ e, 1 ≤ maxRetries → env.fetch (maxRetries.toNat - 1) = .error e →
        (GetTransactionWithRetry env maxRetries).1.2 = some e) ∧
      WaitForConfirmation env maxRetries =
        (env.fetch maxRetries.toNat,
          { fetches := maxRetries.toNat + 1, waits := maxRetries.toNat })) := by
  constructor
  · rintro ⟨i, hi, hev⟩
    exact pollerLoops_agree env hterm maxRetries.toNat none { fetches := 0, waits := 0 }
      ⟨i, hi, by simp only [Nat.zero_add]; exact hev⟩
  · intro hall
    obtain ⟨h1, h2, h3, h4, h5⟩ := pollerLoops_exhausted env maxRetries.toNat none
      { fetches := 0, waits := 0 }
      (by
        intro i hi
        simp only [Nat.zero_add]
        exact hall i hi)
    simp only [Nat.zero_add] at h1 h4 h5
    refine ⟨h1, h2, ?_, ?_, h5⟩
    · intro hle
      exact h3 (Int.toNat_eq_zero.2 hle)
    · intro e hge he
      exact h4 e (by omega) he

/-- C34, amended, on a chain whose third fetch is the first to succeed, with a confirmed
transaction, and a budget of 5: both pollers make 3 fetches and return that transaction; and
on a chain that always fails with a budget of 3: 3 fetches against 4. -/
theorem pollers_agree_unless_exhausted_witness :
    ((GetTransactionWithRetry confirmedAtThirdFetch 5).2 =
        (WaitForConfirmation confirmedAtThirdFetch 5).2 ∧
      ((∃ tx, (GetTransactionWithRetry confirmedAtThirdFetch 5).1 = (tx, none) ∧
          (WaitForConfirmation confirmedAtThirdFetch 5).1 = .ok tx) ∨
        (∃ e, (GetTransactionWithRetry confirmedAtThirdFetch 5).1 =
            (zeroTransaction, some e) ∧
          (WaitForConfirmation confirmedAtThirdFetch 5).1 = .error e))) ∧
    (GetTransactionWithRetry alwaysFailing 3).2 = { fetches := 3, waits := 3 } ∧
    WaitForConfirmation alwaysFailing 3 =
      (alwaysFailing.fetch 3, { fetches := 4, waits := 3 }) :=
  ⟨(pollers_agree_unless_exhausted confirmedAtThirdFetch 5
      (by
        intro i tx h
        by_cases hi : i < 2
        · simp [confirmedAtThirdFetch, hi] at h
        · simp only [confirmedAtThirdFetch, hi, if_false] at h
          injection h with h
          rw [← h]
          rfl)).1 ⟨2, by decide, Or.inl ⟨createTestTransaction, rfl⟩⟩,
    ((pollers_agree_unless_exhausted alwaysFailing 3
      (by
        intro i tx h
        cases h)).2 (fun _ _ => ⟨⟨_, rfl⟩, rfl⟩)).1,
    ((pollers_agree_unless_exhausted alwaysFailing 3
      (by
        intro i tx h
        cases h)).2 (fun _ _ => ⟨⟨_, rfl⟩, rfl⟩)).2.2.2.2⟩

/-! ## Lifecycle labels as raw statuses -/

/-- C35 as stated fails for the label `confirmed`. The payload of the direct transfer, with
status `success` at block height 12345, is normalised to a transaction with the label
`confirmed`; the same payload with the raw status `confirmed`, at the same block height, is
normalised to a transaction with the label `pending`. -/
theorem raw_status_confirmed_is_pending :
    ∃ tx tx2,
      parseTransactionResponse stxTransferResponse TokenSTX = .ok tx ∧
      determinePaymentStatus tx = "confirmed" ∧
      parseTransactionResponse statusConfirmedResponse TokenSTX = .ok tx2 ∧
      statusConfirmedResponse.TxStatus = determinePaymentStatus tx ∧
      statusConfirmedResponse.BlockHeight = stxTransferResponse.BlockHeight ∧
      determinePaymentStatus tx2 = "pending" ∧
      determinePaymentStatus tx2 ≠ determinePaymentStatus tx :=
  ⟨_, _, rfl, rfl, rfl, rfl, rfl, rfl, by decide⟩

/-- C35, amended: the labels `pending` and `failed` are reproduced when they are read as raw
statuses, the label `confirmed` is not. For every transaction `tx` produced by the normaliser
with label `L = determinePaymentStatus(tx)`, a transaction produced by the normaliser at the
same block height with the raw status `L` is classified `L` when `L` is `pending` or `failed`,
and `pending` when `L` is `confirmed`: the raw status of a confirmed transaction is `success`.
The label is reproduced for all three when the confirmation flag of `tx` is kept and only its
raw status is replaced by `L`. -/
theorem label_as_raw_status (resp resp2 : TransactionResponse) (tokenType tokenType2 : TokenType)
    (tx tx2 : BlockchainTransaction)
    (_h : parseTransactionResponse resp tokenType = .ok tx)
    (h2 : parseTransactionResponse resp2 tokenType2 = .ok tx2)
    (hs : resp2.TxStatus = determinePaymentStatus tx)
    (_hb : resp2.BlockHeight = resp.BlockHeight) :
    (determinePaymentStatus tx = "pending" → determinePaymentStatus tx2 = "pending") ∧
    (determinePaymentStatus tx = "failed" → determinePaymentStatus tx2 = "failed") ∧
    (determinePaymentStatus tx = "confirmed" → determinePaymentStatus tx2 = "pending") ∧
    determinePaymentStatus { tx with Status := determinePaymentStatus tx } =
      determinePaymentStatus tx := by
  obtain ⟨hst, _, hconf⟩ := parseTransactionResponse_status resp2 tokenType2 tx2 h2
  have hnot : ∀ L : String, L ≠ "success" → resp2.TxStatus = L → tx2.IsConfirmed = false := by
    intro L hL hr
    rw [hconf, hr]
    unfold IsTransactionConfirmed
    simp [hL]
  refine ⟨?_, ?_, ?_, ?_⟩
  · intro hL
    rw [hL] at hs
    have hc := hnot "pending" (by decide) hs
    unfold determinePaymentStatus
    rw [hc, hst, hs]
    rfl
  · intro hL
    rw [hL] at hs
    have hc := hnot "failed" (by decide) hs
    unfold determinePaymentStatus
    rw [hc, hst, hs]
    rfl
  · intro hL
    rw [hL] at hs
    have hc := hnot "confirmed" (by decide) hs
    unfold determinePaymentStatus
    rw [hc, hst, hs]
    rfl
  · rcases determinePaymentStatus_cases tx with ⟨hc, hl⟩ | ⟨hc, _, hl⟩ | ⟨hc, _, hl⟩
    · rw [hl]
      unfold determinePaymentStatus
      simp only [hc, if_true]
    · rw [hl]
      unfold determinePaymentStatus
      simp only [hc]
      rfl
    · rw [hl]
      unfold determinePaymentStatus
      simp only [hc]
      rfl

/-- C35, amended, on the failed payload of the tests (status `abort_by_response`, label
`failed`) and the payload with the raw status `failed` at the same block height: the label of
the latter is `failed` again. -/
theorem label_as_raw_status_witness :
    determinePaymentStatus
      { TxID := { value := stxTransferResponse.TxID }
        TokenType := TokenSTX
        Sender := { value := stxTransferResponse.SenderAddress }
        Recipient := { value := "ST1PQHQKV0RJXZFY1DGX8MNSNYVE3VGZJSRTPGZGM" }
        Amount := NewAmount 1000000
        Fee := NewAmount 180
        Nonce := 5
        BlockHeight := 12345
        Memo := "test payment"
        Status := "failed"
        IsConfirmed := false } = "failed" :=
  (label_as_raw_status failedResponse statusFailedResponse TokenSTX TokenSTX _ _ rfl rfl
    rfl rfl).2.1 rfl

/-! ## Payment statuses -/

/-- The results of `NewPaymentStatus`, by the lower-cased input. -/
theorem NewPaymentStatus_eq (s : String) :
    NewPaymentStatus s =
      if strings.ToLower s = "pending" then .ok StatusPending
      else if strings.ToLower s = "confirmed" then .ok StatusConfirmed
      else if strings.ToLower s = "failed" then .ok StatusFailed
      else if s = "" then .error (GoError.new "payment status cannot be empty")
      else .error (GoError.new ("invalid payment status: " ++ s)) := by
  unfold NewPaymentStatus
  by_cases h0 : s = ""
  · rw [h0]
    rfl
  · simp only [if_neg h0]

/-- C36: `NewPaymentStatus` accepts `s` exactly when the lower-cased `s` is `pending`,
`confirmed` or `failed`; for every accepted `s` with result `p`, `NewPaymentStatus(p.String())`
returns `p`, and exactly one of `IsPending`, `IsConfirmed`, `IsFailed` holds of `p`; every
label that `determinePaymentStatus` returns is accepted and maps to the status with that
string. -/
theorem NewPaymentStatus_parsing (s : String) (tx : BlockchainTransaction) :
    ((∃ p, NewPaymentStatus s = .ok p) ↔
      (strings.ToLower s = "pending" ∨ strings.ToLower s = "confirmed" ∨
        strings.ToLower s = "failed")) ∧
    (∀ p, NewPaymentStatus s = .ok p →
      p.String = strings.ToLower s ∧
      NewPaymentStatus p.String = .ok p ∧
      ((p.IsPending = true ∧ p.IsConfirmed = false ∧ p.IsFailed = false) ∨
        (p.IsPending = false ∧ p.IsConfirmed = true ∧ p.IsFailed = false) ∨
        (p.IsPending = false ∧ p.IsConfirmed = false ∧ p.IsFailed = true))) ∧
    (∃ p, NewPaymentStatus (determinePaymentStatus tx) = .ok p ∧
      p.String = determinePaymentStatus tx) := by
  refine ⟨?_, ?_, ?_⟩
  · rw [NewPaymentStatus_eq]
    by_cases h1 : strings.ToLower s = "pending"
    · rw [if_pos h1]
      exact ⟨fun _ => Or.inl h1, fun _ => ⟨_, rfl⟩⟩
    by_cases h2 : strings.ToLower s = "confirmed"
    · rw [if_neg h1, if_pos h2]
      exact ⟨fun _ => Or.inr (Or.inl h2), fun _ => ⟨_, rfl⟩⟩
    by_cases h3 : strings.ToLower s = "failed"
    · rw [if_neg h1, if_neg h2, if_pos h3]
      exact ⟨fun _ => Or.inr (Or.inr h3), fun _ => ⟨_, rfl⟩⟩
    rw [if_neg h1, if_neg h2, if_neg h3]
    constructor
    · rintro ⟨p, hp⟩
      split at hp <;> cases hp
    · rintro (h | h | h)
      · exact absurd h h1
      · exact absurd h h2
      · exact absurd h h3
  · intro p hp
    rw [NewPaymentStatus_eq] at hp
    by_cases h1 : strings.ToLower s = "pending"
    · rw [if_pos h1] at hp
      injection hp with hp
      rw [← hp, h1]
      exact ⟨rfl, rfl, Or.inl ⟨rfl, rfl, rfl⟩⟩
    by_cases h2 : strings.ToLower s = "confirmed"
    · rw [if_neg h1, if_pos h2] at hp
      injection hp with hp
      rw [← hp, h2]
      exact ⟨rfl, rfl, Or.inr (Or.inl ⟨rfl, rfl, rfl⟩)⟩
    by_cases h3 : strings.ToLower s = "failed"
    · rw [if_neg h1, if_neg h2, if_pos h3] at hp
      injection hp with hp
      rw [← hp, h3]
      exact ⟨rfl, rfl, Or.inr (Or.inr ⟨rfl, rfl, rfl⟩)⟩
    rw [if_neg h1, if_neg h2, if_neg h3] at hp
    split at hp <;> cases hp
  · rcases determinePaymentStatus_cases tx with ⟨_, hl⟩ | ⟨_, _, hl⟩ | ⟨_, _, hl⟩
    · rw [hl]
      exact ⟨StatusConfirmed, rfl, rfl⟩
    · rw [hl]
      exact ⟨StatusFailed, rfl, rfl⟩
    · rw [hl]
      exact ⟨StatusPending, rfl, rfl⟩

/-- C36 on the word `Confirmed`, accepted as the status `confirmed`, which parses to itself
and is confirmed only. -/
theorem NewPaymentStatus_parsing_witness :
    StatusConfirmed.String = strings.ToLower "Confirmed" ∧
    NewPaymentStatus StatusConfirmed.String = .ok StatusConfirmed ∧
    ((StatusConfirmed.IsPending = true ∧ StatusConfirmed.IsConfirmed = false ∧
        StatusConfirmed.IsFailed = false) ∨
      (StatusConfirmed.IsPending = false ∧ StatusConfirmed.IsConfirmed = true ∧
        StatusConfirmed.IsFailed = false) ∨
      (StatusConfirmed.IsPending = false ∧ StatusConfirmed.IsConfirmed = false ∧
        StatusConfirmed.IsFailed = true)) :=
  (NewPaymentStatus_parsing "Confirmed" createTestTransaction).2.1 StatusConfirmed rfl

/-! ## The fields that the verification engine reads -/

/-- C37: rule verification is independent of the asset kind and of the identifier, fee, nonce
and block height. Two transactions with the same `Status`, `IsConfirmed`, `Recipient`,
`Amount`, `Sender` and `Memo` receive identical `Verify` results under every criteria; in
particular the result does not change when `TokenType`, `TxID`, `Fee`, `Nonce` and
`BlockHeight` are replaced by any other values. -/
theorem Verify_reads_six_fields (tx : BlockchainTransaction) (c : VerificationCriteria) :
    (∀ tx2 : BlockchainTransaction, tx2.Status = tx.Status →
      tx2.IsConfirmed = tx.IsConfirmed → tx2.Recipient = tx.Recipient →
      tx2.Amount = tx.Amount → tx2.Sender = tx.Sender → tx2.Memo = tx.Memo →
      Verify tx2 c = Verify tx c) ∧
    (∀ (tokenType : TokenType) (txID : TransactionID) (fee : Amount) (nonce height : Nat),
      Verify { tx with TokenType := tokenType } c = Verify tx c ∧
      Verify { tx with TxID := txID } c = Verify tx c ∧
      Verify { tx with Fee := fee } c = Verify tx c ∧
      Verify { tx with Nonce := nonce } c = Verify tx c ∧
      Verify { tx with BlockHeight := height } c = Verify tx c ∧
      Verify { tx with TokenType := tokenType, TxID := txID, Fee := fee, Nonce := nonce,
                       BlockHeight := height } c = Verify tx c) := by
  constructor
  · intro tx2 h1 h2 h3 h4 h5 h6
    unfold Verify
    rw [h1, h2, h3, h4, h5, h6]
  · intro tokenType txID fee nonce height
    exact ⟨rfl, rfl, rfl, rfl, rfl, rfl⟩

/-- C37 on the test transaction and the same transfer in SBTC with another nonce and fee:
the results under the criteria of the tests are the same. -/
theorem Verify_reads_six_fields_witness :
    Verify { createTestTransaction with TokenType := TokenSBTC, Nonce := 9,
                                        Fee := NewAmount 1 } validCriteria =
      Verify createTestTransaction validCriteria :=
  (Verify_reads_six_fields createTestTransaction validCriteria).1
    { createTestTransaction with TokenType := TokenSBTC, Nonce := 9, Fee := NewAmount 1 }
    rfl rfl rfl rfl rfl rfl

/-! ## The default token type -/

/-- C39: a failed transaction from the normaliser always trips two checks. Every transaction
that `parseTransactionResponse` produces from a payload whose raw status is `failed`,
`abort_by_response` or `abort_by_post_condition` has `IsConfirmed = false`; so under every
criteria with `AcceptUnconfirmed = false` the `Errors` of `Verify` begin with the status
violation followed by `transaction not confirmed`; with a recipient mismatch and an
insufficient amount in addition, and no expected sender or memo, there are exactly 4
violations, in the order status, confirmation, recipient, amount. -/
theorem failed_normalised_trips_two_checks (resp : TransactionResponse) (tokenType : TokenType)
    (tx : BlockchainTransaction) (c : VerificationCriteria)
    (h : parseTransactionResponse resp tokenType = .ok tx)
    (hf : resp.TxStatus = "failed" ∨ resp.TxStatus = "abort_by_response" ∨
      resp.TxStatus = "abort_by_post_condition")
    (hau : c.AcceptUnconfirmed = false) :
    tx.IsConfirmed = false ∧
    (∃ rest, (Verify tx c).Errors =
      ("transaction failed with status: " ++ resp.TxStatus) ::
        "transaction not confirmed" :: rest) ∧
    (tx.Recipient ≠ c.ExpectedRecipient → tx.Amount.value < c.MinAmount.value →
      c.ExpectedSender = none → c.ExpectedMemo = none →
      (Verify tx c).Errors.length = 4 ∧
      (Verify tx c).Errors =
        [ "transaction failed with status: " ++ resp.TxStatus,
          "transaction not confirmed",
          "recipient mismatch: expected " ++ c.ExpectedRecipient.value ++ ", got "
            ++ tx.Recipient.value,
          "insufficient amount: expected at least " ++ Nat.repr c.MinAmount.value ++ ", got "
            ++ Nat.repr tx.Amount.value ]) := by
  obtain ⟨hst, _, hconf⟩ := parseTransactionResponse_status resp tokenType tx h
  have hnc : tx.IsConfirmed = false := by
    rw [hconf]
    unfold IsTransactionConfirmed
    rcases hf with hf | hf | hf <;> rw [hf] <;> rfl
  have hfail : isFailedStatus tx.Status = true := by
    rw [isFailedStatus_iff, hst]
    exact hf
  have hc : c.AcceptUnconfirmed = false ∧ tx.IsConfirmed = false := ⟨hau, hnc⟩
  refine ⟨hnc, ?_, ?_⟩
  · rw [Verify_Errors_eq, if_pos hfail, if_pos hc, hst]
    simp only [List.reduceOption_cons_of_some]
    exact ⟨_, rfl⟩
  · intro hr ha hs hm
    have herr : (Verify tx c).Errors =
        [ "transaction failed with status: " ++ resp.TxStatus,
          "transaction not confirmed",
          "recipient mismatch: expected " ++ c.ExpectedRecipient.value ++ ", got "
            ++ tx.Recipient.value,
          "insufficient amount: expected at least " ++ Nat.repr c.MinAmount.value ++ ", got "
            ++ Nat.repr tx.Amount.value ] := by
      rw [Verify_Errors_eq, hs, hm, if_pos hfail, if_pos hc, if_pos hr, if_pos ha, hst]
      rfl
    exact ⟨by rw [herr]; rfl, herr⟩

/-- C39 on the failed payload of the tests (status `abort_by_response`) under the criteria of
`TestVerificationService_CollectsMultipleErrors`: four violations. -/
theorem failed_normalised_trips_two_checks_witness :
    (Verify { createTestTransaction with
              Status := "abort_by_response", Memo := "", IsConfirmed := false }
        multipleErrorsCriteria).Errors =
      [ "transaction failed with status: abort_by_response",
        "transaction not confirmed",
        "recipient mismatch: expected ST3J6ZY48GV1EZ5V2V5RB9MP66SW86PYKKNRV9EJ8, " ++
          "got ST1PQHQKV0RJXZFY1DGX8MNSNYVE3VGZJSRTPGZGM",
        "insufficient amount: expected at least 5000000, got 1000000" ] :=
  ((failed_normalised_trips_two_checks failedResponse TokenSTX
      { createTestTransaction with
        Status := "abort_by_response", Memo := "", IsConfirmed := false }
      multipleErrorsCriteria rfl (Or.inr (Or.inl rfl)) rfl).2.2
    (by decide) (by decide) rfl rfl).2

/-! ## The retry budget of zero -/

/-- A result of the loop of `GetTransactionWithRetry` without an error is the transaction of a
successful fetch, unless the loop had no iteration left and no error recorded. -/
theorem getTransactionWithRetryLoop_nil_error (env : PollEnv) :
    ∀ (remaining : Nat) (lastErr : Option GoError) (n : PollCount) (tx : BlockchainTransaction),
      (getTransactionWithRetryLoop env remaining lastErr n).1 = (tx, none) →
      (remaining = 0 ∧ lastErr = none) ∨
      ∃ k, k < remaining ∧ env.fetch (n.fetches + k) = .ok tx ∧
        (∀ i, i < k → ∃ e, env.fetch (n.fetches + i) = .error e) ∧
        (getTransactionWithRetryLoop env remaining lastErr n).2.fetches = n.fetches + k + 1 := by
  intro remaining
  induction remaining with
  | zero =>
    intro lastErr n tx h
    rw [getTransactionWithRetryLoop] at h
    injection h with _ h
    exact Or.inl ⟨rfl, h⟩
  | succ r ih =>
    intro lastErr n tx h
    right
    rw [getTransactionWithRetryLoop] at h ⊢
    cases hf : env.fetch n.fetches with
    | ok t =>
      rw [hf] at h
      injection h with h _
      refine ⟨0, Nat.succ_pos r, ?_, ?_, rfl⟩
      · rw [Nat.add_zero, hf, h]
      · intro i hi
        exact absurd hi (Nat.not_lt_zero i)
    | error e =>
      rw [hf] at h
      cases hd : env.done n.waits with
      | true =>
        rw [hd] at h
        simp only [if_true] at h
        injection h with _ h
        cases h
      | false =>
        rw [hd] at h
        simp only [Bool.false_eq_true, if_false] at h ⊢
        rcases ih (some e) { fetches := n.fetches + 1, waits := n.waits + 1 } tx h with
          ⟨_, hnone⟩ | ⟨k, hk, hfk, hearlier, hcount⟩
        · cases hnone
        · simp only at hfk hearlier hcount
          refine ⟨k + 1, Nat.succ_lt_succ hk, ?_, ?_, ?_⟩
          · rw [← hfk]
            congr 1
            omega
          · intro i hi
            cases i with
            | zero => exact ⟨e, by rw [Nat.add_zero]; exact hf⟩
            | succ j =>
              obtain ⟨e2, he2⟩ := hearlier j (Nat.lt_of_succ_lt_succ hi)
              refine ⟨e2, ?_⟩
              rw [← he2]
              congr 1
              omega
          · rw [hcount]
            omega

/-- C40: the retry budget of zero. When `maxRetries ≤ 0`, `GetTransactionWithRetry` makes no
fetch and no wait and returns the zero-valued transaction (empty identifier, sender and
recipient) with a nil error, whereas `WaitForConfirmation` makes exactly one fetch and returns
its outcome. For `maxRetries ≥ 1` and no cancellation, a nil error from
`GetTransactionWithRetry` always comes with the transaction returned by a successful fetch,
the first one to succeed. -/
theorem zero_retry_budget (env : PollEnv) (maxRetries : Int) :
    (maxRetries ≤ 0 →
      GetTransactionWithRetry env maxRetries =
        ((zeroTransaction, none), { fetches := 0, waits := 0 }) ∧
      zeroTransaction.TxID.IsZero = true ∧ zeroTransaction.Sender.IsZero = true ∧
      zeroTransaction.Recipient.IsZero = true ∧
      WaitForConfirmation env maxRetries = (env.fetch 0, { fetches := 1, waits := 0 })) ∧
    (1 ≤ maxRetries → (∀ w, env.done w = false) →
      ∀ tx, (GetTransactionWithRetry env maxRetries).1 = (tx, none) →
        ∃ k : Nat, (k : Int) < maxRetries ∧ env.fetch k = .ok tx ∧
          (∀ i, i < k → ∃ e, env.fetch i = .error e) ∧
          (GetTransactionWithRetry env maxRetries).2.fetches = k + 1) := by
  constructor
  · intro hle
    have h0 : maxRetries.toNat = 0 := Int.toNat_eq_zero.2 hle
    unfold GetTransactionWithRetry WaitForConfirmation
    rw [h0, getTransactionWithRetryLoop, waitForConfirmationLoop]
    exact ⟨rfl, rfl, rfl, rfl, rfl⟩
  · intro hge _ tx h
    unfold GetTransactionWithRetry at h ⊢
    rcases getTransactionWithRetryLoop_nil_error env maxRetries.toNat none
      { fetches := 0, waits := 0 } tx h with ⟨h0, _⟩ | ⟨k, hk, hfk, hearlier, hcount⟩
    · omega
    · simp only [Nat.zero_add] at hfk hearlier hcount
      exact ⟨k, by omega, hfk, hearlier, hcount⟩

/-- C40 with a budget of 0 on the chain whose fetches all return the confirmed test
transaction from the third on: no fetch and no error on one side, the outcome of the first
fetch on the other; and with a budget of 5, the transaction of the third fetch. -/
theorem zero_retry_budget_witness :
    (GetTransactionWithRetry confirmedAtThirdFetch 0 =
        ((zeroTransaction, none), { fetches := 0, waits := 0 }) ∧
      WaitForConfirmation confirmedAtThirdFetch 0 =
        (.error (GoError.new "transaction not found"), { fetches := 1, waits := 0 })) ∧
    (∃ k : Nat, (k : Int) < 5 ∧ confirmedAtThirdFetch.fetch k = .ok createTestTransaction ∧
      (∀ i, i < k → ∃ e, confirmedAtThirdFetch.fetch i = .error e) ∧
      (GetTransactionWithRetry confirmedAtThirdFetch 5).2.fetches = k + 1) :=
  ⟨⟨((zero_retry_budget confirmedAtThirdFetch 0).1 (by decide)).1,
      ((zero_retry_budget confirmedAtThirdFetch 0).1 (by decide)).2.2.2.2⟩,
    (zero_retry_budget confirmedAtThirdFetch 5).2 (by decide) (fun _ => rfl)
      createTestTransaction rfl⟩

end X402
